import Mathlib

/-!
Verification development for the claims-packet validation engine
(`src/extraction_review`): a shallow embedding of the data model
(`schemas/common.py`, `schemas/packet_output.py`) and of the four validator
modules (`validators/math_checks.py`, `validators/billing_reconciliation.py`,
`validators/duplicate_detection.py`, `validators/coverage_checks.py`) together
with the orchestrator (`validators/__init__.py`).

Embedding conventions:
* Python `float` dollar amounts are modelled as exact rationals `ℚ`; the
  tolerance `0.01` becomes `1/100`.  The claims under study are about the
  idealized arithmetic (exact dollar values), not about binary rounding.
* `datetime.date` values are modelled as `Int` ordinals (only equality and
  order on dates are ever used).  A date-valued entry of `extracted_data` is
  represented by the constructor `PyVal.date`; a string that
  `date.fromisoformat` would fail to parse is represented by `PyVal.str`
  (a parseable ISO string and an actual `date` object are indistinguishable
  to the validators, so both are represented as `PyVal.date`).
* The untyped `extracted_data` mapping is an association list
  `List (String × PyVal)`; values may be `PyVal.none` (Python `None`),
  mirroring the dict semantics of `.get` with and without defaults.
* Code that can raise (attribute access on `None`, arithmetic on non-numbers,
  iterating a non-list, unhashable dict keys, string-joining non-strings) is
  modelled in the exception monad `Py := Except String`; the message records
  the Python exception class.  Code paths that cannot raise are pure.
* Python f-string interpolation of an arbitrary object (`str(x)`) is total and
  modelled by `pyStr`; the exact rendering of `:.2f` float formatting is
  abbreviated by `fmtMoney` (no claim depends on the rendering of numbers).
* `list.sort` with a key function is Python's stable Timsort; any stable sort
  agrees with it, and it is modelled by `List.mergeSort` on the same key.
* `date.today()` (used by the coverage checker's urgency logic) is impurity;
  it is threaded explicitly as a `today : Int` parameter.
-/

/-- Decidable equality for `Except`, used to evaluate concrete runs of the
validators in witnesses. -/
instance {ε α : Type} [DecidableEq ε] [DecidableEq α] : DecidableEq (Except ε α) :=
  fun a b =>
    match a, b with
    | .error e, .error f =>
      if h : e = f then .isTrue (by rw [h]) else .isFalse (by simpa using h)
    | .error _, .ok _ => .isFalse (by simp)
    | .ok _, .error _ => .isFalse (by simp)
    | .ok x, .ok y =>
      if h : x = y then .isTrue (by rw [h]) else .isFalse (by simpa using h)

/-! ## Data model (`schemas/common.py`, `schemas/packet_output.py`) -/

/-- Severity level for validation findings (`ValidationSeverity`). -/
inductive ValidationSeverity where
  | HIGH
  | MEDIUM
  | LOW
  | INFO
  deriving DecidableEq, Repr

/-- Status outcome of a validation check (`ValidationStatus`). -/
inductive ValidationStatus where
  | PASS
  | MISMATCH
  | WARNING
  | ERROR
  | INFO
  deriving DecidableEq, Repr

/-- Types of documents in an insurance claims packet (`DocumentType` in
`schemas/common.py`).  The source enum has exactly these seven members. -/
inductive DocumentType where
  | EOB
  | CMS1500
  | UB04
  | MEDICAL_BILL
  | PHARMACY_RECEIPT
  | LAB_REPORT
  | UNKNOWN
  deriving DecidableEq, Repr

/-- The `.value` string of each `DocumentType` member. -/
def DocumentType.value : DocumentType → String
  | .EOB => "EOB"
  | .CMS1500 => "CMS-1500"
  | .UB04 => "UB-04"
  | .MEDICAL_BILL => "MEDICAL_BILL"
  | .PHARMACY_RECEIPT => "PHARMACY_RECEIPT"
  | .LAB_REPORT => "LAB_REPORT"
  | .UNKNOWN => "UNKNOWN"

/-- All members of the `DocumentType` enum, in declaration order. -/
def DocumentType.all : List DocumentType :=
  [.EOB, .CMS1500, .UB04, .MEDICAL_BILL, .PHARMACY_RECEIPT, .LAB_REPORT, .UNKNOWN]

/-- Keys of `SCHEMA_REGISTRY` in `schemas/__init__.py`, in declaration order. -/
def SCHEMA_REGISTRY_keys : List String :=
  ["EOB", "CMS-1500", "UB-04", "MEDICAL_BILL", "PHARMACY_RECEIPT", "LAB_REPORT",
   "DENTAL_CLAIM", "PRIOR_AUTH", "APPEAL_DECISION", "ITEMIZED_STATEMENT"]

/-- Untyped Python values as they occur in `extracted_data` mappings. -/
inductive PyVal where
  | none
  | num (q : ℚ)
  | str (s : String)
  | date (d : Int)
  | pybool (b : Bool)
  | list (xs : List PyVal)
  | dict (kvs : List (String × PyVal))
  deriving Repr

mutual

/-- Structural equality of embedded Python values (Python `==` on the value
kinds that occur in extracted data), written by hand so that it reduces in
the kernel. -/
def PyVal.beq : PyVal → PyVal → Bool
  | .none, .none => true
  | .num a, .num b => a == b
  | .str a, .str b => a == b
  | .date a, .date b => a == b
  | .pybool a, .pybool b => a == b
  | .list xs, .list ys => PyVal.beqList xs ys
  | .dict xs, .dict ys => PyVal.beqKVs xs ys
  | _, _ => false

/-- Elementwise equality of embedded Python lists. -/
def PyVal.beqList : List PyVal → List PyVal → Bool
  | [], [] => true
  | x :: xs, y :: ys => PyVal.beq x y && PyVal.beqList xs ys
  | _, _ => false

/-- Elementwise equality of embedded Python dict entries. -/
def PyVal.beqKVs : List (String × PyVal) → List (String × PyVal) → Bool
  | [], [] => true
  | x :: xs, y :: ys => x.1 == y.1 && PyVal.beq x.2 y.2 && PyVal.beqKVs xs ys
  | _, _ => false

end

instance : BEq PyVal := ⟨PyVal.beq⟩

/-- An untyped field mapping (a Python `dict[str, Any]`). -/
abbrev Dict := List (String × PyVal)

/-- The exception monad for embedded Python code: the `String` names the
Python exception class that would be raised. -/
abbrev Py (α : Type) : Type := Except String α

/-- Whether this is Python `None`. -/
def PyVal.isNone : PyVal → Bool
  | .none => true
  | _ => false

/-- Python truthiness (`bool(x)`). -/
def PyVal.truthy : PyVal → Bool
  | .none => false
  | .num q => q != 0
  | .str s => s != ""
  | .date _ => true
  | .pybool b => b
  | .list xs => !xs.isEmpty
  | .dict kvs => !kvs.isEmpty

/-- Whether the value may be used as a Python dict key (hashable). -/
def PyVal.hashable : PyVal → Bool
  | .list _ => false
  | .dict _ => false
  | _ => true

/-- Python `x or y` (returns `x` when truthy, else `y`); both sides already
evaluated. -/
def pyOr (x y : PyVal) : PyVal := if x.truthy then x else y

/-- Python `str(x)`: total string conversion, used for f-string interpolation
of untyped values (the exact rendering is irrelevant to every claim). -/
def pyStr : PyVal → String
  | .none => "None"
  | .num q => toString q
  | .str s => s
  | .date d => toString d
  | .pybool b => if b then "True" else "False"
  | .list _ => "[...]"
  | .dict _ => "{...}"

/-- Rendering of an f-string `:.2f` conversion; applied only to values already
known to be numbers (a non-number raises before reaching this point). -/
def fmtMoney (q : ℚ) : String := toString q

/-- Interpret a value as a number for Python arithmetic or comparison with a
number; anything else raises `TypeError`.  Python `bool` is numeric. -/
def PyVal.asNumM : PyVal → Py ℚ
  | .num q => pure q
  | .pybool b => pure (if b then 1 else 0)
  | _ => throw "TypeError"

/-- Attribute access `.get`/`.items` on a value expected to be a dict;
anything else (including `None`) raises `AttributeError`. -/
def PyVal.asDictM : PyVal → Py Dict
  | .dict kvs => pure kvs
  | _ => throw "AttributeError"

/-- A value expected to be a string (e.g. for `.lower()` or `str.join`);
anything else raises. -/
def PyVal.asStrM : PyVal → Py String
  | .str s => pure s
  | _ => throw "AttributeError"

/-- Iterating a value expected to be a list of dicts (`for item in xs` with
`item.get` used on each element). -/
def PyVal.itemsM : PyVal → Py (List Dict)
  | .list xs => xs.mapM PyVal.asDictM
  | _ => throw "TypeError"

/-- Python `d.get(k)` on an association-list dict: the stored value, or `None`
when the key is absent. -/
def Dict.get (d : Dict) (k : String) : PyVal :=
  match d.find? (fun kv => kv.1 == k) with
  | some kv => kv.2
  | Option.none => .none

/-- Python `d.get(k, default)`: the stored value (even if `None`), or the
default when the key is absent. -/
def Dict.getD (d : Dict) (k : String) (dflt : PyVal) : PyVal :=
  match d.find? (fun kv => kv.1 == k) with
  | some kv => kv.2
  | Option.none => dflt

/-- The pydantic coercion applied when an arbitrary extracted value is stored
into `ValidationResult.potential_overcharge : float | None`. -/
def PyVal.asOverchargeM : PyVal → Py (Option ℚ)
  | .none => pure Option.none
  | .num q => pure (some q)
  | .pybool b => pure (some (if b then 1 else 0))
  | _ => throw "ValidationError"

/-- Character-list prefix test (kernel-computable). -/
def isPrefixList : List Char → List Char → Bool
  | [], _ => true
  | _ :: _, [] => false
  | c :: cs, d :: ds => c == d && isPrefixList cs ds

/-- Character-list contiguous-substring test (kernel-computable). -/
def hasSubList (pat : List Char) : List Char → Bool
  | [] => pat.isEmpty
  | c :: rest => isPrefixList pat (c :: rest) || hasSubList pat rest

/-- Python substring test `needle in hay`, computed structurally on the
character lists (Lean's `String.splitOn` does not reduce in the kernel). -/
def pyInStr (needle hay : String) : Bool :=
  hasSubList needle.data hay.data

/-- Python `str.lower()`, computed structurally (ASCII case folding). -/
def pyToLower (s : String) : String :=
  ⟨s.data.map Char.toLower⟩

/-- Python `str.strip()`: remove leading and trailing whitespace, computed
structurally (common ASCII whitespace). -/
def pyStrip (s : String) : String :=
  let ws := fun c : Char => c == ' ' || c == '\t' || c == '\n' || c == '\r'
  ⟨(((s.data.dropWhile ws).reverse.dropWhile ws).reverse)⟩

/-- One fuel-driven pass of non-overlapping left-to-right replacement. -/
def replaceFuel (pat rep : List Char) : Nat → List Char → List Char
  | 0, rest => rest
  | _ + 1, [] => []
  | fuel + 1, c :: rest =>
    if isPrefixList pat (c :: rest) then
      rep ++ replaceFuel pat rep fuel (rest.drop (pat.length - 1))
    else c :: replaceFuel pat rep fuel rest

/-- Python `str.replace(pat, rep)` for a non-empty pattern, computed
structurally (the abbreviation patterns used by `_providers_match` are all
non-empty; an empty pattern returns the string unchanged). -/
def pyReplace (s pat rep : String) : String :=
  if pat.data.isEmpty then s
  else ⟨replaceFuel pat.data rep.data s.data.length s.data⟩

/-- Result of a single validation check (`ValidationResult`). -/
structure ValidationResult where
  check_name : String
  status : ValidationStatus
  severity : ValidationSeverity
  detail : String
  potential_overcharge : Option ℚ := Option.none
  recommendation : Option String := Option.none
  deriving DecidableEq, Repr

/-- Metadata wrapper for a processed document (`DocumentEnvelope`). -/
structure DocumentEnvelope where
  doc_id : String
  filename : String
  classified_type : DocumentType
  classification_confidence : ℚ
  field_confidence : List (String × ℚ) := []
  extraction_warnings : List String := []
  deriving DecidableEq, Repr

/-- A single document after extraction and validation (`ProcessedDocument`). -/
structure ProcessedDocument where
  envelope : DocumentEnvelope
  extracted_data : Dict
  schema_used : DocumentType
  deriving Repr

/-- Shared helper: `data.get(k1, {}).get(k2, dflt)` — the nested lookup
pattern used for provider blocks throughout the validators.  Raises
`AttributeError` when the stored block is not a dict (e.g. explicit `None`). -/
def getNested (data : Dict) (k1 k2 : String) (dflt : PyVal) : Py PyVal := do
  let block ← (Dict.getD data k1 (.dict [])).asDictM
  pure (Dict.getD block k2 dflt)

/-- Date parsing shared by the validators (`_parse_date` in
`billing_reconciliation.py`, `duplicate_detection.py`, `coverage_checks.py`):
a `date` value is kept, anything else (including a malformed string) is
treated as absent; never raises. -/
def _parse_date : PyVal → Option Int
  | .date d => some d
  | _ => Option.none

/-! ## Math validation checks (`validators/math_checks.py`) -/

/-- Tolerance for all float comparisons (`TOLERANCE = 0.01`). -/
def TOLERANCE : ℚ := 1 / 100

/-- Sum values, skipping `None` (`_safe_sum`); summing a non-number raises. -/
def _safe_sum (values : List PyVal) : Py ℚ :=
  values.foldlM
    (fun acc v =>
      if v.isNone then pure acc
      else do
        let q ← v.asNumM
        pure (acc + q))
    0

/-- Check 1 of `_check_eob_math`: `eob_billed_sum`. -/
def _eob_billed_sum_check (data : Dict) (doc_id : String) : Py (List ValidationResult) :=
  let line_items := Dict.getD data "line_items" (.list [])
  let total_billed := Dict.get data "total_billed"
  if !total_billed.isNone && line_items.truthy then do
    let items ← line_items.itemsM
    let line_sum ← _safe_sum (items.map (fun item => Dict.get item "billed_amount"))
    let tb ← total_billed.asNumM
    if |line_sum - tb| > TOLERANCE then
      pure [{ check_name := "eob_billed_sum"
              status := .MISMATCH
              severity := .MEDIUM
              detail := "EOB " ++ doc_id ++ ": Line item billed amounts sum to $" ++
                fmtMoney line_sum ++ " but total_billed is $" ++ fmtMoney tb
              potential_overcharge := some |line_sum - tb|
              recommendation := some "Review the EOB for calculation errors" }]
    else pure []
  else pure []

/-- Check 2 of `_check_eob_math`: `eob_paid_sum`. -/
def _eob_paid_sum_check (data : Dict) (doc_id : String) : Py (List ValidationResult) :=
  let line_items := Dict.getD data "line_items" (.list [])
  let total_insurance_paid := Dict.get data "total_insurance_paid"
  if !total_insurance_paid.isNone && line_items.truthy then do
    let items ← line_items.itemsM
    let line_sum ← _safe_sum (items.map (fun item => Dict.get item "insurance_paid"))
    let tip ← total_insurance_paid.asNumM
    if |line_sum - tip| > TOLERANCE then
      pure [{ check_name := "eob_paid_sum"
              status := .MISMATCH
              severity := .MEDIUM
              detail := "EOB " ++ doc_id ++ ": Line item insurance_paid sum $" ++
                fmtMoney line_sum ++ " doesn't match total $" ++ fmtMoney tip
              potential_overcharge := Option.none
              recommendation := some "Contact insurance to verify payment amounts" }]
    else pure []
  else pure []

/-- Check 3 of `_check_eob_math`: `eob_patient_responsibility_breakdown`. -/
def _eob_breakdown_check (data : Dict) (doc_id : String) : Py (List ValidationResult) :=
  let total_patient := Dict.get data "total_patient_responsibility"
  let total_deductible := pyOr (Dict.get data "total_deductible") (.num 0)
  let total_copay := pyOr (Dict.get data "total_copay") (.num 0)
  let total_coinsurance := pyOr (Dict.get data "total_coinsurance") (.num 0)
  if !total_patient.isNone then do
    let td ← total_deductible.asNumM
    let tc ← total_copay.asNumM
    let tco ← total_coinsurance.asNumM
    let breakdown_sum := td + tc + tco
    let tp ← total_patient.asNumM
    if |breakdown_sum - tp| > TOLERANCE && breakdown_sum > 0 then
      pure [{ check_name := "eob_patient_responsibility_breakdown"
              status := .MISMATCH
              severity := .MEDIUM
              detail := "EOB " ++ doc_id ++ ": Deductible ($" ++ fmtMoney td ++
                ") + copay ($" ++ fmtMoney tc ++ ") + coinsurance ($" ++ fmtMoney tco ++
                ") = $" ++ fmtMoney breakdown_sum ++
                ", but total patient responsibility is $" ++ fmtMoney tp
              potential_overcharge :=
                if breakdown_sum < tp then some |breakdown_sum - tp| else Option.none
              recommendation :=
                some "Verify patient responsibility calculation with insurance" }]
    else pure []
  else pure []

/-- Check EOB-specific math (`_check_eob_math`). -/
def _check_eob_math (data : Dict) (doc_id : String) : Py (List ValidationResult) := do
  let r1 ← _eob_billed_sum_check data doc_id
  let r2 ← _eob_paid_sum_check data doc_id
  let r3 ← _eob_breakdown_check data doc_id
  pure (r1 ++ r2 ++ r3)

/-- Check 4 of `_check_bill_math`: `bill_line_item_sum`. -/
def _bill_line_sum_check (data : Dict) (doc_id : String) : Py (List ValidationResult) :=
  let line_items := Dict.getD data "line_items" (.list [])
  let total_charges := Dict.get data "total_charges"
  if !total_charges.isNone && line_items.truthy then do
    let items ← line_items.itemsM
    let line_sum ← _safe_sum (items.map (fun item => Dict.get item "amount"))
    let tc ← total_charges.asNumM
    if |line_sum - tc| > TOLERANCE then
      pure [{ check_name := "bill_line_item_sum"
              status := .ERROR
              severity := .HIGH
              detail := "Bill " ++ doc_id ++ ": Line items sum to $" ++
                fmtMoney line_sum ++ " but total_charges is $" ++ fmtMoney tc
              potential_overcharge :=
                if tc > line_sum then some (tc - line_sum) else Option.none
              recommendation :=
                some "Request itemized bill from provider to verify charges" }]
    else pure []
  else pure []

/-- Check 5 of `_check_bill_math`: `bill_balance_due_math`. -/
def _bill_balance_check (data : Dict) (doc_id : String) : Py (List ValidationResult) :=
  let total_charges := Dict.get data "total_charges"
  let balance_due := Dict.get data "balance_due"
  if !balance_due.isNone && !total_charges.isNone then do
    let adjustments ← (pyOr (Dict.get data "insurance_adjustments") (.num 0)).asNumM
    let ins_payments ← (pyOr (Dict.get data "insurance_payments") (.num 0)).asNumM
    let patient_payments ← (pyOr (Dict.get data "patient_payments") (.num 0)).asNumM
    let tc ← total_charges.asNumM
    let expected_balance := tc - adjustments - ins_payments - patient_payments
    let bd ← balance_due.asNumM
    if |expected_balance - bd| > TOLERANCE then
      pure [{ check_name := "bill_balance_due_math"
              status := .MISMATCH
              severity := .MEDIUM
              detail := "Bill " ++ doc_id ++ ": Expected balance $" ++
                fmtMoney expected_balance ++ " (charges $" ++ fmtMoney tc ++
                " - adjustments $" ++ fmtMoney adjustments ++
                " - insurance paid $" ++ fmtMoney ins_payments ++
                " - patient paid $" ++ fmtMoney patient_payments ++
                "), but balance_due shows $" ++ fmtMoney bd
              potential_overcharge :=
                if bd > expected_balance then some (bd - expected_balance) else Option.none
              recommendation :=
                some "Contact billing department to clarify balance calculation" }]
    else pure []
  else pure []

/-- Check medical bill math (`_check_bill_math`). -/
def _check_bill_math (data : Dict) (doc_id : String) : Py (List ValidationResult) := do
  let r4 ← _bill_line_sum_check data doc_id
  let r5 ← _bill_balance_check data doc_id
  pure (r4 ++ r5)

/-- Run all math validation checks (`run_math_checks`). -/
def run_math_checks (documents : List ProcessedDocument) : Py (List ValidationResult) :=
  documents.foldlM
    (fun results doc => do
      let doc_type := doc.envelope.classified_type.value
      let data := doc.extracted_data
      let doc_id := doc.envelope.doc_id
      if doc_type == "EOB" then do
        let rs ← _check_eob_math data doc_id
        pure (results ++ rs)
      else if doc_type == "MEDICAL_BILL" then do
        let rs ← _check_bill_math data doc_id
        pure (results ++ rs)
      else pure results)
    []

/-! ## Billing reconciliation (`validators/billing_reconciliation.py`) -/

/-- Normalize provider name for matching (`_normalize_provider_name`): a falsy
value becomes the empty string; a truthy value must be a string and is
lowercased and stripped. -/
def _normalize_provider_name (name : PyVal) : Py String :=
  if !name.truthy then pure ""
  else do
    let s ← name.asStrM
    pure (pyStrip (pyToLower s))

/-- The fixed abbreviation map used by `_providers_match`. -/
def abbrev_map : List (String × String) :=
  [("hospital", "hosp"), ("medical", "med"), ("center", "ctr"), ("healthcare", "health")]

/-- Check if two provider names likely refer to the same entity
(`_providers_match`). -/
def _providers_match (name1 name2 : String) : Bool :=
  if name1 == "" || name2 == "" then false
  else if name1 == name2 then true
  else if pyInStr name1 name2 || pyInStr name2 name1 then true
  else
    let n1 := abbrev_map.foldl (fun s p => pyReplace s p.1 p.2) name1
    let n2 := abbrev_map.foldl (fun s p => pyReplace s p.1 p.2) name2
    n1 == n2 || pyInStr n1 n2 || pyInStr n2 n1

/-- Check if two date ranges overlap or if any dates match (`_dates_overlap`). -/
def _dates_overlap (start1 end1 start2 end2 : Option Int) : Bool :=
  -- If we don't have enough date info, assume possible match
  if start1.isNone && end1.isNone && start2.isNone && end2.isNone then true
  else
    -- Use single dates for comparison if ranges not complete
    let date1 := start1 <|> end1
    let date2 := start2 <|> end2
    -- If we only have single dates, check equality
    if date1.isSome && date2.isSome && !(end1.isSome && end2.isSome) then
      date1 == date2
    else
      -- Range overlap check
      match start1, end1, start2, end2 with
      | some s1, some e1, some s2, some e2 => decide (s1 ≤ e2) && decide (s2 ≤ e1)
      -- Partial range - be permissive
      | _, _, _, _ => true

/-- Association list keyed by arbitrary Python values (a Python dict whose
keys are extracted field values). -/
abbrev PyAssoc := List (PyVal × PyVal)

/-- Python `d[k] = v` on a `PyAssoc`: raises `TypeError` on an unhashable key,
replaces in place if the key exists, appends otherwise (insertion order). -/
def pyAssocSetM (d : PyAssoc) (k v : PyVal) : Py PyAssoc :=
  if !k.hashable then throw "TypeError"
  else if d.any (fun kv => kv.1 == k) then
    pure (d.map (fun kv => if kv.1 == k then (kv.1, v) else kv))
  else pure (d ++ [(k, v)])

/-- Python `k in d` on a `PyAssoc`: raises `TypeError` on an unhashable key. -/
def pyAssocContainsM (d : PyAssoc) (k : PyVal) : Py Bool :=
  if !k.hashable then throw "TypeError"
  else pure (d.any (fun kv => kv.1 == k))

/-- Python `d[k]` on a `PyAssoc` whose key is known to be present. -/
def pyAssocGet (d : PyAssoc) (k : PyVal) : PyVal :=
  match d.find? (fun kv => kv.1 == k) with
  | some kv => kv.2
  | Option.none => .none

/-- Compare line items between matched EOB and bill (`_compare_line_items`). -/
def _compare_line_items (eob bill : ProcessedDocument) : Py (List ValidationResult) := do
  let eob_items ← (Dict.getD eob.extracted_data "line_items" (.list [])).itemsM
  let bill_items ← (Dict.getD bill.extracted_data "line_items" (.list [])).itemsM
  -- Build lookup of allowed amounts by CPT from EOB
  let eob_allowed_by_cpt ← eob_items.foldlM
    (fun acc item => do
      let cpt := Dict.get item "cpt_code"
      let allowed := Dict.get item "allowed_amount"
      if cpt.truthy && !allowed.isNone then pyAssocSetM acc cpt allowed
      else pure acc)
    ([] : PyAssoc)
  -- Check each bill line item against allowed amount
  bill_items.foldlM
    (fun results item => do
      let cpt := Dict.get item "cpt_code"
      let amount := Dict.get item "amount"
      if cpt.truthy && !amount.isNone then do
        let mem ← pyAssocContainsM eob_allowed_by_cpt cpt
        if mem then do
          let allowed ← (pyAssocGet eob_allowed_by_cpt cpt).asNumM
          let a ← amount.asNumM
          if a > allowed + (1 / 100 : ℚ) then
            let overcharge := a - allowed
            pure (results ++
              [{ check_name := "line_item_over_allowed"
                 status := .MISMATCH
                 severity := .MEDIUM
                 detail := "Bill charges $" ++ fmtMoney a ++ " for CPT " ++ pyStr cpt ++
                   " but EOB allowed amount is only $" ++ fmtMoney allowed
                 potential_overcharge := some overcharge
                 recommendation := some ("Request provider adjust CPT " ++ pyStr cpt ++
                   " charge to insurance allowed amount") }])
          else pure results
        else pure results
      else pure results)
    []

/-- Insertion into the `matched_eobs` / `matched_bills` sets (only membership
is ever observed). -/
def insertStr (xs : List String) (s : String) : List String :=
  if xs.contains s then xs else xs ++ [s]

/-- The `missing_bills` note. -/
def missingBillsResult : ValidationResult :=
  { check_name := "missing_bills"
    status := .WARNING
    severity := .LOW
    detail := "Found EOB(s) but no provider bills. Cannot fully reconcile without bills."
    recommendation := some "Obtain bills from providers to verify amounts owed" }

/-- The `missing_eobs` note. -/
def missingEobsResult : ValidationResult :=
  { check_name := "missing_eobs"
    status := .WARNING
    severity := .MEDIUM
    detail := "Found provider bill(s) but no EOB. Cannot verify insurance processing."
    recommendation := some "Request EOB from insurance before paying bills" }

/-- The normalized provider name used for matching
(`_normalize_provider_name(data.get("provider", {}).get("name", ""))`). -/
def docProviderNorm (data : Dict) : Py String := do
  let v ← getNested data "provider" "name" (.str "")
  _normalize_provider_name v

/-- The amount comparison of a matched (EOB, bill) pair (the `Compare
amounts` block of `run_billing_reconciliation_checks`): the
`eob_vs_bill_amount` results emitted for this pair. -/
def _compare_amounts (eob_patient_resp bill_balance : PyVal) (bill_provider : String) :
    Py (List ValidationResult) :=
  if !eob_patient_resp.isNone && !bill_balance.isNone then do
    let p ← eob_patient_resp.asNumM
    let b ← bill_balance.asNumM
    if |p - b| > (1 / 100 : ℚ) then
      let overcharge := b - p
      pure [{ check_name := "eob_vs_bill_amount"
              status := ValidationStatus.MISMATCH
              severity := ValidationSeverity.HIGH
              detail := "Bill from " ++
                (if bill_provider == "" then "provider" else bill_provider) ++
                " shows balance of $" ++ fmtMoney b ++
                " but EOB says patient responsibility is $" ++ fmtMoney p
              potential_overcharge :=
                if overcharge > 0 then some overcharge else Option.none
              recommendation := some
                (if overcharge > 0 then
                  "Contact " ++
                  (if bill_provider == "" then "provider" else bill_provider) ++
                  " to request adjustment to match EOB amount"
                else "Verify with insurance if additional payment is expected") }]
    else pure []
  else pure []

/-- Run billing reconciliation checks between EOBs and bills
(`run_billing_reconciliation_checks`). -/
def run_billing_reconciliation_checks (documents : List ProcessedDocument) :
    Py (List ValidationResult) := do
  let eobs := documents.filter (fun d => d.envelope.classified_type.value == "EOB")
  let bills := documents.filter (fun d => d.envelope.classified_type.value == "MEDICAL_BILL")
  -- Check for missing document types
  let results : List ValidationResult :=
    (if !eobs.isEmpty && bills.isEmpty then [missingBillsResult] else []) ++
    (if !bills.isEmpty && eobs.isEmpty then [missingEobsResult] else [])
  -- Match EOBs to bills and run reconciliation
  let st ← eobs.foldlM
    (fun (st : List ValidationResult × List String × List String) eob => do
      let eob_data := eob.extracted_data
      let eob_provider ← docProviderNorm eob_data
      let eob_dos_start := _parse_date (Dict.get eob_data "date_of_service_start")
      let eob_dos_end := _parse_date (Dict.get eob_data "date_of_service_end")
      bills.foldlM
        (fun (st2 : List ValidationResult × List String × List String) bill => do
          let (results, matched_eobs, matched_bills) := st2
          let bill_data := bill.extracted_data
          let bill_provider ← docProviderNorm bill_data
          let bill_dos_start := _parse_date (Dict.get bill_data "date_of_service_start")
          let bill_dos_end := _parse_date (Dict.get bill_data "date_of_service_end")
          -- Check if they match (fuzzy provider name + overlapping dates)
          if _providers_match eob_provider bill_provider &&
              _dates_overlap eob_dos_start eob_dos_end bill_dos_start bill_dos_end then do
            let matched_eobs := insertStr matched_eobs eob.envelope.doc_id
            let matched_bills := insertStr matched_bills bill.envelope.doc_id
            -- Compare amounts
            let eob_patient_resp := Dict.get eob_data "total_patient_responsibility"
            let bill_balance := Dict.get bill_data "balance_due"
            let amountResults ← _compare_amounts eob_patient_resp bill_balance bill_provider
            -- Compare line items by CPT
            let liResults ← _compare_line_items eob bill
            pure (results ++ amountResults ++ liResults, matched_eobs, matched_bills)
          else pure st2)
        st)
    (results, ([] : List String), ([] : List String))
  let (results, matched_eobs, matched_bills) := st
  -- Flag unmatched documents
  let results ← eobs.foldlM
    (fun acc eob =>
      if matched_eobs.contains eob.envelope.doc_id then pure acc
      else do
        let provider ← getNested eob.extracted_data "provider" "name" (.str "Unknown")
        pure (acc ++
          [{ check_name := "unmatched_eob"
             status := .WARNING
             severity := .LOW
             detail := "EOB from " ++ pyStr provider ++
               " could not be matched to any provider bill"
             recommendation := some "Obtain corresponding bill from provider" }]))
    results
  let results ← bills.foldlM
    (fun acc bill =>
      if matched_bills.contains bill.envelope.doc_id then pure acc
      else do
        let provider ← getNested bill.extracted_data "provider" "name" (.str "Unknown")
        pure (acc ++
          [{ check_name := "unmatched_bill"
             status := .WARNING
             severity := .MEDIUM
             detail := "Bill from " ++ pyStr provider ++
               " could not be matched to any EOB"
             recommendation := some "Request EOB from insurance for this service before paying" }]))
    results
  pure results

/-! ## Duplicate detection (`validators/duplicate_detection.py`) -/

/-- A normalized service line produced by `_extract_all_service_lines`
(the dicts built there always carry exactly these seven keys, so they are
modelled as a structure; `service_date` is already `_parse_date`d). -/
structure ServiceLine where
  cpt_code : PyVal
  service_date : Option Int
  description : PyVal
  amount : PyVal
  source : String
  doc_id : String
  provider : PyVal
  deriving Repr

/-- Build the normalized lines for one document type from its items
(the shared shape of each branch of `_extract_all_service_lines`). -/
def mkLines (items : List Dict) (codeKey dateKey descKey amountKey srcName : String)
    (doc_id : String) (provider : PyVal) : List ServiceLine :=
  items.map (fun item =>
    { cpt_code := Dict.get item codeKey
      service_date := _parse_date (Dict.get item dateKey)
      description := if descKey == "" then PyVal.none else Dict.get item descKey
      amount := if amountKey == "" then PyVal.none else Dict.get item amountKey
      source := srcName
      doc_id := doc_id
      provider := provider })

/-- The provider of a lab report
(`data.get("performing_lab", {}).get("name") or
data.get("ordering_provider", {}).get("name")`, with Python's lazy `or`). -/
def labProvider (data : Dict) : Py PyVal := do
  let performing ← getNested data "performing_lab" "name" .none
  if performing.truthy then pure performing
  else getNested data "ordering_provider" "name" .none

/-- Extract and normalize service lines from all document types
(`_extract_all_service_lines`). -/
def _extract_all_service_lines (documents : List ProcessedDocument) :
    Py (List ServiceLine) :=
  documents.foldlM
    (fun lines doc => do
      let doc_type := doc.envelope.classified_type.value
      let data := doc.extracted_data
      let doc_id := doc.envelope.doc_id
      let provider ← getNested data "provider" "name" .none
      if doc_type == "EOB" then do
        let items ← (Dict.getD data "line_items" (.list [])).itemsM
        pure (lines ++ mkLines items "cpt_code" "service_date" "description"
          "billed_amount" "EOB" doc_id provider)
      else if doc_type == "MEDICAL_BILL" then do
        let items ← (Dict.getD data "line_items" (.list [])).itemsM
        pure (lines ++ mkLines items "cpt_code" "service_date" "description"
          "amount" "MEDICAL_BILL" doc_id provider)
      else if doc_type == "CMS-1500" then do
        let provider ← getNested data "provider" "name" .none
        let items ← (Dict.getD data "service_lines" (.list [])).itemsM
        pure (lines ++ (items.map (fun item =>
          { cpt_code := Dict.get item "cpt_code"
            service_date := _parse_date (Dict.get item "date_of_service_from")
            description := PyVal.none
            amount := Dict.get item "charges"
            source := "CMS-1500"
            doc_id := doc_id
            provider := provider })))
      else if doc_type == "UB-04" then do
        let provider := pyOr (← getNested data "provider" "name" .none)
          (Dict.get data "facility_name")
        let items ← (Dict.getD data "revenue_lines" (.list [])).itemsM
        pure (lines ++ mkLines items "hcpcs_code" "service_date" "description"
          "total_charges" "UB-04" doc_id provider)
      else if doc_type == "LAB_REPORT" then do
        let provider ← labProvider data
        let items ← (Dict.getD data "test_results" (.list [])).itemsM
        pure (lines ++ (items.map (fun item =>
          { cpt_code := Dict.get item "cpt_code"
            service_date := _parse_date (Dict.get data "collection_date")
            description := Dict.get item "test_name"
            amount := PyVal.none
            source := "LAB_REPORT"
            doc_id := doc_id
            provider := provider })))
      else if doc_type == "DENTAL_CLAIM" then do
        let billing := pyOr (← getNested data "billing_provider" "name" .none) provider
        let items ← (Dict.getD data "service_lines" (.list [])).itemsM
        pure (lines ++ mkLines items "cdt_code" "service_date" "description"
          "fee" "DENTAL_CLAIM" doc_id billing)
      else if doc_type == "ITEMIZED_STATEMENT" then do
        let items ← (Dict.getD data "charges" (.list [])).itemsM
        pure (lines ++ mkLines items "cpt_code" "service_date" "description"
          "amount" "ITEMIZED_STATEMENT" doc_id provider)
      else pure lines)
    []

/-- A `(cpt_code, service_date)` group key. -/
abbrev GroupKey := PyVal × Option Int

/-- Equality of group keys (Python tuple equality / hashing). -/
def groupKeyBeq (a b : GroupKey) : Bool := a.1 == b.1 && a.2 == b.2

/-- Append a line to its group in an insertion-ordered association list. -/
def groupAppend (groups : List (GroupKey × List ServiceLine)) (key : GroupKey)
    (line : ServiceLine) : List (GroupKey × List ServiceLine) :=
  if groups.any (fun g => groupKeyBeq g.1 key) then
    groups.map (fun g => if groupKeyBeq g.1 key then (g.1, g.2 ++ [line]) else g)
  else groups ++ [(key, [line])]

/-- Group service lines by `(cpt_code, service_date)` in key-insertion order
(the `by_cpt_date` defaultdict); lines with a falsy code are skipped; an
unhashable code raises `TypeError`. -/
def groupLines (service_lines : List ServiceLine) :
    Py (List (GroupKey × List ServiceLine)) :=
  service_lines.foldlM
    (fun groups line =>
      if line.cpt_code.truthy then
        if !line.cpt_code.hashable then throw "TypeError"
        else pure (groupAppend groups (line.cpt_code, line.service_date) line)
      else pure groups)
    []

/-- Sum of the truthy `amount`s of a group
(`sum(occ.get("amount", 0) or 0 for occ in occurrences if occ.get("amount"))`). -/
def sumAmounts (occs : List ServiceLine) : Py ℚ :=
  occs.foldlM
    (fun acc occ =>
      if occ.amount.truthy then do
        let q ← (pyOr occ.amount (.num 0)).asNumM
        pure (acc + q)
      else pure acc)
    0

/-- Group occurrences by provider (`occ.get("provider") or "Unknown"`),
insertion-ordered; an unhashable provider raises. -/
def groupByProvider (occs : List ServiceLine) :
    Py (List (PyVal × List ServiceLine)) :=
  occs.foldlM
    (fun groups occ => do
      let provider := pyOr occ.provider (.str "Unknown")
      if !provider.hashable then throw "TypeError"
      else if groups.any (fun g => g.1 == provider) then
        pure (groups.map (fun g => if g.1 == provider then (g.1, g.2 ++ [occ]) else g))
      else pure (groups ++ [(provider, [occ])]))
    []

/-- The comma-joined display list of up to 3 provider names
(`", ".join(providers[:3])` plus the `and N more` suffix); joining a
non-string provider key raises `TypeError`. -/
def providerListStr (providers : List PyVal) : Py String := do
  let names ← (providers.take 3).mapM PyVal.asStrM
  let base := String.intercalate ", " names
  pure (if providers.length > 3 then
    base ++ " and " ++ toString (providers.length - 3) ++ " more"
  else base)

/-- The display form of a group's service date
(`service_date.isoformat() if service_date else "unknown date"`). -/
def dateStr (service_date : Option Int) : String :=
  match service_date with
  | some d => toString d
  | Option.none => "unknown date"

/-- The cross-provider duplicate check for one `(code, date)` group
(`duplicate_cpt_cross_provider`). -/
def _dup_cross_check (cpt_code : PyVal) (service_date : Option Int)
    (occurrences : List ServiceLine) (providers : List PyVal) :
    Py (List ValidationResult) :=
  if providers.length > 1 then do
    let doc_ids := (occurrences.map (fun occ => occ.doc_id)).dedup
    if doc_ids.length > 1 then do
      let total_amount ← sumAmounts occurrences
      let provider_list ← providerListStr providers
      pure [{ check_name := "duplicate_cpt_cross_provider"
              status := ValidationStatus.WARNING
              severity := ValidationSeverity.MEDIUM
              detail := "CPT " ++ pyStr cpt_code ++ " on " ++ dateStr service_date ++
                " appears from multiple providers: " ++ provider_list ++
                ". Total charged: $" ++ fmtMoney total_amount
              potential_overcharge :=
                if total_amount > 0 then some (total_amount / 2) else Option.none
              recommendation := some ("Verify if CPT " ++ pyStr cpt_code ++
                " was legitimately performed by multiple providers or if this is duplicate billing") }]
    else pure []
  else pure []

/-- The same-provider duplicate check for one `(code, date)` group
(`duplicate_cpt_same_provider`). -/
def _dup_same_checks (cpt_code : PyVal) (service_date : Option Int)
    (by_provider : List (PyVal × List ServiceLine)) : Py (List ValidationResult) :=
  by_provider.foldlM
    (fun acc g => do
      let provider := g.1
      let provider_occs := g.2
      if provider_occs.length ≥ 3 then do
        let _total_amount ← sumAmounts provider_occs
        pure (acc ++
          [{ check_name := "duplicate_cpt_same_provider"
             status := ValidationStatus.INFO
             severity := ValidationSeverity.LOW
             detail := "CPT " ++ pyStr cpt_code ++ " on " ++ dateStr service_date ++
               " appears " ++ toString provider_occs.length ++ " times from " ++
               pyStr provider ++ ". May be intentional for multiple units."
             recommendation := some "Verify units billed match services received" }])
      else pure acc)
    []

/-- The body of the `for (cpt_code, service_date), occurrences in
by_cpt_date.items()` loop of `run_duplicate_detection`: the results emitted
for one `(code, date)` group. -/
def processGroup (cpt_code : PyVal) (service_date : Option Int)
    (occurrences : List ServiceLine) : Py (List ValidationResult) :=
  if occurrences.length < 2 then pure []
  else do
    -- Group by provider
    let by_provider ← groupByProvider occurrences
    let providers := by_provider.map Prod.fst
    -- Check for cross-provider duplicates
    let crossResults ← _dup_cross_check cpt_code service_date occurrences providers
    -- Check for same-provider duplicates (3+ occurrences)
    let sameResults ← _dup_same_checks cpt_code service_date by_provider
    pure (crossResults ++ sameResults)

/-- Detect duplicate CPT codes that may indicate double billing
(`run_duplicate_detection`). -/
def run_duplicate_detection (documents : List ProcessedDocument) :
    Py (List ValidationResult) := do
  let service_lines ← _extract_all_service_lines documents
  let groups ← groupLines service_lines
  groups.foldlM
    (fun acc g => do
      let rs ← processGroup g.1.1 g.1.2 g.2
      pure (acc ++ rs))
    []

/-! ## Coverage checks (`validators/coverage_checks.py`) -/

/-- Python `x == 0` for an untyped value: true exactly for numeric zero
(including `False`); never raises. -/
def pyEqZero : PyVal → Bool
  | .num q => q == 0
  | .pybool b => !b
  | _ => false

/-- Iterate a list of strings for `", ".join(...)`; a non-string element or a
non-list raises `TypeError` (only list iterables are modelled). -/
def joinStrsM : PyVal → Py (List String)
  | .list xs => xs.mapM PyVal.asStrM
  | _ => throw "TypeError"

/-- Determine urgency based on appeal deadline (`_get_appeal_urgency`);
`days_remaining = (deadline - date.today()).days`. -/
def _get_appeal_urgency (today : Int) (deadline : Option Int) : String :=
  match deadline with
  | Option.none => "unknown"
  | some d =>
    if d - today ≤ 14 then "urgent"
    else if d - today ≤ 30 then "soon"
    else "normal"

/-- The `detail += f"...${x:.2f}..."` pattern guarded by truthiness: append a
formatted amount when the value is truthy (raising on a truthy non-number). -/
def fmtMoneyIfTruthy (v : PyVal) (base pre suf : String) : Py String :=
  if v.truthy then do
    let q ← v.asNumM
    pure (base ++ pre ++ fmtMoney q ++ suf)
  else pure base

/-- The `detail += f"...${x:.2f}"` pattern guarded by `is not None`. -/
def fmtMoneyIfPresent (v : PyVal) (base pre : String) : Py String :=
  if !v.isNone then do
    let q ← v.asNumM
    pure (base ++ pre ++ fmtMoney q)
  else pure base

/-- The remark-codes suffix of `zero_allowed_amount`
(`", ".join(remark_codes)` when truthy). -/
def _remarkSuffix (remark_codes : PyVal) (base : String) : Py String :=
  if remark_codes.truthy then do
    let codes ← joinStrsM remark_codes
    pure (base ++ ". Remark codes: " ++ String.intercalate ", " codes)
  else pure base

/-- Check 1 of `_check_eob_coverage`: `claim_denied`. -/
def _eob_claim_denied_check (today : Int) (data : Dict) : Py (List ValidationResult) := do
  let cs ← (pyOr (Dict.get data "claim_status") (.str "")).asStrM
  let claim_status := pyToLower cs
  if pyInStr "denied" claim_status || pyInStr "deny" claim_status then do
    let appeal_deadline := _parse_date (Dict.get data "appeal_deadline")
    let urgency := _get_appeal_urgency today appeal_deadline
    let provider ← getNested data "provider" "name" (.str "provider")
    let total_billed := Dict.get data "total_billed"
    let detail1 ← fmtMoneyIfTruthy total_billed
      ("Claim from " ++ pyStr provider ++ " was DENIED") " ($" ")"
    let detail2 :=
      match appeal_deadline with
      | some d =>
        detail1 ++ ". Appeal deadline: " ++ toString d ++
          (if urgency == "urgent" then " (URGENT - less than 14 days remaining)" else "")
      | Option.none => detail1
    let ov ← total_billed.asOverchargeM
    pure [{ check_name := "claim_denied"
            status := ValidationStatus.ERROR
            severity := ValidationSeverity.HIGH
            detail := detail2
            potential_overcharge := ov
            recommendation := some
              "File an appeal immediately with insurance. Contact provider about claim denial." }]
  else pure []

/-- Check 2 of `_check_eob_coverage`: `line_item_denied`. -/
def _eob_line_denied_check (data : Dict) : Py (List ValidationResult) := do
  let items ← (Dict.getD data "line_items" (.list [])).itemsM
  items.foldlM
    (fun acc item => do
      let denial_reason := Dict.get item "denial_reason"
      if denial_reason.truthy then do
        let cpt := Dict.getD item "cpt_code" (.str "Unknown")
        let billed := Dict.get item "billed_amount"
        let desc := Dict.getD item "description" (.str "")
        let detail0 := "Service " ++ pyStr cpt
        let detail1 := if desc.truthy then detail0 ++ " (" ++ pyStr desc ++ ")" else detail0
        let detail2 := detail1 ++ " was denied: " ++ pyStr denial_reason
        let detail3 ← fmtMoneyIfTruthy billed detail2 ". Billed amount: $" ""
        let ov ← billed.asOverchargeM
        pure (acc ++
          [{ check_name := "line_item_denied"
             status := ValidationStatus.ERROR
             severity := ValidationSeverity.HIGH
             detail := detail3
             potential_overcharge := ov
             recommendation := some ("Review denial reason for " ++ pyStr cpt ++
               ". Consider appeal if service was medically necessary.") }])
      else pure acc)
    []

/-- Check 3 of `_check_eob_coverage`: `zero_allowed_amount`. -/
def _eob_zero_allowed_check (data : Dict) : Py (List ValidationResult) := do
  let items ← (Dict.getD data "line_items" (.list [])).itemsM
  items.foldlM
    (fun acc item => do
      let allowed := Dict.get item "allowed_amount"
      let billed := Dict.get item "billed_amount"
      let ins_paid := Dict.get item "insurance_paid"
      if pyEqZero allowed && (ins_paid.isNone || pyEqZero ins_paid) && billed.truthy then do
        let bq ← billed.asNumM
        if bq > 0 then do
          let cpt := Dict.getD item "cpt_code" (.str "Unknown")
          let desc := Dict.getD item "description" (.str "")
          let remark_codes := Dict.getD item "remark_codes" (.list [])
          let detail0 := "Insurance allowed $0 for " ++ pyStr cpt
          let detail1 := if desc.truthy then detail0 ++ " (" ++ pyStr desc ++ ")" else detail0
          let detail2 := detail1 ++ " but provider billed $" ++ fmtMoney bq
          let detail3 ← _remarkSuffix remark_codes detail2
          pure (acc ++
            [{ check_name := "zero_allowed_amount"
               status := ValidationStatus.WARNING
               severity := ValidationSeverity.MEDIUM
               detail := detail3
               potential_overcharge := some bq
               recommendation := some ("Contact insurance to understand why " ++ pyStr cpt ++
                 " was not covered. May need prior authorization or may not be a covered benefit.") }])
        else pure acc
      else pure acc)
    []

/-- Check 4 of `_check_eob_coverage`: `patient_full_cost`. -/
def _eob_full_cost_check (data : Dict) : Py (List ValidationResult) :=
  let total_insurance_paid := Dict.get data "total_insurance_paid"
  let total_patient_resp := Dict.get data "total_patient_responsibility"
  let total_billed := Dict.get data "total_billed"
  if pyEqZero total_insurance_paid && total_billed.truthy then do
    let tbq ← total_billed.asNumM
    if decide (0 < tbq) && total_patient_resp.truthy then do
      let tprq ← total_patient_resp.asNumM
      if |tprq - tbq| < (1 / 100 : ℚ) then do
        let provider ← getNested data "provider" "name" (.str "provider")
        let ov ← total_billed.asOverchargeM
        pure [{ check_name := "patient_full_cost"
                status := ValidationStatus.ERROR
                severity := ValidationSeverity.HIGH
                detail := "Patient responsible for full billed amount ($" ++ fmtMoney tbq ++
                  ") from " ++ pyStr provider ++ ". Insurance paid $0."
                potential_overcharge := ov
                recommendation := some
                  "Verify claim was submitted correctly. Check if provider is out-of-network or if deductible applies." }]
      else pure []
    else pure []
  else pure []

/-- Check EOB for coverage issues (`_check_eob_coverage`). -/
def _check_eob_coverage (today : Int) (doc : ProcessedDocument) :
    Py (List ValidationResult) := do
  let data := doc.extracted_data
  let r1 ← _eob_claim_denied_check today data
  let r2 ← _eob_line_denied_check data
  let r3 ← _eob_zero_allowed_check data
  let r4 ← _eob_full_cost_check data
  pure (r1 ++ r2 ++ r3 ++ r4)

/-- The `prior_auth_denied` check of `_check_prior_auth`. -/
def _pa_denied_check (today : Int) (data : Dict) (auth_status : String)
    (auth_number : PyVal) : Py (List ValidationResult) :=
  if pyInStr "denied" auth_status || pyInStr "deny" auth_status then do
    let denial_reason := Dict.getD data "denial_reason" (.str "")
    let appeal_deadline := _parse_date (Dict.get data "appeal_deadline")
    let urgency := _get_appeal_urgency today appeal_deadline
    let _total := Dict.get data "total_approved_amount"
    let detail0 := "Prior authorization " ++ pyStr auth_number ++ " was DENIED"
    let detail1 :=
      if denial_reason.truthy then detail0 ++ ": " ++ pyStr denial_reason else detail0
    let detail2 :=
      match appeal_deadline with
      | some d =>
        detail1 ++ ". Appeal deadline: " ++ toString d ++
          (if urgency == "urgent" then " (URGENT - less than 14 days remaining)" else "")
      | Option.none => detail1
    let rec0 ← (pyOr (Dict.get data "appeal_instructions")
      (.str "Review denial reason and consider filing an appeal before the deadline.")).asStrM
    pure [{ check_name := "prior_auth_denied"
            status := ValidationStatus.ERROR
            severity := ValidationSeverity.HIGH
            detail := detail2
            recommendation := some rec0 }]
  else pure []

/-- The `prior_auth_expired` check of `_check_prior_auth` (pure). -/
def _pa_expired_check (today : Int) (data : Dict) (auth_status : String)
    (auth_number : PyVal) : List ValidationResult :=
  match _parse_date (Dict.get data "expiration_date") with
  | some e =>
    if e < today && !(pyInStr "denied" auth_status) then
      [{ check_name := "prior_auth_expired"
         status := ValidationStatus.WARNING
         severity := ValidationSeverity.MEDIUM
         detail := "Prior authorization " ++ pyStr auth_number ++ " expired on " ++ toString e
         recommendation := some
           "If services have not yet been rendered, request a new prior authorization." }]
    else []
  | Option.none => []

/-- Check prior authorization for coverage issues (`_check_prior_auth`). -/
def _check_prior_auth (today : Int) (doc : ProcessedDocument) :
    Py (List ValidationResult) := do
  let data := doc.extracted_data
  let as0 ← (pyOr (Dict.get data "auth_status") (.str "")).asStrM
  let auth_status := pyToLower as0
  let auth_number := Dict.getD data "authorization_number" (.str "Unknown")
  let r1 ← _pa_denied_check today data auth_status auth_number
  let r2 := _pa_expired_check today data auth_status auth_number
  pure (r1 ++ r2)

/-- The `appeal_upheld` check of `_check_appeal_decision`. -/
def _appeal_upheld_check (today : Int) (data : Dict) (decision : String)
    (appeal_ref : PyVal) : Py (List ValidationResult) :=
  if pyInStr "upheld" decision || pyInStr "denied" decision then do
    let next_level := Dict.get data "next_appeal_level"
    let next_deadline := _parse_date (Dict.get data "next_appeal_deadline")
    let external_review := Dict.get data "external_review_available"
    let billed := Dict.get data "original_billed_amount"
    let detail0 := "Appeal " ++ pyStr appeal_ref ++ " was UPHELD (denial stands)"
    let detail1 :=
      if (Dict.get data "decision_rationale").truthy then
        detail0 ++ ": " ++ pyStr (Dict.get data "decision_rationale")
      else detail0
    let detail2 :=
      match next_deadline with
      | some d =>
        let urgency := _get_appeal_urgency today next_deadline
        detail1 ++ ". Next appeal deadline: " ++ toString d ++
          (if urgency == "urgent" then " (URGENT)" else "")
      | Option.none => detail1
    let rec1 :=
      if next_level.truthy then "Consider filing a " ++ pyStr next_level ++ " appeal."
      else ""
    let rec2 :=
      if external_review.truthy then
        let instructions := Dict.get data "external_review_instructions"
        let base := rec1 ++ " External review is available."
        if instructions.truthy then base ++ " " ++ pyStr instructions else base
      else rec1
    let rec3 :=
      if rec2 == "" then "Review the decision rationale. Consult with provider about next steps."
      else rec2
    let ov ← billed.asOverchargeM
    pure [{ check_name := "appeal_upheld"
            status := ValidationStatus.ERROR
            severity := ValidationSeverity.HIGH
            detail := detail2
            potential_overcharge := ov
            recommendation := some (pyStrip rec3) }]
  else pure []

/-- The `appeal_overturned` informational check of `_check_appeal_decision`. -/
def _appeal_overturned_check (data : Dict) (decision : String) (appeal_ref : PyVal) :
    Py (List ValidationResult) :=
  if pyInStr "overturned" decision || pyInStr "approved" decision ||
      pyInStr "reversed" decision then do
    let approved_amt := Dict.get data "approved_amount"
    let adjusted_resp := Dict.get data "adjusted_patient_responsibility"
    let detail0 := "Appeal " ++ pyStr appeal_ref ++ " was OVERTURNED in patient's favor"
    let detail1 ← fmtMoneyIfPresent approved_amt detail0 ". Approved amount: $"
    let detail2 ← fmtMoneyIfPresent adjusted_resp detail1
      ". Adjusted patient responsibility: $"
    pure [{ check_name := "appeal_overturned"
            status := ValidationStatus.INFO
            severity := ValidationSeverity.INFO
            detail := detail2
            recommendation := some
              "Verify that provider bills reflect the updated amounts from the appeal decision." }]
  else pure []

/-- Check appeal decision for coverage issues (`_check_appeal_decision`). -/
def _check_appeal_decision (today : Int) (doc : ProcessedDocument) :
    Py (List ValidationResult) := do
  let data := doc.extracted_data
  let d0 ← (pyOr (Dict.get data "decision") (.str "")).asStrM
  let decision := pyToLower d0
  let appeal_ref := Dict.getD data "appeal_reference_number" (.str "Unknown")
  let _original_claim := Dict.getD data "original_claim_number" (.str "")
  let r1 ← _appeal_upheld_check today data decision appeal_ref
  let r2 ← _appeal_overturned_check data decision appeal_ref
  pure (r1 ++ r2)

/-- Cross-check: flag EOB denials where a prior auth approval exists
(`_cross_check_prior_auth_vs_eob`). -/
def _cross_check_prior_auth_vs_eob (documents : List ProcessedDocument) :
    Py (List ValidationResult) := do
  -- Collect approved CPT codes from prior auths
  let approved_cpts ← documents.foldlM
    (fun acc doc =>
      if doc.envelope.classified_type.value != "PRIOR_AUTH" then pure acc
      else do
        let data := doc.extracted_data
        let as0 ← (pyOr (Dict.get data "auth_status") (.str "")).asStrM
        let auth_status := pyToLower as0
        if pyInStr "approved" auth_status || pyInStr "authorized" auth_status then do
          let auth_num := Dict.getD data "authorization_number" (.str "Unknown")
          let svcs ← (Dict.getD data "authorized_services" (.list [])).itemsM
          svcs.foldlM
            (fun acc2 svc => do
              let cpt := Dict.get svc "cpt_code"
              if cpt.truthy then pyAssocSetM acc2 cpt auth_num else pure acc2)
            acc
        else pure acc)
    ([] : PyAssoc)
  if approved_cpts.isEmpty then pure []
  else
    -- Check EOBs for denied line items that have prior auth approval
    documents.foldlM
      (fun acc doc =>
        if doc.envelope.classified_type.value != "EOB" then pure acc
        else do
          let items ← (Dict.getD doc.extracted_data "line_items" (.list [])).itemsM
          items.foldlM
            (fun acc2 item => do
              let cpt := Dict.get item "cpt_code"
              let denial_reason := Dict.get item "denial_reason"
              if cpt.truthy && denial_reason.truthy then do
                let mem ← pyAssocContainsM approved_cpts cpt
                if mem then do
                  let billed := Dict.get item "billed_amount"
                  let auth_num := pyAssocGet approved_cpts cpt
                  let detail0 := "CPT " ++ pyStr cpt ++
                    " was denied on EOB but has approved prior authorization " ++
                    pyStr auth_num ++ ". Denial reason: " ++ pyStr denial_reason
                  let detail1 ←
                    if billed.truthy then do
                      let q ← billed.asNumM
                      pure (detail0 ++ ". Billed: $" ++ fmtMoney q)
                    else pure detail0
                  let ov ← billed.asOverchargeM
                  pure (acc2 ++
                    [{ check_name := "prior_auth_vs_denial"
                       status := ValidationStatus.ERROR
                       severity := ValidationSeverity.HIGH
                       detail := detail1
                       potential_overcharge := ov
                       recommendation := some ("Contact insurance - this service was pre-authorized (auth #" ++
                         pyStr auth_num ++ ") and should not have been denied.") }])
                else pure acc2
              else pure acc2)
            acc)
      []

/-- Run coverage-related validation checks (`run_coverage_checks`). -/
def run_coverage_checks (today : Int) (documents : List ProcessedDocument) :
    Py (List ValidationResult) := do
  let results ← documents.foldlM
    (fun results doc => do
      let doc_type := doc.envelope.classified_type.value
      if doc_type == "EOB" then do
        let rs ← _check_eob_coverage today doc
        pure (results ++ rs)
      else if doc_type == "PRIOR_AUTH" then do
        let rs ← _check_prior_auth today doc
        pure (results ++ rs)
      else if doc_type == "APPEAL_DECISION" then do
        let rs ← _check_appeal_decision today doc
        pure (results ++ rs)
      else pure results)
    []
  -- Cross-document: prior auth vs EOB denial
  let crossResults ← _cross_check_prior_auth_vs_eob documents
  pure (results ++ crossResults)

/-! ## Orchestrator (`validators/__init__.py`) -/

/-- The literal severity priority mapping of `run_all_validations`
(`severity_order`); every severity is a key, so the `.get` default `4` is
unreachable. -/
def severity_order : ValidationSeverity → Nat
  | .HIGH => 0
  | .MEDIUM => 1
  | .LOW => 2
  | .INFO => 3

/-- The comparison used by `results.sort(key=lambda r: severity_order...)`. -/
def severityLe (a b : ValidationResult) : Bool :=
  severity_order a.severity ≤ severity_order b.severity

/-- Run all validation checks across documents and return sorted results
(`run_all_validations`).  Python's `list.sort` is a stable sort; it is
modelled by the stable `List.mergeSort` on the same key. -/
def run_all_validations (today : Int) (documents : List ProcessedDocument) :
    Py (List ValidationResult) := do
  let r1 ← run_math_checks documents
  let r2 ← run_billing_reconciliation_checks documents
  let r3 ← run_duplicate_detection documents
  let r4 ← run_coverage_checks today documents
  pure (List.mergeSort (r1 ++ r2 ++ r3 ++ r4) severityLe)

/-- Helper mirroring the `_make_doc` test fixture: a `ProcessedDocument` of
the given classified type and extracted data. -/
def mkDoc (t : DocumentType) (id : String) (data : Dict) : ProcessedDocument :=
  { envelope :=
      { doc_id := id
        filename := "test.pdf"
        classified_type := t
        classification_confidence := 95 / 100 }
    extracted_data := data
    schema_used := t }

/-! ## Proof toolkit for the `Py` monad -/

@[simp]
theorem py_bind_ok {α β : Type} (a : α) (f : α → Py β) :
    (Except.ok a : Py α) >>= f = f a := rfl

@[simp]
theorem py_bind_err {α β : Type} (e : String) (f : α → Py β) :
    (Except.error e : Py α) >>= f = Except.error e := rfl

@[simp]
theorem py_pure_eq {α : Type} (a : α) : (pure a : Py α) = Except.ok a := rfl

/-- Inversion of a successful bind. -/
theorem bind_eq_ok {α β : Type} {x : Py α} {f : α → Py β} {b : β}
    (h : x >>= f = .ok b) : ∃ a, x = .ok a ∧ f a = .ok b := by
  cases x with
  | ok a => exact ⟨a, rfl, h⟩
  | error e => simp at h

/-- A `foldlM` all of whose steps succeed and preserve `P` succeeds and
establishes `P`. -/
theorem foldlM_ok_inv {α β : Type} {P : β → Prop} {f : β → α → Py β} :
    ∀ (xs : List α) (b0 : β), P b0 →
      (∀ b a, a ∈ xs → P b → ∃ c, f b a = .ok c ∧ P c) →
      ∃ c, xs.foldlM f b0 = .ok c ∧ P c := by
  intro xs
  induction xs with
  | nil => intro b0 h0 _; exact ⟨b0, rfl, h0⟩
  | cons a xs ih =>
    intro b0 h0 hstep
    obtain ⟨c, hc, hPc⟩ := hstep b0 a (List.mem_cons_self a xs) h0
    obtain ⟨d, hd, hPd⟩ := ih c hPc
      (fun b x hx hb => hstep b x (List.mem_cons_of_mem a hx) hb)
    exact ⟨d, by simpa [List.foldlM_cons, hc] using hd, hPd⟩

/-- A `foldlM` all of whose steps succeed succeeds. -/
theorem foldlM_ok {α β : Type} {f : β → α → Py β} (xs : List α) (b0 : β)
    (h : ∀ b a, a ∈ xs → ∃ c, f b a = .ok c) :
    ∃ c, xs.foldlM f b0 = .ok c := by
  obtain ⟨c, hc, -⟩ := foldlM_ok_inv (P := fun _ => True) xs b0 trivial
    (fun b a ha _ => by obtain ⟨c, hc⟩ := h b a ha; exact ⟨c, hc, trivial⟩)
  exact ⟨c, hc⟩

/-- Inversion principle for a successful `foldlM`: any property preserved by
successful steps holds of the final state. -/
theorem foldlM_induction {α β : Type} {P : β → Prop} {f : β → α → Py β} :
    ∀ (xs : List α) (b0 : β) {b : β}, xs.foldlM f b0 = .ok b → P b0 →
      (∀ s a c, a ∈ xs → P s → f s a = .ok c → P c) → P b := by
  intro xs
  induction xs with
  | nil => intro b0 b h h0 _; simp only [List.foldlM_nil, py_pure_eq] at h; cases h; exact h0
  | cons a xs ih =>
    intro b0 b h h0 hstep
    rw [List.foldlM_cons] at h
    obtain ⟨c, hc, hrest⟩ := bind_eq_ok h
    exact ih c hrest (hstep b0 a c (List.mem_cons_self a xs) h0 hc)
      (fun s x d hx hs hd => hstep s x d (List.mem_cons_of_mem a hx) hs hd)

/-- A successful `mapM PyVal.asDictM` means every element was a dict. -/
theorem mapM_asDictM_ok {xs : List PyVal}
    (h : ∀ v ∈ xs, ∃ kvs, v = PyVal.dict kvs) :
    ∃ items, xs.mapM PyVal.asDictM = .ok items ∧
      ∀ item ∈ items, PyVal.dict item ∈ xs := by
  induction xs with
  | nil => exact ⟨[], rfl, by simp⟩
  | cons v xs ih =>
    obtain ⟨kvs, hv⟩ := h v (List.mem_cons_self v xs)
    obtain ⟨items, hitems, hmem⟩ := ih (fun w hw => h w (List.mem_cons_of_mem v hw))
    refine ⟨kvs :: items, ?_, ?_⟩
    · rw [List.mapM_cons, hv, hitems]
      rfl
    · intro item hitem
      rcases List.mem_cons.mp hitem with h1 | h2
      · rw [h1, ← hv]; exact List.mem_cons_self _ _
      · exact List.mem_cons_of_mem _ (hmem item h2)

/-! ## Per-type schema conformance (the declared pydantic schemas) -/

/-- Scalar field specifications of the declared schemas.  Every scalar field
of the source schemas is `T | None`, so `None` always conforms. -/
inductive SSpec where
  | snum
  | sstr
  | sdate
  | sbool
  | sstrlist
  deriving DecidableEq, Repr

/-- Whether a value conforms to a scalar field specification. -/
def SSpec.conforms : SSpec → PyVal → Bool
  | _, .none => true
  | .snum, .num _ => true
  | .sstr, .str _ => true
  | .sdate, .date _ => true
  | .sbool, .pybool _ => true
  | .sstrlist, .list xs => xs.all (fun x => x.asStrM.isOk)
  | _, _ => false

/-- Field specifications of the declared schemas: a scalar, a nested object
with scalar fields (e.g. a `ProviderInfo` block), or a list of objects with
scalar fields (e.g. `line_items`).  Blocks and lists are not nullable in the
source schemas (they are declared with non-`None` defaults). -/
inductive FSpec where
  | scalar (s : SSpec)
  | blockOf (fields : List (String × SSpec))
  | listOf (fields : List (String × SSpec))
  deriving DecidableEq, Repr

/-- Look up the declared specification of a field name. -/
def lookupSpec {α : Type} (spec : List (String × α)) (k : String) : Option α :=
  match spec.find? (fun kv => kv.1 == k) with
  | some kv => some kv.2
  | Option.none => Option.none

/-- A one-level object conforms to a field table when each present entry is
declared and its value conforms. -/
def itemConforms (fields : List (String × SSpec)) (d : Dict) : Bool :=
  d.all (fun kv =>
    match lookupSpec fields kv.1 with
    | some s => s.conforms kv.2
    | Option.none => false)

/-- Whether a value conforms to a field specification. -/
def FSpec.conforms : FSpec → PyVal → Bool
  | .scalar s, v => s.conforms v
  | .blockOf fields, .dict kvs => itemConforms fields kvs
  | .blockOf _, _ => false
  | .listOf fields, .list xs =>
    xs.all (fun x =>
      match x with
      | .dict kvs => itemConforms fields kvs
      | _ => false)
  | .listOf _, _ => false

/-- A document's `extracted_data` conforms to a declared schema when each
present entry is declared and its value conforms (every field may be absent). -/
def dictConforms (spec : List (String × FSpec)) (d : Dict) : Bool :=
  d.all (fun kv =>
    match lookupSpec spec kv.1 with
    | some fs => fs.conforms kv.2
    | Option.none => false)

/-- Fields of `PatientInfo` (`schemas/common.py`). -/
def patientSpec : List (String × SSpec) :=
  [("first_name", .sstr), ("last_name", .sstr), ("date_of_birth", .sdate),
   ("member_id", .sstr), ("group_number", .sstr), ("address", .sstr)]

/-- Fields of `ProviderInfo` (`schemas/common.py`). -/
def providerSpec : List (String × SSpec) :=
  [("name", .sstr), ("npi", .sstr), ("tax_id", .sstr), ("address", .sstr),
   ("phone", .sstr)]

/-- Fields of `InsuranceInfo` (`schemas/common.py`). -/
def insuranceSpec : List (String × SSpec) :=
  [("payer_name", .sstr), ("plan_name", .sstr), ("plan_type", .sstr),
   ("policy_number", .sstr), ("group_number", .sstr)]

/-- Fields of `EOBLineItem` (`schemas/eob.py`). -/
def eobItemSpec : List (String × SSpec) :=
  [("service_date", .sdate), ("cpt_code", .sstr), ("description", .sstr),
   ("billed_amount", .snum), ("allowed_amount", .snum), ("insurance_paid", .snum),
   ("deductible_applied", .snum), ("copay", .snum), ("coinsurance", .snum),
   ("patient_responsibility", .snum), ("remark_codes", .sstrlist),
   ("denial_reason", .sstr)]

/-- Fields of `EOBSchema` (`schemas/eob.py`). -/
def eobSpec : List (String × FSpec) :=
  [("claim_number", .scalar .sstr), ("document_date", .scalar .sdate),
   ("patient", .blockOf patientSpec), ("provider", .blockOf providerSpec),
   ("insurance", .blockOf insuranceSpec),
   ("date_of_service_start", .scalar .sdate), ("date_of_service_end", .scalar .sdate),
   ("place_of_service", .scalar .sstr), ("line_items", .listOf eobItemSpec),
   ("total_billed", .scalar .snum), ("total_allowed", .scalar .snum),
   ("total_insurance_paid", .scalar .snum),
   ("total_patient_responsibility", .scalar .snum),
   ("total_deductible", .scalar .snum), ("total_copay", .scalar .snum),
   ("total_coinsurance", .scalar .snum), ("deductible_met_ytd", .scalar .snum),
   ("deductible_remaining", .scalar .snum), ("out_of_pocket_met_ytd", .scalar .snum),
   ("out_of_pocket_max", .scalar .snum), ("claim_status", .scalar .sstr),
   ("appeal_deadline", .scalar .sdate)]

/-- Fields of `BillLineItem` (`schemas/medical_bill.py`). -/
def billItemSpec : List (String × SSpec) :=
  [("service_date", .sdate), ("cpt_code", .sstr), ("description", .sstr),
   ("quantity", .snum), ("unit_price", .snum), ("amount", .snum)]

/-- Fields of `MedicalBillSchema` (`schemas/medical_bill.py`). -/
def medicalBillSpec : List (String × FSpec) :=
  [("account_number", .scalar .sstr), ("statement_date", .scalar .sdate),
   ("invoice_number", .scalar .sstr), ("patient", .blockOf patientSpec),
   ("provider", .blockOf providerSpec),
   ("date_of_service_start", .scalar .sdate), ("date_of_service_end", .scalar .sdate),
   ("line_items", .listOf billItemSpec), ("total_charges", .scalar .snum),
   ("insurance_adjustments", .scalar .snum), ("insurance_payments", .scalar .snum),
   ("patient_payments", .scalar .snum), ("balance_due", .scalar .snum),
   ("due_date", .scalar .sdate), ("payment_plan_available", .scalar .sbool),
   ("financial_assistance_note", .scalar .sstr)]

/-- Fields of `CMS1500ServiceLine` (`schemas/cms1500.py`). -/
def cms1500LineSpec : List (String × SSpec) :=
  [("date_of_service_from", .sdate), ("date_of_service_to", .sdate),
   ("place_of_service", .sstr), ("cpt_code", .sstr), ("modifier_1", .sstr),
   ("modifier_2", .sstr), ("diagnosis_pointer", .sstr), ("charges", .snum),
   ("units", .snum), ("rendering_provider_npi", .sstr)]

/-- Fields of `DiagnosisCode` (`schemas/cms1500.py`). -/
def diagnosisSpec : List (String × SSpec) :=
  [("pointer", .sstr), ("icd10_code", .sstr), ("description", .sstr)]

/-- Fields of `CMS1500Schema` (`schemas/cms1500.py`). -/
def cms1500Spec : List (String × FSpec) :=
  [("payer_type", .scalar .sstr), ("patient", .blockOf patientSpec),
   ("insured", .blockOf patientSpec), ("provider", .blockOf providerSpec),
   ("referring_provider", .blockOf providerSpec), ("insurance", .blockOf insuranceSpec),
   ("patient_account_number", .scalar .sstr), ("accept_assignment", .scalar .sbool),
   ("prior_authorization", .scalar .sstr), ("diagnosis_codes", .listOf diagnosisSpec),
   ("service_lines", .listOf cms1500LineSpec), ("total_charge", .scalar .snum),
   ("amount_paid", .scalar .snum), ("balance_due", .scalar .snum),
   ("patient_signature_date", .scalar .sdate),
   ("physician_signature_date", .scalar .sdate)]

/-- Fields of `UB04RevenueLine` (`schemas/ub04.py`). -/
def ub04LineSpec : List (String × SSpec) :=
  [("revenue_code", .sstr), ("description", .sstr), ("hcpcs_code", .sstr),
   ("service_date", .sdate), ("units", .snum), ("total_charges", .snum),
   ("non_covered_charges", .snum)]

/-- Fields of `UB04Schema` (`schemas/ub04.py`). -/
def ub04Spec : List (String × FSpec) :=
  [("facility_name", .scalar .sstr), ("facility_address", .scalar .sstr),
   ("facility_type", .scalar .sstr), ("federal_tax_id", .scalar .sstr),
   ("patient", .blockOf patientSpec), ("insurance", .blockOf insuranceSpec),
   ("admission_date", .scalar .sdate), ("admission_type", .scalar .sstr),
   ("discharge_date", .scalar .sdate), ("discharge_status", .scalar .sstr),
   ("admission_diagnosis", .scalar .sstr), ("principal_diagnosis", .scalar .sstr),
   ("other_diagnoses", .scalar .sstrlist), ("principal_procedure", .scalar .sstr),
   ("procedure_date", .scalar .sdate), ("revenue_lines", .listOf ub04LineSpec),
   ("total_charges", .scalar .snum), ("total_non_covered", .scalar .snum),
   ("estimated_amount_due", .scalar .snum), ("provider", .blockOf providerSpec),
   ("attending_physician_npi", .scalar .sstr)]

/-- Fields of `LabTestResult` (`schemas/lab_report.py`). -/
def labTestSpec : List (String × SSpec) :=
  [("test_name", .sstr), ("cpt_code", .sstr), ("result_value", .sstr),
   ("unit", .sstr), ("reference_range", .sstr), ("flag", .sstr)]

/-- Fields of `LabReportSchema` (`schemas/lab_report.py`). -/
def labReportSpec : List (String × FSpec) :=
  [("accession_number", .scalar .sstr), ("report_date", .scalar .sdate),
   ("patient", .blockOf patientSpec), ("ordering_provider", .blockOf providerSpec),
   ("performing_lab", .blockOf providerSpec), ("collection_date", .scalar .sdate),
   ("specimen_type", .scalar .sstr), ("panel_name", .scalar .sstr),
   ("test_results", .listOf labTestSpec), ("total_charges", .scalar .snum),
   ("diagnosis_codes", .scalar .sstrlist)]

/-- Fields of `PharmacyReceiptSchema` (`schemas/pharmacy.py`). -/
def pharmacySpec : List (String × FSpec) :=
  [("pharmacy_name", .scalar .sstr), ("pharmacy_address", .scalar .sstr),
   ("pharmacy_phone", .scalar .sstr), ("pharmacy_npi", .scalar .sstr),
   ("patient", .blockOf patientSpec), ("rx_number", .scalar .sstr),
   ("fill_date", .scalar .sdate), ("medication_name", .scalar .sstr),
   ("ndc_code", .scalar .sstr), ("quantity", .scalar .snum),
   ("days_supply", .scalar .snum), ("prescriber_name", .scalar .sstr),
   ("prescriber_npi", .scalar .sstr), ("drug_cost", .scalar .snum),
   ("insurance_paid", .scalar .snum), ("patient_copay", .scalar .snum),
   ("patient_coinsurance", .scalar .snum), ("deductible_applied", .scalar .snum),
   ("patient_paid", .scalar .snum), ("formulary_tier", .scalar .sstr),
   ("prior_auth_required", .scalar .sbool)]

/-- The declared schema for a classified type (`SCHEMA_REGISTRY` restricted to
the members of the `DocumentType` enum; `UNKNOWN` has no schema, so a
conforming `UNKNOWN` document carries no extracted data). -/
def specFor : DocumentType → List (String × FSpec)
  | .EOB => eobSpec
  | .MEDICAL_BILL => medicalBillSpec
  | .CMS1500 => cms1500Spec
  | .UB04 => ub04Spec
  | .LAB_REPORT => labReportSpec
  | .PHARMACY_RECEIPT => pharmacySpec
  | .UNKNOWN => []

/-- A document whose extracted data conforms to the declared schema for its
classified type. -/
def docConforms (doc : ProcessedDocument) : Bool :=
  dictConforms (specFor doc.envelope.classified_type) doc.extracted_data

/-! ## Conformance accessor lemmas -/

/-- A present entry of a conforming dict conforms to its declared spec. -/
theorem dictConforms_mem {spec : List (String × FSpec)} {d : Dict}
    {kv : String × PyVal} (h : dictConforms spec d = true) (hm : kv ∈ d) :
    ∃ fs, lookupSpec spec kv.1 = some fs ∧ fs.conforms kv.2 = true := by
  have h2 := (List.all_eq_true.mp h) kv hm
  revert h2
  cases hls : lookupSpec spec kv.1 with
  | none => intro h2; simp at h2
  | some fs => intro h2; exact ⟨fs, rfl, h2⟩

/-- A `d.get(k)` on a conforming dict is `None` or conforms to the declared
spec of `k`. -/
theorem conf_get {spec : List (String × FSpec)} {d : Dict} (k : String)
    (h : dictConforms spec d = true) :
    Dict.get d k = .none ∨
      ∃ fs, lookupSpec spec k = some fs ∧ fs.conforms (Dict.get d k) = true := by
  unfold Dict.get
  cases hf : d.find? (fun kv => kv.1 == k) with
  | none => exact Or.inl rfl
  | some kv =>
    right
    have hk : kv.1 = k := by simpa using List.find?_some hf
    obtain ⟨fs, hfs, hc⟩ := dictConforms_mem h (List.mem_of_find?_eq_some hf)
    exact ⟨fs, hk ▸ hfs, hc⟩

/-- A `d.get(k, dflt)` on a conforming dict is the default or conforms. -/
theorem conf_getD {spec : List (String × FSpec)} {d : Dict} (k : String)
    (dflt : PyVal) (h : dictConforms spec d = true) :
    Dict.getD d k dflt = dflt ∨
      ∃ fs, lookupSpec spec k = some fs ∧ fs.conforms (Dict.getD d k dflt) = true := by
  unfold Dict.getD
  cases hf : d.find? (fun kv => kv.1 == k) with
  | none => exact Or.inl rfl
  | some kv =>
    right
    have hk : kv.1 = k := by simpa using List.find?_some hf
    obtain ⟨fs, hfs, hc⟩ := dictConforms_mem h (List.mem_of_find?_eq_some hf)
    exact ⟨fs, hk ▸ hfs, hc⟩

/-- A present entry of a conforming one-level object conforms. -/
theorem itemConf_get {fields : List (String × SSpec)} {item : Dict} (k : String)
    (h : itemConforms fields item = true) :
    Dict.get item k = .none ∨
      ∃ s, lookupSpec fields k = some s ∧ s.conforms (Dict.get item k) = true := by
  unfold Dict.get
  cases hf : item.find? (fun kv => kv.1 == k) with
  | none => exact Or.inl rfl
  | some kv =>
    right
    have hk : kv.1 = k := by simpa using List.find?_some hf
    have h2 := (List.all_eq_true.mp h) kv (List.mem_of_find?_eq_some hf)
    revert h2
    cases hls : lookupSpec fields kv.1 with
    | none => intro h2; simp at h2
    | some s => intro h2; exact ⟨s, hk ▸ hls, h2⟩

/-- A `item.get(k, dflt)` on a conforming one-level object. -/
theorem itemConf_getD {fields : List (String × SSpec)} {item : Dict} (k : String)
    (dflt : PyVal) (h : itemConforms fields item = true) :
    Dict.getD item k dflt = dflt ∨
      ∃ s, lookupSpec fields k = some s ∧ s.conforms (Dict.getD item k dflt) = true := by
  unfold Dict.getD
  cases hf : item.find? (fun kv => kv.1 == k) with
  | none => exact Or.inl rfl
  | some kv =>
    right
    have hk : kv.1 = k := by simpa using List.find?_some hf
    have h2 := (List.all_eq_true.mp h) kv (List.mem_of_find?_eq_some hf)
    revert h2
    cases hls : lookupSpec fields kv.1 with
    | none => intro h2; simp at h2
    | some s => intro h2; exact ⟨s, hk ▸ hls, h2⟩

/-- A value conforming to `snum` is `None` or a number. -/
theorem snum_cases {v : PyVal} (h : SSpec.conforms .snum v = true) :
    v = .none ∨ ∃ q, v = .num q := by
  cases v <;> simp_all [SSpec.conforms]

/-- A value conforming to `sstr` is `None` or a string. -/
theorem sstr_cases {v : PyVal} (h : SSpec.conforms .sstr v = true) :
    v = .none ∨ ∃ s, v = .str s := by
  cases v <;> simp_all [SSpec.conforms]

/-- A value conforming to `sdate` is `None` or a date. -/
theorem sdate_cases {v : PyVal} (h : SSpec.conforms .sdate v = true) :
    v = .none ∨ ∃ d, v = .date d := by
  cases v <;> simp_all [SSpec.conforms]

/-- A non-`None` value conforming to `snum` converts to a number. -/
theorem snum_asNum {v : PyVal} (h : SSpec.conforms .snum v = true)
    (hne : v.isNone = false) : ∃ q, v.asNumM = .ok q := by
  rcases snum_cases h with h0 | ⟨q, h0⟩
  · rw [h0] at hne; simp [PyVal.isNone] at hne
  · exact ⟨q, by rw [h0]; rfl⟩

/-- A truthy value conforming to `snum` converts to a number. -/
theorem snum_truthy_asNum {v : PyVal} (h : SSpec.conforms .snum v = true)
    (ht : v.truthy = true) : ∃ q, v.asNumM = .ok q := by
  rcases snum_cases h with h0 | ⟨q, h0⟩
  · rw [h0] at ht; simp [PyVal.truthy] at ht
  · exact ⟨q, by rw [h0]; rfl⟩

/-- `x or 0` of an `snum`-conforming value converts to a number. -/
theorem snum_pyOr_asNum {v : PyVal} (h : SSpec.conforms .snum v = true) :
    ∃ q, (pyOr v (.num 0)).asNumM = .ok q := by
  rcases snum_cases h with h0 | ⟨q, h0⟩
  · subst h0; exact ⟨0, rfl⟩
  · subst h0; unfold pyOr
    by_cases hq : (PyVal.num q).truthy = true
    · rw [if_pos hq]; exact ⟨q, rfl⟩
    · rw [if_neg hq]; exact ⟨0, rfl⟩

/-- An `snum`-conforming value can always be stored as an overcharge. -/
theorem snum_asOvercharge {v : PyVal} (h : SSpec.conforms .snum v = true) :
    ∃ o, v.asOverchargeM = .ok o := by
  rcases snum_cases h with h0 | ⟨q, h0⟩
  · exact ⟨Option.none, by rw [h0]; rfl⟩
  · exact ⟨some q, by rw [h0]; rfl⟩

/-- `(x or "dflt").lower()` of an `sstr`-conforming value succeeds. -/
theorem sstr_pyOr_asStr {v : PyVal} (s0 : String)
    (h : SSpec.conforms .sstr v = true) :
    ∃ s, (pyOr v (.str s0)).asStrM = .ok s := by
  rcases sstr_cases h with h0 | ⟨s, h0⟩
  · subst h0; exact ⟨s0, rfl⟩
  · subst h0; unfold pyOr
    by_cases hs : (PyVal.str s).truthy = true
    · rw [if_pos hs]; exact ⟨s, rfl⟩
    · rw [if_neg hs]; exact ⟨s0, rfl⟩

/-- A list of strings maps successfully through `asStrM`. -/
theorem mapM_asStrM_ok {xs : List PyVal} (h : ∀ x ∈ xs, ∃ s, x = PyVal.str s) :
    ∃ ss, xs.mapM PyVal.asStrM = .ok ss := by
  induction xs with
  | nil => exact ⟨[], rfl⟩
  | cons x xs ih =>
    obtain ⟨s, hx⟩ := h x (List.mem_cons_self x xs)
    obtain ⟨ss, hss⟩ := ih (fun y hy => h y (List.mem_cons_of_mem x hy))
    subst hx
    exact ⟨s :: ss, by rw [List.mapM_cons, hss]; rfl⟩

/-- A truthy `sstrlist`-conforming value joins successfully. -/
theorem strlist_join {v : PyVal} (h : SSpec.conforms .sstrlist v = true)
    (ht : v.truthy = true) : ∃ ss, joinStrsM v = .ok ss := by
  cases v with
  | list xs =>
    have hall : ∀ x ∈ xs, ∃ s, x = PyVal.str s := by
      intro x hx
      have := (List.all_eq_true.mp (by simpa [SSpec.conforms] using h)) x hx
      cases x <;> simp [PyVal.asStrM, Except.isOk, Except.toBool] at this ⊢
    obtain ⟨ss, hss⟩ := mapM_asStrM_ok hall
    exact ⟨ss, hss⟩
  | none => simp [PyVal.truthy] at ht
  | num q => simp [SSpec.conforms] at h
  | str s => simp [SSpec.conforms] at h
  | date d => simp [SSpec.conforms] at h
  | pybool b => simp [SSpec.conforms] at h
  | dict kvs => simp [SSpec.conforms] at h

/-- Reading a declared scalar field of a conforming dict yields a conforming
value. -/
theorem conf_scalar {spec : List (String × FSpec)} {d : Dict} {k : String}
    {s : SSpec} (h : dictConforms spec d = true)
    (hk : lookupSpec spec k = some (.scalar s)) :
    s.conforms (Dict.get d k) = true := by
  rcases conf_get k h with h0 | ⟨fs, hfs, hc⟩
  · rw [h0]; cases s <;> rfl
  · rw [hk] at hfs
    cases hfs
    exact hc

/-- Reading a declared block field (or an undeclared one) of a conforming dict
with default `{}` always yields a conforming one-level object. -/
theorem conf_block {spec : List (String × FSpec)} {d : Dict} {k : String}
    {F : List (String × SSpec)} (h : dictConforms spec d = true)
    (hk : lookupSpec spec k = some (.blockOf F) ∨
      lookupSpec spec k = Option.none) :
    ∃ kvs, (Dict.getD d k (.dict [])).asDictM = .ok kvs ∧
      itemConforms F kvs = true := by
  rcases conf_getD k (.dict []) h with h0 | ⟨fs, hfs, hc⟩
  · exact ⟨[], by rw [h0]; rfl, rfl⟩
  · rcases hk with hk | hk
    · rw [hk] at hfs
      injection hfs with hfs2
      subst hfs2
      revert hc
      cases hv : Dict.getD d k (.dict []) <;> intro hc <;>
        simp only [FSpec.conforms] at hc
      case dict kvs => exact ⟨kvs, rfl, hc⟩
      all_goals simp_all
    · rw [hk] at hfs; cases hfs

/-- Reading a declared list field (or an undeclared one) of a conforming dict
with default `[]` always iterates successfully into conforming items. -/
theorem conf_list {spec : List (String × FSpec)} {d : Dict} {k : String}
    {F : List (String × SSpec)} (h : dictConforms spec d = true)
    (hk : lookupSpec spec k = some (.listOf F) ∨
      lookupSpec spec k = Option.none) :
    ∃ items, (Dict.getD d k (.list [])).itemsM = .ok items ∧
      ∀ item ∈ items, itemConforms F item = true := by
  rcases conf_getD k (.list []) h with h0 | ⟨fs, hfs, hc⟩
  · exact ⟨[], by rw [h0]; rfl, by simp⟩
  · rcases hk with hk | hk
    · rw [hk] at hfs
      injection hfs with hfs2
      subst hfs2
      revert hc
      cases hv : Dict.getD d k (.list []) <;> intro hc <;>
        simp only [FSpec.conforms] at hc
      case list xs =>
        have hall := List.all_eq_true.mp hc
        have hdicts : ∀ v ∈ xs, ∃ kvs, v = PyVal.dict kvs := by
          intro v hv2
          have := hall v hv2
          cases v <;> simp at this ⊢
        obtain ⟨items, hitems, hmem⟩ := mapM_asDictM_ok hdicts
        refine ⟨items, ?_, ?_⟩
        · exact hitems
        · intro item hitem
          have := hall (PyVal.dict item) (hmem item hitem)
          simpa using this
      all_goals simp_all
    · rw [hk] at hfs; cases hfs

/-- The nested provider-name pattern on a conforming dict: succeeds and
yields an `sstr`-conforming value or the default. -/
theorem conf_getNested {spec : List (String × FSpec)} {d : Dict}
    (k1 k2 : String) {F : List (String × SSpec)} (dflt : PyVal)
    (h : dictConforms spec d = true)
    (hk : lookupSpec spec k1 = some (.blockOf F) ∨
      lookupSpec spec k1 = Option.none)
    (hs : lookupSpec F k2 = some .sstr ∨ lookupSpec F k2 = Option.none) :
    ∃ v, getNested d k1 k2 dflt = .ok v ∧
      (SSpec.conforms .sstr v = true ∨ v = dflt) := by
  obtain ⟨kvs, hkvs, hconf⟩ := conf_block h hk
  refine ⟨Dict.getD kvs k2 dflt, ?_, ?_⟩
  · unfold getNested
    rw [hkvs]
    rfl
  · rcases itemConf_getD k2 dflt hconf with h0 | ⟨s, hls, hc⟩
    · exact Or.inr h0
    · rcases hs with hs | hs
      · rw [hs] at hls; cases hls; exact Or.inl hc
      · rw [hs] at hls; cases hls

/-- `_normalize_provider_name` succeeds on an `sstr`-conforming value or an
explicit string default. -/
theorem normProv_ok {v : PyVal}
    (hv : SSpec.conforms .sstr v = true ∨ ∃ s0, v = .str s0) :
    ∃ s, _normalize_provider_name v = .ok s := by
  unfold _normalize_provider_name
  by_cases ht : v.truthy = true
  · have hstr : ∃ s0, v = .str s0 := by
      rcases hv with hc | hs
      · rcases sstr_cases hc with h0 | hs
        · rw [h0] at ht; simp [PyVal.truthy] at ht
        · exact hs
      · exact hs
    obtain ⟨s0, rfl⟩ := hstr
    rw [if_neg (by simp [ht])]
    exact ⟨pyStrip (pyToLower s0), rfl⟩
  · rw [if_pos (by simp [Bool.not_eq_true] at ht; simp [ht])]
    exact ⟨"", rfl⟩

/-- Reading a declared scalar field of a conforming one-level object yields a
conforming value. -/
theorem itemConf_scalar {fields : List (String × SSpec)} {item : Dict}
    {k : String} {s : SSpec} (h : itemConforms fields item = true)
    (hk : lookupSpec fields k = some s) :
    s.conforms (Dict.get item k) = true := by
  rcases itemConf_get k h with h0 | ⟨s2, hls, hc⟩
  · rw [h0]; cases s <;> rfl
  · rw [hk] at hls
    injection hls with h2
    subst h2
    exact hc

/-- Composition of success facts through `>>=`, carrying a property of the
first result. -/
theorem ok_bind_P {α β : Type} {x : Py α} {P : α → Prop} {f : α → Py β}
    (hx : ∃ a, x = .ok a ∧ P a) (hf : ∀ a, P a → ∃ b, f a = .ok b) :
    ∃ b, x >>= f = .ok b := by
  obtain ⟨a, ha, hPa⟩ := hx
  obtain ⟨b, hb⟩ := hf a hPa
  exact ⟨b, by rw [ha, py_bind_ok]; exact hb⟩

/-- Composition of success facts through `>>=`. -/
theorem ok_bind {α β : Type} {x : Py α} {f : α → Py β}
    (hx : ∃ a, x = .ok a) (hf : ∀ a, ∃ b, f a = .ok b) :
    ∃ b, x >>= f = .ok b := by
  obtain ⟨a, ha⟩ := hx
  exact ok_bind_P (P := fun _ => True) ⟨a, ha, trivial⟩ (fun a _ => hf a)

/-- Success of a conditional from success of both branches. -/
theorem cond_ok {α : Type} {c : Prop} [Decidable c] {x y : Py α}
    (hx : c → ∃ a, x = .ok a) (hy : ¬c → ∃ a, y = .ok a) :
    ∃ a, (if c then x else y) = .ok a := by
  by_cases h : c
  · rw [if_pos h]; exact hx h
  · rw [if_neg h]; exact hy h

/-- `pure` always succeeds. -/
theorem pure_ok {α : Type} (x : α) : ∃ a, (pure x : Py α) = .ok a := ⟨x, rfl⟩

/-- `_safe_sum` succeeds on a list of `snum`-conforming values. -/
theorem safe_sum_ok {values : List PyVal}
    (h : ∀ v ∈ values, SSpec.conforms .snum v = true) :
    ∃ q, _safe_sum values = .ok q := by
  unfold _safe_sum
  apply foldlM_ok
  intro b v hv
  rcases snum_cases (h v hv) with h0 | ⟨q, h0⟩ <;> subst h0
  · exact ⟨b, rfl⟩
  · exact ⟨b + q, rfl⟩

/-! ## Safety of the math checker on schema-conforming data -/

/-- Items of a conforming EOB map to `snum`-conforming values under any
declared numeric item field. -/
theorem items_num_conf {items : List Dict} {fields : List (String × SSpec)}
    {k : String} (hconf : ∀ item ∈ items, itemConforms fields item = true)
    (hk : lookupSpec fields k = some .snum) :
    ∀ v ∈ items.map (fun item => Dict.get item k),
      SSpec.conforms .snum v = true := by
  intro v hv
  obtain ⟨item, hitem, rfl⟩ := List.mem_map.mp hv
  exact itemConf_scalar (hconf item hitem) hk

/-- `_eob_billed_sum_check` succeeds on conforming EOB data. -/
theorem _eob_billed_sum_check_ok {data : Dict} (doc_id : String)
    (h : dictConforms eobSpec data = true) :
    ∃ rs, _eob_billed_sum_check data doc_id = .ok rs := by
  unfold _eob_billed_sum_check
  refine cond_ok (fun hc => ?_) (fun _ => pure_ok _)
  obtain ⟨items, hitems, hiconf⟩ :=
    conf_list (k := "line_items") (F := eobItemSpec) h (Or.inl (by rfl))
  refine ok_bind_P
    (P := fun its => ∀ item ∈ its, itemConforms eobItemSpec item = true)
    ⟨items, hitems, hiconf⟩ (fun its hconf => ?_)
  refine ok_bind (safe_sum_ok (items_num_conf hconf (by rfl))) (fun line_sum => ?_)
  have hne : (Dict.get data "total_billed").isNone = false := by
    simp only [Bool.and_eq_true, Bool.not_eq_true'] at hc
    exact hc.1
  refine ok_bind (snum_asNum (conf_scalar h (by rfl)) hne) (fun tb => ?_)
  exact cond_ok (fun _ => pure_ok _) (fun _ => pure_ok _)

/-- `_eob_paid_sum_check` succeeds on conforming EOB data. -/
theorem _eob_paid_sum_check_ok {data : Dict} (doc_id : String)
    (h : dictConforms eobSpec data = true) :
    ∃ rs, _eob_paid_sum_check data doc_id = .ok rs := by
  unfold _eob_paid_sum_check
  refine cond_ok (fun hc => ?_) (fun _ => pure_ok _)
  obtain ⟨items, hitems, hiconf⟩ :=
    conf_list (k := "line_items") (F := eobItemSpec) h (Or.inl (by rfl))
  refine ok_bind_P
    (P := fun its => ∀ item ∈ its, itemConforms eobItemSpec item = true)
    ⟨items, hitems, hiconf⟩ (fun its hconf => ?_)
  refine ok_bind (safe_sum_ok (items_num_conf hconf (by rfl))) (fun line_sum => ?_)
  have hne : (Dict.get data "total_insurance_paid").isNone = false := by
    simp only [Bool.and_eq_true, Bool.not_eq_true'] at hc
    exact hc.1
  refine ok_bind (snum_asNum (conf_scalar h (by rfl)) hne) (fun tip => ?_)
  exact cond_ok (fun _ => pure_ok _) (fun _ => pure_ok _)

/-- `_eob_breakdown_check` succeeds on conforming EOB data. -/
theorem _eob_breakdown_check_ok {data : Dict} (doc_id : String)
    (h : dictConforms eobSpec data = true) :
    ∃ rs, _eob_breakdown_check data doc_id = .ok rs := by
  unfold _eob_breakdown_check
  refine cond_ok (fun hc => ?_) (fun _ => pure_ok _)
  refine ok_bind (snum_pyOr_asNum (conf_scalar h (by rfl))) (fun td => ?_)
  refine ok_bind (snum_pyOr_asNum (conf_scalar h (by rfl))) (fun tc => ?_)
  refine ok_bind (snum_pyOr_asNum (conf_scalar h (by rfl))) (fun tco => ?_)
  have hne : (Dict.get data "total_patient_responsibility").isNone = false := by
    simpa using hc
  refine ok_bind (snum_asNum (conf_scalar h (by rfl)) hne) (fun tp => ?_)
  exact cond_ok (fun _ => pure_ok _) (fun _ => pure_ok _)

/-- `_check_eob_math` succeeds on conforming EOB data. -/
theorem _check_eob_math_ok {data : Dict} (doc_id : String)
    (h : dictConforms eobSpec data = true) :
    ∃ rs, _check_eob_math data doc_id = .ok rs := by
  unfold _check_eob_math
  refine ok_bind (_eob_billed_sum_check_ok doc_id h) (fun r1 => ?_)
  refine ok_bind (_eob_paid_sum_check_ok doc_id h) (fun r2 => ?_)
  refine ok_bind (_eob_breakdown_check_ok doc_id h) (fun r3 => ?_)
  exact pure_ok _

/-- `_bill_line_sum_check` succeeds on conforming bill data. -/
theorem _bill_line_sum_check_ok {data : Dict} (doc_id : String)
    (h : dictConforms medicalBillSpec data = true) :
    ∃ rs, _bill_line_sum_check data doc_id = .ok rs := by
  unfold _bill_line_sum_check
  refine cond_ok (fun hc => ?_) (fun _ => pure_ok _)
  obtain ⟨items, hitems, hiconf⟩ :=
    conf_list (k := "line_items") (F := billItemSpec) h (Or.inl (by rfl))
  refine ok_bind_P
    (P := fun its => ∀ item ∈ its, itemConforms billItemSpec item = true)
    ⟨items, hitems, hiconf⟩ (fun its hconf => ?_)
  refine ok_bind (safe_sum_ok (items_num_conf hconf (by rfl))) (fun line_sum => ?_)
  have hne : (Dict.get data "total_charges").isNone = false := by
    simp only [Bool.and_eq_true, Bool.not_eq_true'] at hc
    exact hc.1
  refine ok_bind (snum_asNum (conf_scalar h (by rfl)) hne) (fun tc => ?_)
  exact cond_ok (fun _ => pure_ok _) (fun _ => pure_ok _)

/-- `_bill_balance_check` succeeds on conforming bill data. -/
theorem _bill_balance_check_ok {data : Dict} (doc_id : String)
    (h : dictConforms medicalBillSpec data = true) :
    ∃ rs, _bill_balance_check data doc_id = .ok rs := by
  unfold _bill_balance_check
  refine cond_ok (fun hc => ?_) (fun _ => pure_ok _)
  simp only [Bool.and_eq_true, Bool.not_eq_true'] at hc
  refine ok_bind (snum_pyOr_asNum (conf_scalar h (by rfl))) (fun adjustments => ?_)
  refine ok_bind (snum_pyOr_asNum (conf_scalar h (by rfl))) (fun ins_payments => ?_)
  refine ok_bind (snum_pyOr_asNum (conf_scalar h (by rfl))) (fun patient_payments => ?_)
  refine ok_bind (snum_asNum (conf_scalar h (by rfl)) hc.2) (fun tc => ?_)
  refine ok_bind (snum_asNum (conf_scalar h (by rfl)) hc.1) (fun bd => ?_)
  exact cond_ok (fun _ => pure_ok _) (fun _ => pure_ok _)

/-- `_check_bill_math` succeeds on conforming bill data. -/
theorem _check_bill_math_ok {data : Dict} (doc_id : String)
    (h : dictConforms medicalBillSpec data = true) :
    ∃ rs, _check_bill_math data doc_id = .ok rs := by
  unfold _check_bill_math
  refine ok_bind (_bill_line_sum_check_ok doc_id h) (fun r4 => ?_)
  refine ok_bind (_bill_balance_check_ok doc_id h) (fun r5 => ?_)
  exact pure_ok _

/-! ## Dispatch lemmas on `DocumentType.value` -/

theorem value_eq_EOB {t : DocumentType} :
    (t.value == "EOB") = true ↔ t = .EOB := by
  cases t <;> decide

theorem value_eq_MEDICAL_BILL {t : DocumentType} :
    (t.value == "MEDICAL_BILL") = true ↔ t = .MEDICAL_BILL := by
  cases t <;> decide

theorem value_eq_CMS1500 {t : DocumentType} :
    (t.value == "CMS-1500") = true ↔ t = .CMS1500 := by
  cases t <;> decide

theorem value_eq_UB04 {t : DocumentType} :
    (t.value == "UB-04") = true ↔ t = .UB04 := by
  cases t <;> decide

theorem value_eq_LAB_REPORT {t : DocumentType} :
    (t.value == "LAB_REPORT") = true ↔ t = .LAB_REPORT := by
  cases t <;> decide

theorem value_ne_PRIOR_AUTH (t : DocumentType) :
    (t.value == "PRIOR_AUTH") = false := by
  cases t <;> decide

theorem value_ne_APPEAL_DECISION (t : DocumentType) :
    (t.value == "APPEAL_DECISION") = false := by
  cases t <;> decide

theorem value_ne_DENTAL_CLAIM (t : DocumentType) :
    (t.value == "DENTAL_CLAIM") = false := by
  cases t <;> decide

theorem value_ne_ITEMIZED_STATEMENT (t : DocumentType) :
    (t.value == "ITEMIZED_STATEMENT") = false := by
  cases t <;> decide

/-- `run_math_checks` succeeds when every document conforms to its declared
schema. -/
theorem run_math_checks_ok {documents : List ProcessedDocument}
    (h : ∀ d ∈ documents, docConforms d = true) :
    ∃ rs, run_math_checks documents = .ok rs := by
  unfold run_math_checks
  apply foldlM_ok
  intro b doc hdoc
  have hd := h doc hdoc
  unfold docConforms at hd
  refine cond_ok (fun hc => ?_) (fun hnc => ?_)
  · have ht := value_eq_EOB.mp hc
    rw [ht] at hd
    exact ok_bind (_check_eob_math_ok _ hd) (fun rs => pure_ok _)
  · refine cond_ok (fun hc2 => ?_) (fun _ => pure_ok _)
    have ht := value_eq_MEDICAL_BILL.mp hc2
    rw [ht] at hd
    exact ok_bind (_check_bill_math_ok _ hd) (fun rs => pure_ok _)

/-! ## Safety of the billing reconciler on schema-conforming data -/

/-- An `sstr`-conforming value is hashable. -/
theorem sstr_hashable {v : PyVal} (h : SSpec.conforms .sstr v = true) :
    v.hashable = true := by
  rcases sstr_cases h with h0 | ⟨s, h0⟩ <;> subst h0 <;> rfl

/-- `_normalize_provider_name` succeeds on an `sstr`-conforming value or the
given string default. -/
theorem normProv_ok2 {v : PyVal} {s0 : String}
    (hv : SSpec.conforms .sstr v = true ∨ v = .str s0) :
    ∃ s, _normalize_provider_name v = .ok s := by
  apply normProv_ok
  rcases hv with h | h
  · exact Or.inl h
  · exact Or.inr ⟨s0, h⟩

/-- `_compare_amounts` succeeds on `snum`-conforming amounts. -/
theorem _compare_amounts_ok {resp bal : PyVal} (bill_provider : String)
    (hr : SSpec.conforms .snum resp = true) (hb : SSpec.conforms .snum bal = true) :
    ∃ rs, _compare_amounts resp bal bill_provider = .ok rs := by
  unfold _compare_amounts
  refine cond_ok (fun hc => ?_) (fun _ => pure_ok _)
  simp only [Bool.and_eq_true, Bool.not_eq_true'] at hc
  refine ok_bind (snum_asNum hr hc.1) (fun p => ?_)
  refine ok_bind (snum_asNum hb hc.2) (fun b => ?_)
  exact cond_ok (fun _ => pure_ok _) (fun _ => pure_ok _)

/-- Updating a `PyAssoc` with a hashable key succeeds and preserves a value
property. -/
theorem pyAssocSetM_ok {d : PyAssoc} {k v : PyVal} {P : PyVal → Prop}
    (hk : k.hashable = true) (hP : ∀ kv ∈ d, P kv.2) (hv : P v) :
    ∃ d2, pyAssocSetM d k v = .ok d2 ∧ ∀ kv ∈ d2, P kv.2 := by
  unfold pyAssocSetM
  rw [hk]
  simp only [Bool.not_true, Bool.false_eq_true, if_false]
  by_cases hmem : d.any (fun kv => kv.1 == k) = true
  · rw [if_pos hmem]
    refine ⟨_, rfl, ?_⟩
    intro kv hkv
    obtain ⟨kv0, hkv0, heq⟩ := List.mem_map.mp hkv
    by_cases he : (kv0.1 == k) = true
    · rw [if_pos he] at heq
      rw [← heq]
      exact hv
    · rw [if_neg he] at heq
      rw [← heq]
      exact hP kv0 hkv0
  · rw [if_neg hmem]
    refine ⟨_, rfl, ?_⟩
    intro kv hkv
    rcases List.mem_append.mp hkv with h1 | h2
    · exact hP kv h1
    · rw [List.mem_singleton.mp h2]
      exact hv

/-- `k in d` on a hashable key evaluates to the association-list membership
test. -/
theorem pyAssocContainsM_ok {d : PyAssoc} {k : PyVal} (hk : k.hashable = true) :
    pyAssocContainsM d k = .ok (d.any (fun kv => kv.1 == k)) := by
  unfold pyAssocContainsM
  rw [hk]
  rfl

/-- A present key's value in a `PyAssoc` inherits any property of all stored
values. -/
theorem pyAssocGet_prop {d : PyAssoc} {k : PyVal} {P : PyVal → Prop}
    (hP : ∀ kv ∈ d, P kv.2) (hmem : d.any (fun kv => kv.1 == k) = true) :
    P (pyAssocGet d k) := by
  unfold pyAssocGet
  have hsome : (d.find? (fun kv => kv.1 == k)).isSome := by
    rw [List.find?_isSome]
    obtain ⟨x, hx, hpx⟩ := List.any_eq_true.mp hmem
    exact ⟨x, hx, hpx⟩
  cases hf : d.find? (fun kv => kv.1 == k) with
  | none => rw [hf] at hsome; simp at hsome
  | some kv => exact hP kv (List.mem_of_find?_eq_some hf)

/-- `_compare_line_items` succeeds on conforming EOB and bill documents. -/
theorem _compare_line_items_ok {eob bill : ProcessedDocument}
    (he : dictConforms eobSpec eob.extracted_data = true)
    (hb : dictConforms medicalBillSpec bill.extracted_data = true) :
    ∃ rs, _compare_line_items eob bill = .ok rs := by
  unfold _compare_line_items
  obtain ⟨eitems, heitems, heconf⟩ :=
    conf_list (k := "line_items") (F := eobItemSpec) he (Or.inl (by rfl))
  refine ok_bind_P
    (P := fun its => ∀ item ∈ its, itemConforms eobItemSpec item = true)
    ⟨eitems, heitems, heconf⟩ (fun eits heconf2 => ?_)
  obtain ⟨bitems, hbitems, hbconf⟩ :=
    conf_list (k := "line_items") (F := billItemSpec) hb (Or.inl (by rfl))
  refine ok_bind_P
    (P := fun its => ∀ item ∈ its, itemConforms billItemSpec item = true)
    ⟨bitems, hbitems, hbconf⟩ (fun bits hbconf2 => ?_)
  -- the allowed-by-CPT lookup: all stored values are present numbers
  refine ok_bind_P
    (P := fun (d : PyAssoc) => ∀ kv ∈ d,
      SSpec.conforms .snum kv.2 = true ∧ kv.2.isNone = false)
    (foldlM_ok_inv eits [] (by simp) (fun d item hitem hPd => ?_))
    (fun d hPd => ?_)
  · dsimp only
    by_cases hc : ((Dict.get item "cpt_code").truthy &&
      !(Dict.get item "allowed_amount").isNone) = true
    · rw [if_pos hc]
      simp only [Bool.and_eq_true, Bool.not_eq_true'] at hc
      have hcpt : SSpec.conforms .sstr (Dict.get item "cpt_code") = true :=
        itemConf_scalar (heconf2 item hitem) (by rfl)
      have hallowed : SSpec.conforms .snum (Dict.get item "allowed_amount") = true :=
        itemConf_scalar (heconf2 item hitem) (by rfl)
      exact pyAssocSetM_ok
        (P := fun v => SSpec.conforms .snum v = true ∧ v.isNone = false)
        (sstr_hashable hcpt) hPd ⟨hallowed, hc.2⟩
    · rw [if_neg hc]
      exact ⟨d, rfl, hPd⟩
  apply foldlM_ok
  intro results item hitem
  refine cond_ok (fun hc => ?_) (fun _ => pure_ok _)
  simp only [Bool.and_eq_true, Bool.not_eq_true'] at hc
  have hcpt : SSpec.conforms .sstr (Dict.get item "cpt_code") = true :=
    itemConf_scalar (hbconf2 item hitem) (by rfl)
  have hamount : SSpec.conforms .snum (Dict.get item "amount") = true :=
    itemConf_scalar (hbconf2 item hitem) (by rfl)
  rw [pyAssocContainsM_ok (sstr_hashable hcpt), py_bind_ok]
  refine cond_ok (fun hmem => ?_) (fun _ => pure_ok _)
  have hval := pyAssocGet_prop
    (P := fun v => SSpec.conforms .snum v = true ∧ v.isNone = false) hPd hmem
  refine ok_bind (snum_asNum hval.1 hval.2) (fun allowed => ?_)
  refine ok_bind (snum_asNum hamount hc.2) (fun a => ?_)
  exact cond_ok (fun _ => pure_ok _) (fun _ => pure_ok _)

/-- Every document the billing reconciler classifies as an EOB satisfies the
EOB schema, given conforming input. -/
theorem filtered_eob_conf {documents : List ProcessedDocument}
    (h : ∀ d ∈ documents, docConforms d = true) :
    ∀ d ∈ documents.filter
      (fun d => d.envelope.classified_type.value == "EOB"),
      dictConforms eobSpec d.extracted_data = true := by
  intro d hd
  obtain ⟨hmem, hp⟩ := List.mem_filter.mp hd
  have hc := h d hmem
  unfold docConforms at hc
  rw [value_eq_EOB.mp hp] at hc
  exact hc

/-- Every document the billing reconciler classifies as a bill satisfies the
bill schema, given conforming input. -/
theorem filtered_bill_conf {documents : List ProcessedDocument}
    (h : ∀ d ∈ documents, docConforms d = true) :
    ∀ d ∈ documents.filter
      (fun d => d.envelope.classified_type.value == "MEDICAL_BILL"),
      dictConforms medicalBillSpec d.extracted_data = true := by
  intro d hd
  obtain ⟨hmem, hp⟩ := List.mem_filter.mp hd
  have hc := h d hmem
  unfold docConforms at hc
  rw [value_eq_MEDICAL_BILL.mp hp] at hc
  exact hc

/-- `docProviderNorm` succeeds on data conforming to any spec that declares
`provider` as a provider block or not at all. -/
theorem docProviderNorm_ok {spec : List (String × FSpec)} {data : Dict}
    (h : dictConforms spec data = true)
    (hk : lookupSpec spec "provider" = some (.blockOf providerSpec) ∨
      lookupSpec spec "provider" = Option.none) :
    ∃ s, docProviderNorm data = .ok s := by
  unfold docProviderNorm
  refine ok_bind_P (P := fun v => SSpec.conforms .sstr v = true ∨ v = .str "")
    (conf_getNested "provider" "name" (.str "") h hk (Or.inl (by rfl)))
    (fun v hv => normProv_ok2 hv)

/-- `run_billing_reconciliation_checks` succeeds when every document conforms
to its declared schema. -/
theorem run_billing_reconciliation_checks_ok {documents : List ProcessedDocument}
    (h : ∀ d ∈ documents, docConforms d = true) :
    ∃ rs, run_billing_reconciliation_checks documents = .ok rs := by
  have heobs := filtered_eob_conf h
  have hbills := filtered_bill_conf h
  unfold run_billing_reconciliation_checks
  refine ok_bind ?_ (fun st => ?_)
  · -- the matching double loop
    apply foldlM_ok
    intro st eob heob
    refine ok_bind (docProviderNorm_ok (heobs eob heob) (Or.inl (by rfl)))
      (fun eob_provider => ?_)
    apply foldlM_ok
    intro st2 bill hbill
    obtain ⟨results, matched_eobs, matched_bills⟩ := st2
    dsimp only
    refine ok_bind (docProviderNorm_ok (hbills bill hbill) (Or.inl (by rfl)))
      (fun bill_provider => ?_)
    refine cond_ok (fun hm => ?_) (fun _ => pure_ok _)
    refine ok_bind (_compare_amounts_ok bill_provider
      (conf_scalar (heobs eob heob) (by rfl))
      (conf_scalar (hbills bill hbill) (by rfl))) (fun amountResults => ?_)
    refine ok_bind (_compare_line_items_ok (heobs eob heob) (hbills bill hbill))
      (fun liResults => ?_)
    exact pure_ok _
  · obtain ⟨results, matched_eobs, matched_bills⟩ := st
    dsimp only
    refine ok_bind ?_ (fun results2 => ?_)
    · apply foldlM_ok
      intro acc eob heob
      refine cond_ok (fun _ => pure_ok _) (fun _ => ?_)
      obtain ⟨v, hvEq, -⟩ := conf_getNested "provider" "name"
         (.str "Unknown") (heobs eob heob)
        (Or.inl (by rfl)) (Or.inl (by rfl))
      exact ok_bind ⟨v, hvEq⟩ (fun _ => pure_ok _)
    · refine ok_bind ?_ (fun results3 => pure_ok _)
      apply foldlM_ok
      intro acc bill hbill
      refine cond_ok (fun _ => pure_ok _) (fun _ => ?_)
      obtain ⟨v, hvEq, -⟩ := conf_getNested "provider" "name"
         (.str "Unknown") (hbills bill hbill)
        (Or.inl (by rfl)) (Or.inl (by rfl))
      exact ok_bind ⟨v, hvEq⟩ (fun _ => pure_ok _)

/-! ## Safety of the duplicate detector on schema-conforming data -/

/-- Composition through `>>=` carrying properties of both results. -/
theorem ok_bind_P2 {α β : Type} {x : Py α} {P : α → Prop} {f : α → Py β}
    {Q : β → Prop} (hx : ∃ a, x = .ok a ∧ P a)
    (hf : ∀ a, P a → ∃ b, f a = .ok b ∧ Q b) :
    ∃ b, x >>= f = .ok b ∧ Q b := by
  obtain ⟨a, ha, hPa⟩ := hx
  obtain ⟨b, hb, hQb⟩ := hf a hPa
  exact ⟨b, by rw [ha, py_bind_ok]; exact hb, hQb⟩

/-- Success-with-property of a conditional from both branches. -/
theorem cond_okQ {α : Type} {c : Prop} [Decidable c] {x y : Py α} {Q : α → Prop}
    (hx : c → ∃ a, x = .ok a ∧ Q a) (hy : ¬c → ∃ a, y = .ok a ∧ Q a) :
    ∃ a, (if c then x else y) = .ok a ∧ Q a := by
  by_cases h : c
  · rw [if_pos h]; exact hx h
  · rw [if_neg h]; exact hy h

/-- The invariant carried by normalized service lines extracted from
conforming documents: string-or-null code and provider, numeric-or-null
amount. -/
def LineConf (l : ServiceLine) : Prop :=
  SSpec.conforms .sstr l.cpt_code = true ∧
  SSpec.conforms .sstr l.provider = true ∧
  SSpec.conforms .snum l.amount = true

/-- `pyOr` of two `sstr`-conforming values conforms. -/
theorem pyOr_sstr {a b : PyVal} (ha : SSpec.conforms .sstr a = true)
    (hb : SSpec.conforms .sstr b = true) :
    SSpec.conforms .sstr (pyOr a b) = true := by
  unfold pyOr
  split <;> assumption

/-- Lines built by `mkLines` from conforming items satisfy `LineConf`. -/
theorem mkLines_conf {items : List Dict} {fields : List (String × SSpec)}
    {codeKey dateKey descKey amountKey src doc_id : String} {provider : PyVal}
    (hconf : ∀ item ∈ items, itemConforms fields item = true)
    (hcode : lookupSpec fields codeKey = some .sstr)
    (hamount : amountKey = "" ∨ lookupSpec fields amountKey = some .snum)
    (hprov : SSpec.conforms .sstr provider = true) :
    ∀ l ∈ mkLines items codeKey dateKey descKey amountKey src doc_id provider,
      LineConf l := by
  intro l hl
  obtain ⟨item, hitem, rfl⟩ := List.mem_map.mp hl
  refine ⟨itemConf_scalar (hconf item hitem) hcode, hprov, ?_⟩
  dsimp only
  rcases hamount with h0 | hk
  · rw [if_pos (by simp [h0])]
    rfl
  · by_cases he : (amountKey == "") = true
    · rw [if_pos he]; rfl
    · rw [if_neg he]
      exact itemConf_scalar (hconf item hitem) hk

/-- `_extract_all_service_lines` succeeds on conforming documents and yields
`LineConf` lines. -/
theorem _extract_all_service_lines_ok {documents : List ProcessedDocument}
    (h : ∀ d ∈ documents, docConforms d = true) :
    ∃ lines, _extract_all_service_lines documents = .ok lines ∧
      ∀ l ∈ lines, LineConf l := by
  unfold _extract_all_service_lines
  apply foldlM_ok_inv
  · simp
  intro lines doc hdoc hP
  have hd := h doc hdoc
  unfold docConforms at hd
  have hprovspec : lookupSpec (specFor doc.envelope.classified_type) "provider" =
      some (.blockOf providerSpec) ∨
      lookupSpec (specFor doc.envelope.classified_type) "provider" = Option.none := by
    cases doc.envelope.classified_type
    case EOB => exact Or.inl (by rfl)
    case MEDICAL_BILL => exact Or.inl (by rfl)
    case CMS1500 => exact Or.inl (by rfl)
    case UB04 => exact Or.inl (by rfl)
    case LAB_REPORT => exact Or.inr (by rfl)
    case PHARMACY_RECEIPT => exact Or.inr (by rfl)
    case UNKNOWN => exact Or.inr (by rfl)
  refine ok_bind_P2
    (P := fun v => SSpec.conforms .sstr v = true)
    (?_) (fun prov hprov => ?_)
  · obtain ⟨v, hvEq, hv⟩ := conf_getNested "provider" "name" PyVal.none hd hprovspec
      (Or.inl (by rfl))
    refine ⟨v, hvEq, ?_⟩
    rcases hv with hv | hv
    · exact hv
    · rw [hv]; rfl
  -- the per-type dispatch
  refine cond_okQ (fun hc => ?_) (fun _ => ?_)
  · -- EOB
    have ht := value_eq_EOB.mp hc
    rw [ht] at hd
    obtain ⟨items, hitems, hiconf⟩ :=
      conf_list (k := "line_items") (F := eobItemSpec) hd (Or.inl (by rfl))
    refine ok_bind_P2
      (P := fun its => ∀ item ∈ its, itemConforms eobItemSpec item = true)
      ⟨items, hitems, hiconf⟩ (fun its hconf => ?_)
    refine ⟨_, rfl, ?_⟩
    intro l hl
    rcases List.mem_append.mp hl with h1 | h2
    · exact hP l h1
    · exact mkLines_conf hconf (by rfl) (Or.inr (by rfl)) hprov l h2
  refine cond_okQ (fun hc => ?_) (fun _ => ?_)
  · -- MEDICAL_BILL
    have ht := value_eq_MEDICAL_BILL.mp hc
    rw [ht] at hd
    obtain ⟨items, hitems, hiconf⟩ :=
      conf_list (k := "line_items") (F := billItemSpec) hd (Or.inl (by rfl))
    refine ok_bind_P2
      (P := fun its => ∀ item ∈ its, itemConforms billItemSpec item = true)
      ⟨items, hitems, hiconf⟩ (fun its hconf => ?_)
    refine ⟨_, rfl, ?_⟩
    intro l hl
    rcases List.mem_append.mp hl with h1 | h2
    · exact hP l h1
    · exact mkLines_conf hconf (by rfl) (Or.inr (by rfl)) hprov l h2
  refine cond_okQ (fun hc => ?_) (fun _ => ?_)
  · -- CMS-1500
    have ht := value_eq_CMS1500.mp hc
    rw [ht] at hd
    refine ok_bind_P2
      (P := fun v => SSpec.conforms .sstr v = true)
      (?_) (fun prov2 hprov2 => ?_)
    · obtain ⟨v, hvEq, hv⟩ := conf_getNested "provider" "name"
         PyVal.none hd (Or.inl (by rfl)) (Or.inl (by rfl))
      refine ⟨v, hvEq, ?_⟩
      rcases hv with hv | hv
      · exact hv
      · rw [hv]; rfl
    obtain ⟨items, hitems, hiconf⟩ :=
      conf_list (k := "service_lines") (F := cms1500LineSpec) hd (Or.inl (by rfl))
    refine ok_bind_P2
      (P := fun its => ∀ item ∈ its, itemConforms cms1500LineSpec item = true)
      ⟨items, hitems, hiconf⟩ (fun its hconf => ?_)
    refine ⟨_, rfl, ?_⟩
    intro l hl
    rcases List.mem_append.mp hl with h1 | h2
    · exact hP l h1
    · obtain ⟨item, hitem, rfl⟩ := List.mem_map.mp h2
      exact ⟨itemConf_scalar (hconf item hitem) (by rfl), hprov2,
        itemConf_scalar (hconf item hitem) (by rfl)⟩
  refine cond_okQ (fun hc => ?_) (fun _ => ?_)
  · -- UB-04
    have ht := value_eq_UB04.mp hc
    rw [ht] at hd
    refine ok_bind_P2
      (P := fun v => SSpec.conforms .sstr v = true)
      (?_) (fun prov2 hprov2 => ?_)
    · obtain ⟨v, hvEq, hv⟩ := conf_getNested "provider" "name"
         PyVal.none hd (Or.inl (by rfl)) (Or.inl (by rfl))
      refine ⟨v, hvEq, ?_⟩
      rcases hv with hv | hv
      · exact hv
      · rw [hv]; rfl
    obtain ⟨items, hitems, hiconf⟩ :=
      conf_list (k := "revenue_lines") (F := ub04LineSpec) hd (Or.inl (by rfl))
    refine ok_bind_P2
      (P := fun its => ∀ item ∈ its, itemConforms ub04LineSpec item = true)
      ⟨items, hitems, hiconf⟩ (fun its hconf => ?_)
    refine ⟨_, rfl, ?_⟩
    intro l hl
    rcases List.mem_append.mp hl with h1 | h2
    · exact hP l h1
    · exact mkLines_conf hconf (by rfl) (Or.inr (by rfl))
        (pyOr_sstr hprov2 (conf_scalar hd (by rfl))) l h2
  refine cond_okQ (fun hc => ?_) (fun _ => ?_)
  · -- LAB_REPORT
    have ht := value_eq_LAB_REPORT.mp hc
    rw [ht] at hd
    refine ok_bind_P2
      (P := fun v => SSpec.conforms .sstr v = true)
      (?_) (fun prov2 hprov2 => ?_)
    · unfold labProvider
      refine ok_bind_P2
        (P := fun v => SSpec.conforms .sstr v = true)
        (Q := fun v => SSpec.conforms .sstr v = true)
        (?_) (fun performing hperf => ?_)
      · obtain ⟨v, hvEq, hv⟩ := conf_getNested "performing_lab" "name"
           PyVal.none hd (Or.inl (by rfl)) (Or.inl (by rfl))
        refine ⟨v, hvEq, ?_⟩
        rcases hv with hv | hv
        · exact hv
        · rw [hv]; rfl
      · refine cond_okQ (fun hpt => ⟨performing, rfl, hperf⟩) (fun hpt => ?_)
        obtain ⟨v, hvEq, hv⟩ := conf_getNested "ordering_provider" "name"  PyVal.none hd
          (Or.inl (by rfl)) (Or.inl (by rfl))
        refine ⟨v, hvEq, ?_⟩
        rcases hv with hv | hv
        · exact hv
        · rw [hv]; rfl
    obtain ⟨items, hitems, hiconf⟩ :=
      conf_list (k := "test_results") (F := labTestSpec) hd (Or.inl (by rfl))
    refine ok_bind_P2
      (P := fun its => ∀ item ∈ its, itemConforms labTestSpec item = true)
      ⟨items, hitems, hiconf⟩ (fun its hconf => ?_)
    refine ⟨_, rfl, ?_⟩
    intro l hl
    rcases List.mem_append.mp hl with h1 | h2
    · exact hP l h1
    · obtain ⟨item, hitem, rfl⟩ := List.mem_map.mp h2
      exact ⟨itemConf_scalar (hconf item hitem) (by rfl), hprov2, rfl⟩
  refine cond_okQ (fun hc => ?_) (fun _ => ?_)
  · -- DENTAL_CLAIM: unreachable for the seven-member enum
    rw [value_ne_DENTAL_CLAIM doc.envelope.classified_type] at hc
    cases hc
  refine cond_okQ (fun hc => ?_) (fun _ => ⟨lines, rfl, hP⟩)
  · -- ITEMIZED_STATEMENT: unreachable for the seven-member enum
    rw [value_ne_ITEMIZED_STATEMENT doc.envelope.classified_type] at hc
    cases hc

/-- `pyOr` with a string default of an `sstr`-conforming value is a string. -/
theorem pyOr_str_default {v : PyVal} (d : String)
    (h : SSpec.conforms .sstr v = true) :
    ∃ s, pyOr v (.str d) = .str s := by
  rcases sstr_cases h with h0 | ⟨s, h0⟩ <;> subst h0
  · exact ⟨d, rfl⟩
  · unfold pyOr
    by_cases ht : (PyVal.str s).truthy = true
    · rw [if_pos ht]; exact ⟨s, rfl⟩
    · rw [if_neg ht]; exact ⟨d, rfl⟩

/-- `groupAppend` preserves the per-line invariant. -/
theorem groupAppend_conf {groups : List (GroupKey × List ServiceLine)}
    {key : GroupKey} {line : ServiceLine}
    (hP : ∀ g ∈ groups, ∀ l ∈ g.2, LineConf l) (hl : LineConf line) :
    ∀ g ∈ groupAppend groups key line, ∀ l ∈ g.2, LineConf l := by
  unfold groupAppend
  by_cases hmem : groups.any (fun g => groupKeyBeq g.1 key) = true
  · rw [if_pos hmem]
    intro g hg l hlg
    obtain ⟨g0, hg0, heq⟩ := List.mem_map.mp hg
    by_cases he : groupKeyBeq g0.1 key = true
    · rw [if_pos he] at heq
      rw [← heq] at hlg
      rcases List.mem_append.mp hlg with h1 | h2
      · exact hP g0 hg0 l h1
      · rw [List.mem_singleton.mp h2]; exact hl
    · rw [if_neg he] at heq
      rw [← heq] at hlg
      exact hP g0 hg0 l hlg
  · rw [if_neg hmem]
    intro g hg l hlg
    rcases List.mem_append.mp hg with h1 | h2
    · exact hP g h1 l hlg
    · rw [List.mem_singleton.mp h2] at hlg
      rw [List.mem_singleton.mp hlg]
      exact hl

/-- `groupLines` succeeds on conforming lines and its groups inherit the
invariant. -/
theorem groupLines_ok {service_lines : List ServiceLine}
    (h : ∀ l ∈ service_lines, LineConf l) :
    ∃ groups, groupLines service_lines = .ok groups ∧
      ∀ g ∈ groups, ∀ l ∈ g.2, LineConf l := by
  unfold groupLines
  apply foldlM_ok_inv
  · simp
  intro groups line hline hP
  dsimp only
  by_cases ht : line.cpt_code.truthy = true
  · rw [if_pos ht, sstr_hashable (h line hline).1]
    simp only [Bool.not_true, Bool.false_eq_true, if_false]
    exact ⟨_, rfl, groupAppend_conf hP (h line hline)⟩
  · rw [if_neg ht]
    exact ⟨groups, rfl, hP⟩

/-- `sumAmounts` succeeds on conforming lines. -/
theorem sumAmounts_ok {occs : List ServiceLine}
    (h : ∀ l ∈ occs, LineConf l) : ∃ q, sumAmounts occs = .ok q := by
  unfold sumAmounts
  apply foldlM_ok
  intro acc occ hocc
  refine cond_ok (fun ht => ?_) (fun _ => pure_ok _)
  exact ok_bind (snum_pyOr_asNum (h occ hocc).2.2) (fun q => pure_ok _)

/-- `groupByProvider` succeeds on conforming lines; every key is a string and
every grouped line keeps the invariant. -/
theorem groupByProvider_ok {occs : List ServiceLine}
    (h : ∀ l ∈ occs, LineConf l) :
    ∃ groups, groupByProvider occs = .ok groups ∧
      ∀ g ∈ groups, (∃ s, g.1 = PyVal.str s) ∧ ∀ l ∈ g.2, LineConf l := by
  unfold groupByProvider
  apply foldlM_ok_inv
  · simp
  intro groups occ hocc hP
  dsimp only
  obtain ⟨s, hs⟩ := pyOr_str_default "Unknown" (h occ hocc).2.1
  rw [hs]
  simp only [PyVal.hashable, Bool.not_true, Bool.false_eq_true, if_false]
  by_cases hmem : groups.any (fun g => g.1 == PyVal.str s) = true
  · rw [if_pos hmem]
    refine ⟨_, rfl, ?_⟩
    intro g hg
    obtain ⟨g0, hg0, heq⟩ := List.mem_map.mp hg
    by_cases he : (g0.1 == PyVal.str s) = true
    · rw [if_pos he] at heq
      refine ⟨?_, ?_⟩
      · rw [← heq]
        exact (hP g0 hg0).1
      · intro l hlg
        rw [← heq] at hlg
        rcases List.mem_append.mp hlg with h1 | h2
        · exact (hP g0 hg0).2 l h1
        · rw [List.mem_singleton.mp h2]; exact h occ hocc
    · rw [if_neg he] at heq
      rw [← heq]
      exact hP g0 hg0
  · rw [if_neg hmem]
    refine ⟨_, rfl, ?_⟩
    intro g hg
    rcases List.mem_append.mp hg with h1 | h2
    · exact hP g h1
    · rw [List.mem_singleton.mp h2]
      exact ⟨⟨s, rfl⟩, fun l hl => by
        rw [List.mem_singleton.mp hl]; exact h occ hocc⟩

/-- `providerListStr` succeeds when every provider key is a string. -/
theorem providerListStr_ok {providers : List PyVal}
    (h : ∀ p ∈ providers, ∃ s, p = PyVal.str s) :
    ∃ s, providerListStr providers = .ok s := by
  unfold providerListStr
  refine ok_bind (mapM_asStrM_ok ?_) (fun names => pure_ok _)
  intro x hx
  exact h x (List.take_subset 3 providers hx)

/-- `_dup_cross_check` succeeds on conforming groups. -/
theorem _dup_cross_check_ok {cpt_code : PyVal} {service_date : Option Int}
    {occs : List ServiceLine} {providers : List PyVal}
    (hocc : ∀ l ∈ occs, LineConf l)
    (hprov : ∀ p ∈ providers, ∃ s, p = PyVal.str s) :
    ∃ rs, _dup_cross_check cpt_code service_date occs providers = .ok rs := by
  unfold _dup_cross_check
  refine cond_ok (fun _ => ?_) (fun _ => pure_ok _)
  refine cond_ok (fun _ => ?_) (fun _ => pure_ok _)
  refine ok_bind (sumAmounts_ok hocc) (fun total => ?_)
  exact ok_bind (providerListStr_ok hprov) (fun plist => pure_ok _)

/-- `_dup_same_checks` succeeds on conforming provider groups. -/
theorem _dup_same_checks_ok {cpt_code : PyVal} {service_date : Option Int}
    {by_provider : List (PyVal × List ServiceLine)}
    (h : ∀ g ∈ by_provider, ∀ l ∈ g.2, LineConf l) :
    ∃ rs, _dup_same_checks cpt_code service_date by_provider = .ok rs := by
  unfold _dup_same_checks
  apply foldlM_ok
  intro acc g hg
  refine cond_ok (fun _ => ?_) (fun _ => pure_ok _)
  exact ok_bind (sumAmounts_ok (h g hg)) (fun t => pure_ok _)

/-- `processGroup` succeeds on a conforming group. -/
theorem processGroup_ok {cpt_code : PyVal} {service_date : Option Int}
    {occs : List ServiceLine} (hocc : ∀ l ∈ occs, LineConf l) :
    ∃ rs, processGroup cpt_code service_date occs = .ok rs := by
  unfold processGroup
  refine cond_ok (fun _ => pure_ok _) (fun _ => ?_)
  refine ok_bind_P
    (P := fun groups => ∀ g ∈ groups, (∃ s, g.1 = PyVal.str s) ∧ ∀ l ∈ g.2, LineConf l)
    (groupByProvider_ok hocc) (fun by_provider hbp => ?_)
  refine ok_bind (_dup_cross_check_ok hocc ?_) (fun crossResults => ?_)
  · intro p hp
    obtain ⟨g, hg, rfl⟩ := List.mem_map.mp hp
    exact (hbp g hg).1
  refine ok_bind (_dup_same_checks_ok (fun g hg => (hbp g hg).2))
    (fun sameResults => ?_)
  exact pure_ok _

/-- `run_duplicate_detection` succeeds when every document conforms to its
declared schema. -/
theorem run_duplicate_detection_ok {documents : List ProcessedDocument}
    (h : ∀ d ∈ documents, docConforms d = true) :
    ∃ rs, run_duplicate_detection documents = .ok rs := by
  unfold run_duplicate_detection
  refine ok_bind_P
    (P := fun lines => ∀ l ∈ lines, LineConf l)
    (_extract_all_service_lines_ok h) (fun lines hlines => ?_)
  refine ok_bind_P
    (P := fun groups => ∀ g ∈ groups, ∀ l ∈ g.2, LineConf l)
    (groupLines_ok hlines) (fun groups hgroups => ?_)
  apply foldlM_ok
  intro acc g hg
  exact ok_bind (processGroup_ok (hgroups g hg)) (fun rs => pure_ok _)

/-! ## Safety of the coverage checker on schema-conforming data -/

/-- `fmtMoneyIfTruthy` succeeds on an `snum`-conforming value. -/
theorem fmtMoneyIfTruthy_ok {v : PyVal} (base pre suf : String)
    (h : SSpec.conforms .snum v = true) :
    ∃ s, fmtMoneyIfTruthy v base pre suf = .ok s := by
  unfold fmtMoneyIfTruthy
  refine cond_ok (fun ht => ?_) (fun _ => pure_ok _)
  exact ok_bind (snum_truthy_asNum h ht) (fun q => pure_ok _)

/-- Reading with a conforming default from a conforming one-level object gives
a conforming value. -/
theorem itemConf_getD_conf {fields : List (String × SSpec)} {item : Dict}
    {k : String} {s : SSpec} {dflt : PyVal} (h : itemConforms fields item = true)
    (hk : lookupSpec fields k = some s) (hd : s.conforms dflt = true) :
    s.conforms (Dict.getD item k dflt) = true := by
  rcases itemConf_getD k dflt h with h0 | ⟨s2, hls, hc⟩
  · rw [h0]; exact hd
  · rw [hk] at hls
    injection hls with h2
    subst h2
    exact hc

/-- `_remarkSuffix` succeeds on an `sstrlist`-conforming value. -/
theorem _remarkSuffix_ok {v : PyVal} (base : String)
    (h : SSpec.conforms .sstrlist v = true) :
    ∃ s, _remarkSuffix v base = .ok s := by
  unfold _remarkSuffix
  refine cond_ok (fun ht => ?_) (fun _ => pure_ok _)
  exact ok_bind (strlist_join h ht) (fun codes => pure_ok _)

/-- `_eob_claim_denied_check` succeeds on conforming EOB data. -/
theorem _eob_claim_denied_check_ok (today : Int) {data : Dict}
    (h : dictConforms eobSpec data = true) :
    ∃ rs, _eob_claim_denied_check today data = .ok rs := by
  unfold _eob_claim_denied_check
  refine ok_bind (sstr_pyOr_asStr "" (conf_scalar h (by rfl))) (fun cs => ?_)
  refine cond_ok (fun _ => ?_) (fun _ => pure_ok _)
  obtain ⟨v, hvEq, -⟩ := conf_getNested "provider" "name"
     (.str "provider") h (Or.inl (by rfl)) (Or.inl (by rfl))
  refine ok_bind ⟨v, hvEq⟩ (fun provider => ?_)
  refine ok_bind (fmtMoneyIfTruthy_ok _ _ _ (conf_scalar h (by rfl)))
    (fun detail1 => ?_)
  refine ok_bind (snum_asOvercharge (conf_scalar h (by rfl))) (fun ov => ?_)
  exact pure_ok _

/-- `_eob_line_denied_check` succeeds on conforming EOB data. -/
theorem _eob_line_denied_check_ok {data : Dict}
    (h : dictConforms eobSpec data = true) :
    ∃ rs, _eob_line_denied_check data = .ok rs := by
  unfold _eob_line_denied_check
  obtain ⟨items, hitems, hiconf⟩ :=
    conf_list (k := "line_items") (F := eobItemSpec) h (Or.inl (by rfl))
  refine ok_bind_P
    (P := fun its => ∀ item ∈ its, itemConforms eobItemSpec item = true)
    ⟨items, hitems, hiconf⟩ (fun its hconf => ?_)
  apply foldlM_ok
  intro acc item hitem
  refine cond_ok (fun _ => ?_) (fun _ => pure_ok _)
  refine ok_bind (fmtMoneyIfTruthy_ok _ _ _
    (itemConf_scalar (hconf item hitem) (by rfl))) (fun detail3 => ?_)
  refine ok_bind (snum_asOvercharge (itemConf_scalar (hconf item hitem) (by rfl)))
    (fun ov => ?_)
  exact pure_ok _

/-- `_eob_zero_allowed_check` succeeds on conforming EOB data. -/
theorem _eob_zero_allowed_check_ok {data : Dict}
    (h : dictConforms eobSpec data = true) :
    ∃ rs, _eob_zero_allowed_check data = .ok rs := by
  unfold _eob_zero_allowed_check
  obtain ⟨items, hitems, hiconf⟩ :=
    conf_list (k := "line_items") (F := eobItemSpec) h (Or.inl (by rfl))
  refine ok_bind_P
    (P := fun its => ∀ item ∈ its, itemConforms eobItemSpec item = true)
    ⟨items, hitems, hiconf⟩ (fun its hconf => ?_)
  apply foldlM_ok
  intro acc item hitem
  refine cond_ok (fun hc => ?_) (fun _ => pure_ok _)
  have hbt : (Dict.get item "billed_amount").truthy = true := by
    simp only [Bool.and_eq_true] at hc
    exact hc.2
  refine ok_bind (snum_truthy_asNum (itemConf_scalar (hconf item hitem) (by rfl)) hbt)
    (fun bq => ?_)
  refine cond_ok (fun _ => ?_) (fun _ => pure_ok _)
  refine ok_bind (_remarkSuffix_ok _ (itemConf_getD_conf (hconf item hitem)
    (by rfl) (by rfl))) (fun detail3 => ?_)
  exact pure_ok _

/-- `_eob_full_cost_check` succeeds on conforming EOB data. -/
theorem _eob_full_cost_check_ok {data : Dict}
    (h : dictConforms eobSpec data = true) :
    ∃ rs, _eob_full_cost_check data = .ok rs := by
  unfold _eob_full_cost_check
  refine cond_ok (fun hc => ?_) (fun _ => pure_ok _)
  have hbt : (Dict.get data "total_billed").truthy = true := by
    simp only [Bool.and_eq_true] at hc
    exact hc.2
  refine ok_bind (snum_truthy_asNum (conf_scalar h (by rfl)) hbt) (fun tbq => ?_)
  refine cond_ok (fun hc2 => ?_) (fun _ => pure_ok _)
  have hpt : (Dict.get data "total_patient_responsibility").truthy = true := by
    simp only [Bool.and_eq_true] at hc2
    exact hc2.2
  refine ok_bind (snum_truthy_asNum (conf_scalar h (by rfl)) hpt) (fun tprq => ?_)
  refine cond_ok (fun _ => ?_) (fun _ => pure_ok _)
  obtain ⟨v, hvEq, -⟩ := conf_getNested "provider" "name"
     (.str "provider") h (Or.inl (by rfl)) (Or.inl (by rfl))
  refine ok_bind ⟨v, hvEq⟩ (fun provider => ?_)
  refine ok_bind (snum_asOvercharge (conf_scalar h (by rfl))) (fun ov => ?_)
  exact pure_ok _

/-- `_check_eob_coverage` succeeds on a conforming EOB document. -/
theorem _check_eob_coverage_ok (today : Int) {doc : ProcessedDocument}
    (h : dictConforms eobSpec doc.extracted_data = true) :
    ∃ rs, _check_eob_coverage today doc = .ok rs := by
  unfold _check_eob_coverage
  refine ok_bind (_eob_claim_denied_check_ok today h) (fun r1 => ?_)
  refine ok_bind (_eob_line_denied_check_ok h) (fun r2 => ?_)
  refine ok_bind (_eob_zero_allowed_check_ok h) (fun r3 => ?_)
  refine ok_bind (_eob_full_cost_check_ok h) (fun r4 => ?_)
  exact pure_ok _

/-- A `foldlM` all of whose steps return the state unchanged returns the
initial state. -/
theorem foldlM_const {α β : Type} {f : β → α → Py β} (xs : List α) (b0 : β)
    (h : ∀ b a, a ∈ xs → f b a = pure b) : xs.foldlM f b0 = .ok b0 := by
  induction xs generalizing b0 with
  | nil => rfl
  | cons a xs ih =>
    rw [List.foldlM_cons, h b0 a (List.mem_cons_self a xs), py_pure_eq, py_bind_ok]
    exact ih b0 (fun b x hx => h b x (List.mem_cons_of_mem a hx))

/-- With the seven-member `DocumentType` enum no document is classified as a
prior authorization, so the cross-check never collects an approved code and
always returns no results. -/
theorem _cross_check_prior_auth_vs_eob_empty (documents : List ProcessedDocument) :
    _cross_check_prior_auth_vs_eob documents = .ok [] := by
  unfold _cross_check_prior_auth_vs_eob
  rw [foldlM_const _ ([] : PyAssoc)]
  · rfl
  · intro b doc hdoc
    have hne := value_ne_PRIOR_AUTH doc.envelope.classified_type
    dsimp only
    rw [if_pos]
    simp only [bne, hne, Bool.not_false]

/-- `run_coverage_checks` succeeds when every document conforms to its
declared schema. -/
theorem run_coverage_checks_ok (today : Int) {documents : List ProcessedDocument}
    (h : ∀ d ∈ documents, docConforms d = true) :
    ∃ rs, run_coverage_checks today documents = .ok rs := by
  unfold run_coverage_checks
  refine ok_bind ?_ (fun results => ?_)
  · apply foldlM_ok
    intro b doc hdoc
    have hd := h doc hdoc
    unfold docConforms at hd
    refine cond_ok (fun hc => ?_) (fun _ => ?_)
    · rw [value_eq_EOB.mp hc] at hd
      exact ok_bind (_check_eob_coverage_ok today hd) (fun rs => pure_ok _)
    refine cond_ok (fun hc => ?_) (fun _ => ?_)
    · rw [value_ne_PRIOR_AUTH doc.envelope.classified_type] at hc
      cases hc
    refine cond_ok (fun hc => ?_) (fun _ => pure_ok _)
    · rw [value_ne_APPEAL_DECISION doc.envelope.classified_type] at hc
      cases hc
  · exact ok_bind ⟨[], _cross_check_prior_auth_vs_eob_empty documents⟩
      (fun cross => pure_ok _)

/-! ## Inversion helpers -/

/-- Inversion of a successful conditional. -/
theorem ite_eq_ok {α : Type} {c : Prop} [Decidable c] {x y : Py α} {a : α}
    (h : (if c then x else y) = .ok a) :
    (c ∧ x = .ok a) ∨ (¬c ∧ y = .ok a) := by
  by_cases hc : c
  · rw [if_pos hc] at h; exact Or.inl ⟨hc, h⟩
  · rw [if_neg hc] at h; exact Or.inr ⟨hc, h⟩

/-- Inversion of a successful `pure`. -/
theorem pure_eq_ok {α : Type} {a b : α} (h : (pure a : Py α) = .ok b) : a = b := by
  injection h

/-! ## Claim theorems -/

/-- Modelled from the spec of claim C3 and its scenario inputs: small
schema-conforming documents used as concrete witnesses. -/
def wEob : ProcessedDocument := mkDoc .EOB "eob-1"
  [("provider", .dict [("name", .str "Hospital A")]),
   ("date_of_service_start", .date 100),
   ("total_patient_responsibility", .num 200),
   ("total_billed", .num 1000),
   ("line_items", .list [.dict [("cpt_code", .str "99213"),
     ("billed_amount", .num 1000), ("allowed_amount", .num 600),
     ("service_date", .date 100)]])]

/-- A concrete schema-conforming provider bill used in witnesses. -/
def wBill : ProcessedDocument := mkDoc .MEDICAL_BILL "bill-1"
  [("provider", .dict [("name", .str "Hospital A")]),
   ("date_of_service_start", .date 100),
   ("total_charges", .num 1000),
   ("balance_due", .num 500),
   ("line_items", .list [.dict [("cpt_code", .str "99213"),
     ("amount", .num 1000), ("service_date", .date 100)]])]

/-- C2: the spec claims the `classified_type` enumeration has exactly eleven
members including `PRIOR_AUTH` and `APPEAL_DECISION`, but the source
`DocumentType` enum (`schemas/common.py`) has exactly seven members and no
member's `.value` is `PRIOR_AUTH` or `APPEAL_DECISION` — even though
`SCHEMA_REGISTRY` lists both and the coverage checker dispatches on them, so
such a `DocumentEnvelope` is not constructible: a code bug. -/
theorem C2_document_type_enum_missing_members :
    DocumentType.all.map DocumentType.value =
      ["EOB", "CMS-1500", "UB-04", "MEDICAL_BILL", "PHARMACY_RECEIPT",
       "LAB_REPORT", "UNKNOWN"] ∧
    (∀ t : DocumentType, t ∈ DocumentType.all) ∧
    (∀ t : DocumentType,
      (t.value == "PRIOR_AUTH") = false ∧ (t.value == "APPEAL_DECISION") = false) ∧
    "PRIOR_AUTH" ∈ SCHEMA_REGISTRY_keys ∧
    "APPEAL_DECISION" ∈ SCHEMA_REGISTRY_keys := by
  refine ⟨rfl, fun t => ?_, fun t => ⟨value_ne_PRIOR_AUTH t, value_ne_APPEAL_DECISION t⟩,
    by decide, by decide⟩
  cases t <;> simp [DocumentType.all]

/-- C5 counterexample: the claim says that when one document has a complete
start/end range and the other only a single date the predicate is permissive
(returns true), and that two single representative dates are compared for
equality; the code instead demands equality of representative dates whenever
either end date is missing (so range [0,10] vs single date 5 does NOT match)
and is permissive when both documents have only end dates. -/
theorem C5_counterexample_dates_overlap :
    _dates_overlap (some 0) (some 10) (some 5) Option.none = false ∧
    _dates_overlap Option.none (some 3) Option.none (some 4) = true := by
  decide

/-- Modelled from the amended claim for C5: true when neither document has
any date info; when both have a representative date (start preferred over
end) and at least one of the two end dates is missing, exact equality of the
representative dates is required; when all four dates are present, interval
overlap is required; in the remaining cases (exactly one document with no
dates, or both end dates present with a start missing) it is permissive. -/
def dates_overlap_amended (start1 end1 start2 end2 : Option Int) : Bool :=
  match start1 <|> end1, start2 <|> end2 with
  | Option.none, Option.none => true
  | Option.none, some _ => true
  | some _, Option.none => true
  | some d1, some d2 =>
    match end1, end2 with
    | some f1, some f2 =>
      match start1, start2 with
      | some a, some b => decide (a ≤ f2) && decide (b ≤ f1)
      | _, _ => true
    | _, _ => d1 == d2

/-- C5 (amended): `_dates_overlap` computes exactly the amended case
analysis: permissive when neither side has dates or exactly one side has no
dates or both ends are present with a start missing; representative-date
equality whenever both sides have a date and an end date is missing; interval
overlap when all four dates are present. -/
theorem C5_dates_overlap_amended_characterization :
    ∀ start1 end1 start2 end2 : Option Int,
      _dates_overlap start1 end1 start2 end2 =
        dates_overlap_amended start1 end1 start2 end2 := by
  intro s1 e1 s2 e2
  cases s1 <;> cases e1 <;> cases s2 <;> cases e2 <;> rfl

/-- C3 counterexample: the claim asserts that a document whose
`extracted_data` conforms with "any field possibly absent or null, including
a null provider block" never makes a checker raise; but an EOB whose
`provider` entry is explicitly `None` (which the claim's reading admits)
makes both the duplicate detector and the billing reconciler raise
`AttributeError` (`None.get(...)` in `_extract_all_service_lines` and
`run_billing_reconciliation_checks`). -/
theorem C3_counterexample_null_provider :
    run_duplicate_detection [mkDoc .EOB "doc-1" [("provider", PyVal.none)]] =
      .error "AttributeError" ∧
    run_billing_reconciliation_checks
      [mkDoc .EOB "doc-1" [("provider", PyVal.none)]] =
      .error "AttributeError" := by
  constructor <;> rfl

/-- C3 (amended): for every document list in which each document's
`extracted_data` conforms to the declared per-type schema for its classified
type — every field optional and nullable scalars allowed, but container
blocks (provider, patient, line-item lists) non-null as the pydantic schemas
declare them — each of the four checkers returns a result list without
raising any exception; a missing or null field only disables the specific
comparison that depends on it. -/
theorem C3_checkers_total_on_conforming_input (today : Int)
    (documents : List ProcessedDocument)
    (h : ∀ d ∈ documents, docConforms d = true) :
    (∃ rs, run_math_checks documents = .ok rs) ∧
    (∃ rs, run_billing_reconciliation_checks documents = .ok rs) ∧
    (∃ rs, run_duplicate_detection documents = .ok rs) ∧
    (∃ rs, run_coverage_checks today documents = .ok rs) :=
  ⟨run_math_checks_ok h, run_billing_reconciliation_checks_ok h,
   run_duplicate_detection_ok h, run_coverage_checks_ok today h⟩

/-- C3 witness: the amended theorem applied to a concrete conforming
two-document packet. -/
theorem C3_witness :
    (∀ d ∈ [wEob, wBill], docConforms d = true) ∧
    ((∃ rs, run_math_checks [wEob, wBill] = .ok rs) ∧
     (∃ rs, run_billing_reconciliation_checks [wEob, wBill] = .ok rs) ∧
     (∃ rs, run_duplicate_detection [wEob, wBill] = .ok rs) ∧
     (∃ rs, run_coverage_checks 0 [wEob, wBill] = .ok rs)) :=
  ⟨by decide, C3_checkers_total_on_conforming_input 0 [wEob, wBill] (by decide)⟩

/-- `severityLe` is transitive. -/
theorem severityLe_trans (a b c : ValidationResult) :
    severityLe a b → severityLe b c → severityLe a c := by
  simp only [severityLe, decide_eq_true_eq]
  omega

/-- `severityLe` is total. -/
theorem severityLe_total (a b : ValidationResult) :
    severityLe a b || severityLe b a := by
  simp only [severityLe, Bool.or_eq_true, decide_eq_true_eq]
  omega

/-- Stability of the orchestrator's sort: filtering the sorted output by one
severity gives exactly the input's results of that severity, in input order. -/
theorem mergeSort_severity_filter (l : List ValidationResult)
    (sev : ValidationSeverity) :
    (List.mergeSort l severityLe).filter (fun r => r.severity == sev) =
      l.filter (fun r => r.severity == sev) := by
  have hpw : (l.filter (fun r => r.severity == sev)).Pairwise
      (fun a b => severityLe a b) := by
    apply List.pairwise_of_forall_mem_list
    intro a ha b hb
    have ha2 : a.severity = sev := by simpa using List.of_mem_filter ha
    have hb2 : b.severity = sev := by simpa using List.of_mem_filter hb
    simp [severityLe, ha2, hb2]
  have hsub : List.Sublist (l.filter (fun r => r.severity == sev))
      (List.mergeSort l severityLe) :=
    List.sublist_mergeSort severityLe_trans severityLe_total hpw
      (List.filter_sublist l)
  have hsub2 : List.Sublist (l.filter (fun r => r.severity == sev))
      ((List.mergeSort l severityLe).filter (fun r => r.severity == sev)) := by
    have h2 := hsub.filter (fun r => r.severity == sev)
    have h3 : (l.filter (fun r => r.severity == sev)).filter
        (fun r => r.severity == sev) = l.filter (fun r => r.severity == sev) := by
      apply List.filter_eq_self.mpr
      intro a ha
      simpa using (List.mem_filter.mp ha).2
    rwa [h3] at h2
  have hperm : List.Perm
      ((List.mergeSort l severityLe).filter (fun r => r.severity == sev))
      (l.filter (fun r => r.severity == sev)) :=
    (List.mergeSort_perm l severityLe).filter (fun r => r.severity == sev)
  exact (hsub2.eq_of_length hperm.length_eq.symm).symm

/-- C1: the list returned by `run_all_validations` is the concatenation of
the four checkers' outputs (math, billing reconciliation, duplicate
detection, coverage — in that order) stably sorted by severity with
rank(HIGH)=0 < rank(MEDIUM)=1 < rank(LOW)=2 < rank(INFO)=3: every adjacent
pair is ordered by rank, and the results of each severity appear in their
original discovery order. -/
theorem C1_orchestrator_stable_severity_sort (today : Int)
    (documents : List ProcessedDocument) (m b d c : List ValidationResult)
    (hm : run_math_checks documents = .ok m)
    (hb : run_billing_reconciliation_checks documents = .ok b)
    (hd : run_duplicate_detection documents = .ok d)
    (hc : run_coverage_checks today documents = .ok c) :
    run_all_validations today documents =
      .ok (List.mergeSort (m ++ b ++ d ++ c) severityLe) ∧
    (List.mergeSort (m ++ b ++ d ++ c) severityLe).Pairwise
      (fun r1 r2 => severity_order r1.severity ≤ severity_order r2.severity) ∧
    ∀ sev : ValidationSeverity,
      (List.mergeSort (m ++ b ++ d ++ c) severityLe).filter
        (fun r => r.severity == sev) =
      (m ++ b ++ d ++ c).filter (fun r => r.severity == sev) := by
  refine ⟨?_, ?_, fun sev => mergeSort_severity_filter _ sev⟩
  · unfold run_all_validations
    rw [hm, py_bind_ok, hb, py_bind_ok, hd, py_bind_ok, hc, py_bind_ok]
    rfl
  · have hs := @List.sorted_mergeSort _ severityLe severityLe_trans
      severityLe_total (m ++ b ++ d ++ c)
    exact hs.imp (fun hab => by simpa [severityLe] using hab)

/-- C1 witness: the orchestrator theorem applied to the empty packet (all
four checkers return `ok []` by computation). -/
theorem C1_witness :
    run_all_validations 0 [] = .ok (List.mergeSort ([] ++ [] ++ [] ++ []) severityLe) ∧
    (List.mergeSort ([] ++ [] ++ [] ++ ([] : List ValidationResult)) severityLe).Pairwise
      (fun r1 r2 => severity_order r1.severity ≤ severity_order r2.severity) ∧
    ∀ sev : ValidationSeverity,
      (List.mergeSort ([] ++ [] ++ [] ++ ([] : List ValidationResult)) severityLe).filter
        (fun r => r.severity == sev) =
      (([] : List ValidationResult) ++ [] ++ [] ++ []).filter
        (fun r => r.severity == sev) :=
  C1_orchestrator_stable_severity_sort 0 [] [] [] [] [] rfl rfl rfl rfl

/-- Every result of `_eob_line_denied_check` is named `line_item_denied`. -/
theorem _eob_line_denied_names {data : Dict} {rs : List ValidationResult}
    (h : _eob_line_denied_check data = .ok rs) :
    ∀ r ∈ rs, r.check_name = "line_item_denied" := by
  unfold _eob_line_denied_check at h
  obtain ⟨items, hi, hfold⟩ := bind_eq_ok h
  refine foldlM_induction (P := fun l => ∀ r ∈ l, r.check_name = "line_item_denied")
    _ [] hfold (fun r hr => absurd hr (List.not_mem_nil r)) ?_
  intro acc item c hitem hP hstep
  rcases ite_eq_ok hstep with ⟨hc, hstep⟩ | ⟨hc, hstep⟩
  · obtain ⟨d3, h1, hstep⟩ := bind_eq_ok hstep
    obtain ⟨ov, h2, hstep⟩ := bind_eq_ok hstep
    rw [← pure_eq_ok hstep]
    intro r hr
    rcases List.mem_append.mp hr with h3 | h4
    · exact hP r h3
    · rw [List.mem_singleton.mp h4]
  · rw [← pure_eq_ok hstep]
    exact hP

/-- Every result of `_eob_zero_allowed_check` is named `zero_allowed_amount`. -/
theorem _eob_zero_allowed_names {data : Dict} {rs : List ValidationResult}
    (h : _eob_zero_allowed_check data = .ok rs) :
    ∀ r ∈ rs, r.check_name = "zero_allowed_amount" := by
  unfold _eob_zero_allowed_check at h
  obtain ⟨items, hi, hfold⟩ := bind_eq_ok h
  refine foldlM_induction (P := fun l => ∀ r ∈ l, r.check_name = "zero_allowed_amount")
    _ [] hfold (fun r hr => absurd hr (List.not_mem_nil r)) ?_
  intro acc item c hitem hP hstep
  rcases ite_eq_ok hstep with ⟨hc, hstep⟩ | ⟨hc, hstep⟩
  · obtain ⟨bq, h1, hstep⟩ := bind_eq_ok hstep
    rcases ite_eq_ok hstep with ⟨hc2, hstep⟩ | ⟨hc2, hstep⟩
    · obtain ⟨d3, h2, hstep⟩ := bind_eq_ok hstep
      rw [← pure_eq_ok hstep]
      intro r hr
      rcases List.mem_append.mp hr with h3 | h4
      · exact hP r h3
      · rw [List.mem_singleton.mp h4]
    · rw [← pure_eq_ok hstep]
      exact hP
  · rw [← pure_eq_ok hstep]
    exact hP

/-- Every result of `_eob_full_cost_check` is named `patient_full_cost`. -/
theorem _eob_full_cost_names {data : Dict} {rs : List ValidationResult}
    (h : _eob_full_cost_check data = .ok rs) :
    ∀ r ∈ rs, r.check_name = "patient_full_cost" := by
  unfold _eob_full_cost_check at h
  rcases ite_eq_ok h with ⟨hc, h⟩ | ⟨hc, h⟩
  · obtain ⟨tbq, h1, h⟩ := bind_eq_ok h
    rcases ite_eq_ok h with ⟨hc2, h⟩ | ⟨hc2, h⟩
    · obtain ⟨tprq, h2, h⟩ := bind_eq_ok h
      rcases ite_eq_ok h with ⟨hc3, h⟩ | ⟨hc3, h⟩
      · obtain ⟨pv, h3, h⟩ := bind_eq_ok h
        obtain ⟨ov, h4, h⟩ := bind_eq_ok h
        rw [← pure_eq_ok h]
        intro r hr
        rw [List.mem_singleton.mp hr]
      · rw [← pure_eq_ok h]
        intro r hr
        cases hr
    · rw [← pure_eq_ok h]
      intro r hr
      cases hr
  · rw [← pure_eq_ok h]
    intro r hr
    cases hr

/-- Exact characterization of `_eob_claim_denied_check` on a conforming EOB
whose `claim_status` is a string containing `denied` or `deny`
(case-insensitively): exactly one `claim_denied` HIGH/ERROR result whose
`potential_overcharge` copies `total_billed`. -/
theorem _eob_claim_denied_eq (today : Int) {data : Dict} {s : String}
    (h : dictConforms eobSpec data = true)
    (hcs : Dict.get data "claim_status" = .str s)
    (hden : (pyInStr "denied" (pyToLower s) || pyInStr "deny" (pyToLower s)) = true) :
    ∃ r, _eob_claim_denied_check today data = .ok [r] ∧
      r.check_name = "claim_denied" ∧ r.severity = .HIGH ∧ r.status = .ERROR ∧
      (Dict.get data "total_billed" = PyVal.none →
        r.potential_overcharge = Option.none) ∧
      (∀ q : ℚ, Dict.get data "total_billed" = PyVal.num q →
        r.potential_overcharge = some q) := by
  have hsne : s ≠ "" := by
    intro h0
    rw [h0] at hden
    revert hden
    decide
  unfold _eob_claim_denied_check
  rw [hcs]
  have hor : pyOr (.str s) (.str "") = .str s := by
    unfold pyOr
    rw [if_pos (by simpa [PyVal.truthy] using hsne)]
  rw [hor]
  simp only [PyVal.asStrM, py_pure_eq, py_bind_ok]
  rw [if_pos hden]
  obtain ⟨pv, hpvEq, -⟩ := conf_getNested "provider" "name" (.str "provider") h
    (Or.inl (by rfl)) (Or.inl (by rfl))
  rw [hpvEq, py_bind_ok]
  rcases snum_cases (conf_scalar (k := "total_billed") h (by rfl)) with h0 | ⟨q, h0⟩
  · rw [h0]
    exact ⟨_, rfl, rfl, rfl, rfl, fun _ => rfl, fun q hq => by cases hq⟩
  · rw [h0]
    obtain ⟨d1, hd1⟩ := fmtMoneyIfTruthy_ok (v := .num q)
      ("Claim from " ++ pyStr pv ++ " was DENIED") " ($" ")" (by rfl)
    rw [hd1, py_bind_ok]
    refine ⟨_, rfl, rfl, rfl, rfl, ?_, ?_⟩
    · intro h2
      exact PyVal.noConfusion h2
    · intro q2 hq2
      injection hq2 with h3
      show some q = some q2
      rw [h3]

/-- `pyOr` of a string value with an empty-string default always yields the
original string (a falsy string is itself empty). -/
theorem pyOr_str_dflt (s : String) : pyOr (.str s) (.str "") = .str s := by
  unfold pyOr
  by_cases h : s = ""
  · rw [h]
    rfl
  · rw [if_pos (by simp [PyVal.truthy, h])]

/-- When the lowercased `claim_status` contains neither `denied` nor `deny`,
the `claim_denied` check emits no result. -/
theorem _eob_claim_denied_nil (today : Int) {data : Dict} {s : String}
    (hcs : Dict.get data "claim_status" = .str s)
    (hden : (pyInStr "denied" (pyToLower s) || pyInStr "deny" (pyToLower s)) = false) :
    _eob_claim_denied_check today data = .ok [] := by
  unfold _eob_claim_denied_check
  rw [hcs, pyOr_str_dflt]
  simp only [PyVal.asStrM, py_pure_eq, py_bind_ok]
  rw [if_neg (by simp [hden])]

/-- For a packet holding a single EOB document, `run_coverage_checks` returns
exactly the EOB coverage results (the prior-auth cross-check adds nothing). -/
theorem run_coverage_single_eob (today : Int) (id : String) (data : Dict)
    {rs : List ValidationResult}
    (hc : _check_eob_coverage today (mkDoc .EOB id data) = .ok rs) :
    run_coverage_checks today [mkDoc .EOB id data] = .ok rs := by
  unfold run_coverage_checks
  show (((_check_eob_coverage today (mkDoc .EOB id data) >>= fun rs' =>
      (pure ([] ++ rs') : Py (List ValidationResult))) >>= fun b =>
      (pure b : Py (List ValidationResult))) >>= fun results =>
      _cross_check_prior_auth_vs_eob [mkDoc .EOB id data] >>= fun cross =>
      (pure (results ++ cross) : Py (List ValidationResult))) = .ok rs
  rw [hc, py_bind_ok, py_pure_eq, py_bind_ok, py_pure_eq, py_bind_ok,
    _cross_check_prior_auth_vs_eob_empty, py_bind_ok]
  simp

/-- A concrete schema-conforming denied EOB used in the C6 witness. -/
def c6Data : Dict :=
  [("claim_status", .str "denied"),
   ("provider", .dict [("name", .str "General Hospital")]),
   ("total_billed", .num 5000)]

/-- C6 (amended): for every conforming EOB whose `claim_status` string
contains `denied` or `deny` after lowercasing, the coverage checker emits
exactly one HIGH/ERROR `claim_denied` result, whose `potential_overcharge`
copies a present numeric `total_billed`; when the lowercased status contains
neither substring (so mere `den` is not sufficient) it emits no
`claim_denied` result. -/
theorem C6_claim_denied_amended (today : Int) (id : String) {data : Dict} {s : String}
    (h : dictConforms eobSpec data = true)
    (hcs : Dict.get data "claim_status" = .str s) :
    ∃ rs, run_coverage_checks today [mkDoc .EOB id data] = .ok rs ∧
      (((pyInStr "denied" (pyToLower s) || pyInStr "deny" (pyToLower s)) = true) →
        ∃ r, rs.filter (fun r => r.check_name == "claim_denied") = [r] ∧
          r.severity = .HIGH ∧ r.status = .ERROR ∧
          (∀ q : ℚ, Dict.get data "total_billed" = PyVal.num q →
            r.potential_overcharge = some q)) ∧
      (((pyInStr "denied" (pyToLower s) || pyInStr "deny" (pyToLower s)) = false) →
        rs.filter (fun r => r.check_name == "claim_denied") = []) := by
  obtain ⟨rs2, h2⟩ := _eob_line_denied_check_ok h
  obtain ⟨rs3, h3⟩ := _eob_zero_allowed_check_ok h
  obtain ⟨rs4, h4⟩ := _eob_full_cost_check_ok h
  have n2 := _eob_line_denied_names h2
  have n3 := _eob_zero_allowed_names h3
  have n4 := _eob_full_cost_names h4
  have hcov : ∀ rs1, _eob_claim_denied_check today data = .ok rs1 →
      _check_eob_coverage today (mkDoc .EOB id data) = .ok (rs1 ++ rs2 ++ rs3 ++ rs4) := by
    intro rs1 h1
    unfold _check_eob_coverage
    show (_eob_claim_denied_check today data >>= fun r1 =>
      _eob_line_denied_check data >>= fun r2 =>
      _eob_zero_allowed_check data >>= fun r3 =>
      _eob_full_cost_check data >>= fun r4 =>
      (pure (r1 ++ r2 ++ r3 ++ r4) : Py (List ValidationResult))) =
      .ok (rs1 ++ rs2 ++ rs3 ++ rs4)
    rw [h1, py_bind_ok, h2, py_bind_ok, h3, py_bind_ok, h4, py_bind_ok]
    rfl
  have hf2 : rs2.filter (fun r => r.check_name == "claim_denied") = [] := by
    refine List.filter_eq_nil_iff.mpr (fun r hr => ?_)
    simp [n2 r hr]
  have hf3 : rs3.filter (fun r => r.check_name == "claim_denied") = [] := by
    refine List.filter_eq_nil_iff.mpr (fun r hr => ?_)
    simp [n3 r hr]
  have hf4 : rs4.filter (fun r => r.check_name == "claim_denied") = [] := by
    refine List.filter_eq_nil_iff.mpr (fun r hr => ?_)
    simp [n4 r hr]
  cases hden : (pyInStr "denied" (pyToLower s) || pyInStr "deny" (pyToLower s)) with
  | true =>
    obtain ⟨r, h1, hname, hsev, hstat, hovn, hovq⟩ := _eob_claim_denied_eq today h hcs hden
    refine ⟨[r] ++ rs2 ++ rs3 ++ rs4,
      run_coverage_single_eob today id data (hcov [r] h1), fun _ => ?_, fun hfalse => ?_⟩
    · refine ⟨r, ?_, hsev, hstat, hovq⟩
      rw [List.filter_append, List.filter_append, List.filter_append, hf2, hf3, hf4]
      simp [hname]
    · cases hfalse
  | false =>
    have h1 := _eob_claim_denied_nil today hcs hden
    refine ⟨[] ++ rs2 ++ rs3 ++ rs4,
      run_coverage_single_eob today id data (hcov [] h1), fun htrue => ?_, fun _ => ?_⟩
    · cases htrue
    · rw [List.filter_append, List.filter_append, List.filter_append, hf2, hf3, hf4]
      rfl

/-- C6 counterexample: `denial` contains the substring `den` required by the
spec wording, yet the coverage checker emits no result at all for a conforming
EOB with `claim_status = "denial"` (the source tests the substrings `denied`
and `deny`, not `den`). -/
theorem C6_counterexample_denial :
    pyInStr "den" (pyToLower "denial") = true ∧
    run_coverage_checks 0 [mkDoc .EOB "doc-eob"
      [("claim_status", .str "denial"),
       ("provider", .dict [("name", .str "General Hospital")]),
       ("total_billed", .num 5000)]] = .ok [] := ⟨rfl, rfl⟩

/-- C6 witness: the amended theorem applied to a concrete denied EOB with
`total_billed = 5000`. -/
theorem C6_witness :
    dictConforms eobSpec c6Data = true ∧
    Dict.get c6Data "claim_status" = PyVal.str "denied" ∧
    (∃ rs, run_coverage_checks 0 [mkDoc .EOB "doc-eob" c6Data] = .ok rs ∧
      (((pyInStr "denied" (pyToLower "denied") || pyInStr "deny" (pyToLower "denied")) = true) →
        ∃ r, rs.filter (fun r => r.check_name == "claim_denied") = [r] ∧
          r.severity = .HIGH ∧ r.status = .ERROR ∧
          (∀ q : ℚ, Dict.get c6Data "total_billed" = PyVal.num q →
            r.potential_overcharge = some q)) ∧
      (((pyInStr "denied" (pyToLower "denied") || pyInStr "deny" (pyToLower "denied")) = false) →
        rs.filter (fun r => r.check_name == "claim_denied") = [])) :=
  ⟨rfl, rfl, C6_claim_denied_amended 0 "doc-eob" rfl rfl⟩

/-- A conditional whose two branches both yield the same `ok` value. -/
theorem cond_eq_ok {α : Type} {c : Prop} [Decidable c] {x y : Py α} {a : α}
    (hx : c → x = .ok a) (hy : ¬c → y = .ok a) :
    (if c then x else y) = .ok a := by
  by_cases h : c
  · rw [if_pos h]; exact hx h
  · rw [if_neg h]; exact hy h

/-- The numeric fields of an EOB are mutually consistent (within tolerance):
whenever a stated total and the corresponding computed value are both
available, they differ by at most `TOLERANCE`.  The antecedents mirror the
source's own guards: the line-item conjuncts apply only when the line-item
list is truthy (a document with a stated total but an absent or empty
line-item list is vacuously consistent, matching the `and line_items`
suppression in the code), and the breakdown conjunct applies only when the
computed breakdown sum is positive (matching the `breakdown_sum > 0` gate).
A missing total satisfies the corresponding conjunct vacuously. -/
def EobMathConsistent (data : Dict) : Prop :=
  (∀ tb items sum, Dict.get data "total_billed" = PyVal.num tb →
    (Dict.getD data "line_items" (.list [])).truthy = true →
    (Dict.getD data "line_items" (.list [])).itemsM = .ok items →
    _safe_sum (items.map (fun item => Dict.get item "billed_amount")) = .ok sum →
    |sum - tb| ≤ TOLERANCE) ∧
  (∀ tip items sum, Dict.get data "total_insurance_paid" = PyVal.num tip →
    (Dict.getD data "line_items" (.list [])).truthy = true →
    (Dict.getD data "line_items" (.list [])).itemsM = .ok items →
    _safe_sum (items.map (fun item => Dict.get item "insurance_paid")) = .ok sum →
    |sum - tip| ≤ TOLERANCE) ∧
  (∀ tp td tc tco, Dict.get data "total_patient_responsibility" = PyVal.num tp →
    (pyOr (Dict.get data "total_deductible") (.num 0)).asNumM = .ok td →
    (pyOr (Dict.get data "total_copay") (.num 0)).asNumM = .ok tc →
    (pyOr (Dict.get data "total_coinsurance") (.num 0)).asNumM = .ok tco →
    0 < td + tc + tco →
    |td + tc + tco - tp| ≤ TOLERANCE)

/-- The numeric fields of a medical bill are mutually consistent (within
tolerance): the line-item sum matches `total_charges` — only demanded when
the line-item list is truthy, matching the `and line_items` suppression in
the code — and `charges - adjustments - insurance payments - patient
payments` matches `balance_due` whenever the relevant fields are
available. -/
def BillMathConsistent (data : Dict) : Prop :=
  (∀ tc items sum, Dict.get data "total_charges" = PyVal.num tc →
    (Dict.getD data "line_items" (.list [])).truthy = true →
    (Dict.getD data "line_items" (.list [])).itemsM = .ok items →
    _safe_sum (items.map (fun item => Dict.get item "amount")) = .ok sum →
    |sum - tc| ≤ TOLERANCE) ∧
  (∀ tc bd adj ins pat, Dict.get data "total_charges" = PyVal.num tc →
    Dict.get data "balance_due" = PyVal.num bd →
    (pyOr (Dict.get data "insurance_adjustments") (.num 0)).asNumM = .ok adj →
    (pyOr (Dict.get data "insurance_payments") (.num 0)).asNumM = .ok ins →
    (pyOr (Dict.get data "patient_payments") (.num 0)).asNumM = .ok pat →
    |tc - adj - ins - pat - bd| ≤ TOLERANCE)

/-- `_eob_billed_sum_check` emits nothing when the line-item billed sum is
consistent with `total_billed` (or the total is missing, or the line-item
list is absent or empty — suppression). -/
theorem _eob_billed_sum_check_nil {data : Dict} (doc_id : String)
    (h : dictConforms eobSpec data = true)
    (hcons : ∀ tb items sum, Dict.get data "total_billed" = PyVal.num tb →
      (Dict.getD data "line_items" (.list [])).truthy = true →
      (Dict.getD data "line_items" (.list [])).itemsM = .ok items →
      _safe_sum (items.map (fun item => Dict.get item "billed_amount")) = .ok sum →
      |sum - tb| ≤ TOLERANCE) :
    _eob_billed_sum_check data doc_id = .ok [] := by
  unfold _eob_billed_sum_check
  refine cond_eq_ok (fun hc => ?_) (fun _ => rfl)
  have hne : (Dict.get data "total_billed").isNone = false := by
    simp only [Bool.and_eq_true, Bool.not_eq_true'] at hc
    exact hc.1
  have htr : (Dict.getD data "line_items" (.list [])).truthy = true := by
    simp only [Bool.and_eq_true, Bool.not_eq_true'] at hc
    exact hc.2
  rcases snum_cases (conf_scalar (k := "total_billed") h (by rfl)) with h0 | ⟨tb, h0⟩
  · rw [h0] at hne; simp [PyVal.isNone] at hne
  · obtain ⟨items, hitems, hiconf⟩ :=
      conf_list (k := "line_items") (F := eobItemSpec) h (Or.inl (by rfl))
    obtain ⟨sum, hsum⟩ := safe_sum_ok
      (items_num_conf (k := "billed_amount") hiconf (by rfl))
    rw [hitems, py_bind_ok, hsum, py_bind_ok, h0]
    rw [show (PyVal.num tb).asNumM = (pure tb : Py ℚ) from rfl, py_pure_eq, py_bind_ok]
    rw [if_neg (not_lt.mpr (hcons tb items sum h0 htr hitems hsum))]
    rfl

/-- `_eob_paid_sum_check` emits nothing when the line-item insurance-paid sum
is consistent with `total_insurance_paid` (or the total is missing, or the
line-item list is absent or empty — suppression). -/
theorem _eob_paid_sum_check_nil {data : Dict} (doc_id : String)
    (h : dictConforms eobSpec data = true)
    (hcons : ∀ tip items sum, Dict.get data "total_insurance_paid" = PyVal.num tip →
      (Dict.getD data "line_items" (.list [])).truthy = true →
      (Dict.getD data "line_items" (.list [])).itemsM = .ok items →
      _safe_sum (items.map (fun item => Dict.get item "insurance_paid")) = .ok sum →
      |sum - tip| ≤ TOLERANCE) :
    _eob_paid_sum_check data doc_id = .ok [] := by
  unfold _eob_paid_sum_check
  refine cond_eq_ok (fun hc => ?_) (fun _ => rfl)
  have hne : (Dict.get data "total_insurance_paid").isNone = false := by
    simp only [Bool.and_eq_true, Bool.not_eq_true'] at hc
    exact hc.1
  have htr : (Dict.getD data "line_items" (.list [])).truthy = true := by
    simp only [Bool.and_eq_true, Bool.not_eq_true'] at hc
    exact hc.2
  rcases snum_cases (conf_scalar (k := "total_insurance_paid") h (by rfl)) with h0 | ⟨tip, h0⟩
  · rw [h0] at hne; simp [PyVal.isNone] at hne
  · obtain ⟨items, hitems, hiconf⟩ :=
      conf_list (k := "line_items") (F := eobItemSpec) h (Or.inl (by rfl))
    obtain ⟨sum, hsum⟩ := safe_sum_ok
      (items_num_conf (k := "insurance_paid") hiconf (by rfl))
    rw [hitems, py_bind_ok, hsum, py_bind_ok, h0]
    rw [show (PyVal.num tip).asNumM = (pure tip : Py ℚ) from rfl, py_pure_eq, py_bind_ok]
    rw [if_neg (not_lt.mpr (hcons tip items sum h0 htr hitems hsum))]
    rfl

/-- `_eob_breakdown_check` emits nothing when the deductible/copay/coinsurance
breakdown is consistent with `total_patient_responsibility` whenever the
breakdown sum is positive (or the total is missing — the check is also
suppressed by its own `breakdown_sum > 0` gate). -/
theorem _eob_breakdown_check_nil {data : Dict} (doc_id : String)
    (h : dictConforms eobSpec data = true)
    (hcons : ∀ tp td tc tco,
      Dict.get data "total_patient_responsibility" = PyVal.num tp →
      (pyOr (Dict.get data "total_deductible") (.num 0)).asNumM = .ok td →
      (pyOr (Dict.get data "total_copay") (.num 0)).asNumM = .ok tc →
      (pyOr (Dict.get data "total_coinsurance") (.num 0)).asNumM = .ok tco →
      0 < td + tc + tco →
      |td + tc + tco - tp| ≤ TOLERANCE) :
    _eob_breakdown_check data doc_id = .ok [] := by
  unfold _eob_breakdown_check
  refine cond_eq_ok (fun hc => ?_) (fun _ => rfl)
  have hne : (Dict.get data "total_patient_responsibility").isNone = false := by
    simpa using hc
  obtain ⟨td, htd⟩ := snum_pyOr_asNum (conf_scalar (k := "total_deductible") h (by rfl))
  obtain ⟨tc, htc⟩ := snum_pyOr_asNum (conf_scalar (k := "total_copay") h (by rfl))
  obtain ⟨tco, htco⟩ := snum_pyOr_asNum (conf_scalar (k := "total_coinsurance") h (by rfl))
  rcases snum_cases (conf_scalar (k := "total_patient_responsibility") h (by rfl))
    with h0 | ⟨tp, h0⟩
  · rw [h0] at hne; simp [PyVal.isNone] at hne
  · rw [htd, py_bind_ok, htc, py_bind_ok, htco, py_bind_ok, h0]
    rw [show (PyVal.num tp).asNumM = (pure tp : Py ℚ) from rfl, py_pure_eq, py_bind_ok]
    by_cases hbs : 0 < td + tc + tco
    · have hA : ¬(|td + tc + tco - tp| > TOLERANCE) :=
        not_lt.mpr (hcons tp td tc tco h0 htd htc htco hbs)
      rw [if_neg (by simp [hA])]
      rfl
    · rw [if_neg (by simp [hbs])]
      rfl

/-- `_bill_line_sum_check` emits nothing when the line-item sum is consistent
with `total_charges` (or the total is missing, or the line-item list is
absent or empty — suppression). -/
theorem _bill_line_sum_check_nil {data : Dict} (doc_id : String)
    (h : dictConforms medicalBillSpec data = true)
    (hcons : ∀ tc items sum, Dict.get data "total_charges" = PyVal.num tc →
      (Dict.getD data "line_items" (.list [])).truthy = true →
      (Dict.getD data "line_items" (.list [])).itemsM = .ok items →
      _safe_sum (items.map (fun item => Dict.get item "amount")) = .ok sum →
      |sum - tc| ≤ TOLERANCE) :
    _bill_line_sum_check data doc_id = .ok [] := by
  unfold _bill_line_sum_check
  refine cond_eq_ok (fun hc => ?_) (fun _ => rfl)
  have hne : (Dict.get data "total_charges").isNone = false := by
    simp only [Bool.and_eq_true, Bool.not_eq_true'] at hc
    exact hc.1
  have htr : (Dict.getD data "line_items" (.list [])).truthy = true := by
    simp only [Bool.and_eq_true, Bool.not_eq_true'] at hc
    exact hc.2
  rcases snum_cases (conf_scalar (k := "total_charges") h (by rfl)) with h0 | ⟨tc, h0⟩
  · rw [h0] at hne; simp [PyVal.isNone] at hne
  · obtain ⟨items, hitems, hiconf⟩ :=
      conf_list (k := "line_items") (F := billItemSpec) h (Or.inl (by rfl))
    obtain ⟨sum, hsum⟩ := safe_sum_ok
      (items_num_conf (k := "amount") hiconf (by rfl))
    rw [hitems, py_bind_ok, hsum, py_bind_ok, h0]
    rw [show (PyVal.num tc).asNumM = (pure tc : Py ℚ) from rfl, py_pure_eq, py_bind_ok]
    rw [if_neg (not_lt.mpr (hcons tc items sum h0 htr hitems hsum))]
    rfl

/-- `_bill_balance_check` emits nothing when the computed expected balance is
consistent with `balance_due` (or a required field is missing). -/
theorem _bill_balance_check_nil {data : Dict} (doc_id : String)
    (h : dictConforms medicalBillSpec data = true)
    (hcons : ∀ tc bd adj ins pat, Dict.get data "total_charges" = PyVal.num tc →
      Dict.get data "balance_due" = PyVal.num bd →
      (pyOr (Dict.get data "insurance_adjustments") (.num 0)).asNumM = .ok adj →
      (pyOr (Dict.get data "insurance_payments") (.num 0)).asNumM = .ok ins →
      (pyOr (Dict.get data "patient_payments") (.num 0)).asNumM = .ok pat →
      |tc - adj - ins - pat - bd| ≤ TOLERANCE) :
    _bill_balance_check data doc_id = .ok [] := by
  unfold _bill_balance_check
  refine cond_eq_ok (fun hc => ?_) (fun _ => rfl)
  have hneb : (Dict.get data "balance_due").isNone = false := by
    simp only [Bool.and_eq_true, Bool.not_eq_true'] at hc
    exact hc.1
  have hnec : (Dict.get data "total_charges").isNone = false := by
    simp only [Bool.and_eq_true, Bool.not_eq_true'] at hc
    exact hc.2
  obtain ⟨adj, hadj⟩ := snum_pyOr_asNum (conf_scalar (k := "insurance_adjustments") h (by rfl))
  obtain ⟨ins, hins⟩ := snum_pyOr_asNum (conf_scalar (k := "insurance_payments") h (by rfl))
  obtain ⟨pat, hpat⟩ := snum_pyOr_asNum (conf_scalar (k := "patient_payments") h (by rfl))
  rcases snum_cases (conf_scalar (k := "total_charges") h (by rfl)) with h0 | ⟨tc, h0⟩
  · rw [h0] at hnec; simp [PyVal.isNone] at hnec
  rcases snum_cases (conf_scalar (k := "balance_due") h (by rfl)) with h1 | ⟨bd, h1⟩
  · rw [h1] at hneb; simp [PyVal.isNone] at hneb
  rw [hadj, py_bind_ok, hins, py_bind_ok, hpat, py_bind_ok, h0]
  rw [show (PyVal.num tc).asNumM = (pure tc : Py ℚ) from rfl, py_pure_eq, py_bind_ok, h1]
  rw [show (PyVal.num bd).asNumM = (pure bd : Py ℚ) from rfl, py_pure_eq, py_bind_ok]
  rw [if_neg (not_lt.mpr (hcons tc bd adj ins pat h0 h1 hadj hins hpat))]
  rfl

/-- The EOB math checker emits nothing on consistent conforming data. -/
theorem _check_eob_math_nil {data : Dict} (doc_id : String)
    (h : dictConforms eobSpec data = true) (hcons : EobMathConsistent data) :
    _check_eob_math data doc_id = .ok [] := by
  unfold _check_eob_math
  rw [_eob_billed_sum_check_nil doc_id h hcons.1, py_bind_ok,
    _eob_paid_sum_check_nil doc_id h hcons.2.1, py_bind_ok,
    _eob_breakdown_check_nil doc_id h hcons.2.2, py_bind_ok]
  rfl

/-- The bill math checker emits nothing on consistent conforming data. -/
theorem _check_bill_math_nil {data : Dict} (doc_id : String)
    (h : dictConforms medicalBillSpec data = true) (hcons : BillMathConsistent data) :
    _check_bill_math data doc_id = .ok [] := by
  unfold _check_bill_math
  rw [_bill_line_sum_check_nil doc_id h hcons.1, py_bind_ok,
    _bill_balance_check_nil doc_id h hcons.2, py_bind_ok]
  rfl

/-- C8: for every document list of schema-conforming documents in which each
EOB's and each medical bill's numeric fields are mutually consistent within
the tolerance 0.01, `run_math_checks` produces zero results.  The
consistency predicates impose their equations only where the source runs the
corresponding comparison, so a document with an absent total, with a stated
total but an absent or empty line-item list, or with a non-positive
breakdown sum is consistent vacuously — establishing that such absence
suppresses the corresponding check entirely. -/
theorem C8_math_checks_silent_on_consistent {documents : List ProcessedDocument}
    (h : ∀ d ∈ documents, docConforms d = true)
    (hEob : ∀ d ∈ documents, d.envelope.classified_type = .EOB →
      EobMathConsistent d.extracted_data)
    (hBill : ∀ d ∈ documents, d.envelope.classified_type = .MEDICAL_BILL →
      BillMathConsistent d.extracted_data) :
    run_math_checks documents = .ok [] := by
  unfold run_math_checks
  apply foldlM_const
  intro b doc hdoc
  have hconf := h doc hdoc
  unfold docConforms at hconf
  refine cond_eq_ok (fun hE => ?_) (fun hE => ?_)
  · have ht := value_eq_EOB.mp hE
    rw [ht] at hconf
    rw [_check_eob_math_nil doc.envelope.doc_id hconf
      (hEob doc hdoc ht), py_bind_ok]
    simp
  refine cond_eq_ok (fun hB => ?_) (fun _ => rfl)
  · have ht := value_eq_MEDICAL_BILL.mp hB
    rw [ht] at hconf
    rw [_check_bill_math_nil doc.envelope.doc_id hconf
      (hBill doc hdoc ht), py_bind_ok]
    simp

/-- A concrete arithmetically consistent EOB used in the C8 witness. -/
def c8Eob : ProcessedDocument := mkDoc .EOB "eob-c8"
  [("provider", .dict [("name", .str "Hospital A")]),
   ("line_items", .list [.dict [("cpt_code", .str "99213"),
     ("billed_amount", .num 1000), ("insurance_paid", .num 800)]]),
   ("total_billed", .num 1000), ("total_insurance_paid", .num 800),
   ("total_patient_responsibility", .num 200),
   ("total_deductible", .num 150), ("total_copay", .num 50)]

/-- A concrete EOB with a stated total but no line-item list: the source's
`and line_items` guard suppresses the billed-sum check for it, so it is
vacuously consistent despite `total_billed = 600` with no items. -/
def c8EobNoItems : ProcessedDocument := mkDoc .EOB "eob-c8b"
  [("provider", .dict [("name", .str "Hospital B")]),
   ("total_billed", .num 600)]

/-- A concrete arithmetically consistent medical bill used in the C8
witness. -/
def c8Bill : ProcessedDocument := mkDoc .MEDICAL_BILL "bill-c8"
  [("provider", .dict [("name", .str "Hospital A")]),
   ("line_items", .list [.dict [("cpt_code", .str "99213"), ("amount", .num 1000)]]),
   ("total_charges", .num 1000), ("insurance_payments", .num 500),
   ("balance_due", .num 500)]

/-- C8 witness: the math checker is silent on a concrete packet holding a
consistent EOB, an EOB whose stated total has no line items to compare
against (the suppression case), and a consistent bill; every hypothesis is
discharged at the concrete input. -/
theorem C8_witness :
    run_math_checks [c8Eob, c8EobNoItems, c8Bill] = .ok [] := by
  refine C8_math_checks_silent_on_consistent (fun d hd => ?_) (fun d hd ht => ?_)
    (fun d hd ht => ?_)
  · rcases List.mem_cons.mp hd with rfl | hd
    · rfl
    rcases List.mem_cons.mp hd with rfl | hd
    · rfl
    rcases List.mem_cons.mp hd with rfl | hd
    · rfl
    · cases hd
  · rcases List.mem_cons.mp hd with rfl | hd
    · refine ⟨fun tb items sum h1 _ h2 h3 => ?_, fun tip items sum h1 _ h2 h3 => ?_,
        fun tp td tc tco h1 h2 h3 h4 _ => ?_⟩
      · injection h1 with h1
        injection h2 with h2
        subst h1; subst h2
        injection h3 with h3
        subst h3
        norm_num [TOLERANCE]
      · injection h1 with h1
        injection h2 with h2
        subst h1; subst h2
        injection h3 with h3
        subst h3
        norm_num [TOLERANCE]
      · injection h1 with h1
        injection h2 with h2
        injection h3 with h3
        injection h4 with h4
        subst h1; subst h2; subst h3; subst h4
        norm_num [TOLERANCE]
    rcases List.mem_cons.mp hd with rfl | hd
    · refine ⟨fun tb items sum h1 htr _ _ => ?_, fun tip items sum h1 _ _ _ => ?_,
        fun tp td tc tco h1 _ _ _ _ => ?_⟩
      · exact Bool.noConfusion htr
      · exact PyVal.noConfusion h1
      · exact PyVal.noConfusion h1
    rcases List.mem_cons.mp hd with rfl | hd
    · cases ht
    · cases hd
  · rcases List.mem_cons.mp hd with rfl | hd
    · cases ht
    rcases List.mem_cons.mp hd with rfl | hd
    · cases ht
    rcases List.mem_cons.mp hd with rfl | hd
    · refine ⟨fun tc items sum h1 _ h2 h3 => ?_,
        fun tc bd adj ins pat h1 h2 h3 h4 h5 => ?_⟩
      · injection h1 with h1
        injection h2 with h2
        subst h1; subst h2
        injection h3 with h3
        subst h3
        norm_num [TOLERANCE]
      · injection h1 with h1
        injection h2 with h2
        injection h3 with h3
        injection h4 with h4
        injection h5 with h5
        subst h1; subst h2; subst h3; subst h4; subst h5
        norm_num [TOLERANCE]
    · cases hd

/-- Forward composition of a successful first action with its
continuation. -/
theorem bind_eq_of {α β : Type} {x : Py α} {f : α → Py β} {a : α} {out : Py β}
    (hx : x = .ok a) (h : f a = out) : (x >>= f) = out := by
  rw [hx, py_bind_ok, h]

/-- A single-field EOB (patient responsibility `p`, provider Hospital A,
service date 100) used for the matched-pair analysis of the billing
reconciler. -/
def c4Eob (p : ℚ) : ProcessedDocument := mkDoc .EOB "eob-c4"
  [("provider", .dict [("name", .str "Hospital A")]),
   ("date_of_service_start", .date 100),
   ("total_patient_responsibility", .num p)]

/-- A single-field provider bill (balance due `b`, provider Hospital A,
service date 100) matching `c4Eob`. -/
def c4Bill (b : ℚ) : ProcessedDocument := mkDoc .MEDICAL_BILL "bill-c4"
  [("provider", .dict [("name", .str "Hospital A")]),
   ("date_of_service_start", .date 100),
   ("balance_due", .num b)]

/-- Exact characterization of the amount comparison of a matched pair when
both amounts are present and differ by more than the tolerance: one
HIGH/MISMATCH `eob_vs_bill_amount` result whose `potential_overcharge` is
`bill - eob` when positive and absent otherwise. -/
theorem _compare_amounts_num {p b : ℚ} (prov : String)
    (hdiff : |p - b| > (1/100 : ℚ)) :
    ∃ r, _compare_amounts (.num p) (.num b) prov = .ok [r] ∧
      r.check_name = "eob_vs_bill_amount" ∧ r.severity = .HIGH ∧
      r.status = .MISMATCH ∧
      r.potential_overcharge = (if b - p > 0 then some (b - p) else Option.none) := by
  unfold _compare_amounts
  rw [if_pos (by rfl : (!(PyVal.num p).isNone && !(PyVal.num b).isNone) = true)]
  rw [show (PyVal.num p).asNumM = (pure p : Py ℚ) from rfl, py_pure_eq, py_bind_ok]
  rw [show (PyVal.num b).asNumM = (pure b : Py ℚ) from rfl, py_pure_eq, py_bind_ok]
  rw [if_pos hdiff]
  exact ⟨_, rfl, rfl, rfl, rfl, rfl⟩

/-- The billing reconciler on the matched pair `[c4Eob p, c4Bill b]` returns
exactly the amount-comparison results of the pair (providers match, dates
match, no line items, both documents matched). -/
theorem run_billing_pair {p b : ℚ} {ar : List ValidationResult}
    (hca : _compare_amounts (.num p) (.num b) "hospital a" = .ok ar) :
    run_billing_reconciliation_checks [c4Eob p, c4Bill b] = .ok ar := by
  unfold run_billing_reconciliation_checks
  refine bind_eq_of
    (bind_eq_of
      (bind_eq_of rfl
        (bind_eq_of
          (bind_eq_of rfl
            (bind_eq_of hca (bind_eq_of rfl rfl)))
          rfl))
      rfl)
    ?_
  show (pure (([] : List ValidationResult) ++ ar ++ []) : Py (List ValidationResult)) = .ok ar
  simp [py_pure_eq]

/-- C4: whenever a matched (EOB, bill) pair has both `total_patient_responsibility`
and `balance_due` present with `|difference| > 0.01`, the comparison emits one
HIGH/MISMATCH `eob_vs_bill_amount` result with `potential_overcharge = bill - eob`
exactly when that difference is positive; and the billing reconciler run on such
a matched pair emits exactly that one result. -/
theorem C4_eob_vs_bill_amount (p b : ℚ) (prov : String)
    (hdiff : |p - b| > (1/100 : ℚ)) :
    (∃ r, _compare_amounts (.num p) (.num b) prov = .ok [r] ∧
      r.check_name = "eob_vs_bill_amount" ∧ r.severity = .HIGH ∧
      r.status = .MISMATCH ∧
      r.potential_overcharge = (if b - p > 0 then some (b - p) else Option.none)) ∧
    (∃ r, run_billing_reconciliation_checks [c4Eob p, c4Bill b] = .ok [r] ∧
      r.check_name = "eob_vs_bill_amount" ∧ r.severity = .HIGH ∧
      r.status = .MISMATCH ∧
      r.potential_overcharge = (if b - p > 0 then some (b - p) else Option.none)) := by
  obtain ⟨r, hr, h1, h2, h3, h4⟩ := _compare_amounts_num prov hdiff
  obtain ⟨r2, hr2, g1, g2, g3, g4⟩ := _compare_amounts_num "hospital a" hdiff
  exact ⟨⟨r, hr, h1, h2, h3, h4⟩, ⟨r2, run_billing_pair hr2, g1, g2, g3, g4⟩⟩

/-- C4 witness: the Scenario B amounts (EOB patient responsibility 200, bill
balance 500) yield exactly one `eob_vs_bill_amount` result with
`potential_overcharge = 300`. -/
theorem C4_witness :
    |(200 : ℚ) - 500| > (1/100 : ℚ) ∧
    ((if (500 : ℚ) - 200 > 0 then some ((500 : ℚ) - 200) else Option.none) = some 300) ∧
    ((∃ r, _compare_amounts (.num 200) (.num 500) "hospital a" = .ok [r] ∧
      r.check_name = "eob_vs_bill_amount" ∧ r.severity = .HIGH ∧
      r.status = .MISMATCH ∧
      r.potential_overcharge =
        (if (500 : ℚ) - 200 > 0 then some ((500 : ℚ) - 200) else Option.none)) ∧
    (∃ r, run_billing_reconciliation_checks [c4Eob 200, c4Bill 500] = .ok [r] ∧
      r.check_name = "eob_vs_bill_amount" ∧ r.severity = .HIGH ∧
      r.status = .MISMATCH ∧
      r.potential_overcharge =
        (if (500 : ℚ) - 200 > 0 then some ((500 : ℚ) - 200) else Option.none))) :=
  ⟨by norm_num, by norm_num,
    C4_eob_vs_bill_amount 200 500 "hospital a" (by norm_num)⟩

/-- Group keys with string codes are equal whenever their Python tuple
equality holds. -/
theorem groupKeyBeq_eq_of_str {a b : GroupKey} {s t : String} (ha : a.1 = .str s)
    (hb : b.1 = .str t) (h : groupKeyBeq a b = true) : a = b := by
  unfold groupKeyBeq at h
  rw [Bool.and_eq_true] at h
  rcases h with ⟨h1, h2⟩
  have e1 : a.1 = b.1 := by
    rw [ha, hb]
    rw [ha, hb] at h1
    have h3 : (s == t) = true := h1
    rw [eq_of_beq h3]
  have e2 : a.2 = b.2 := eq_of_beq h2
  exact Prod.ext e1 e2

/-- `groupAppend` preserves existing group membership. -/
theorem groupAppend_mem_preserve {groups : List (GroupKey × List ServiceLine)}
    {key : GroupKey} {line l : ServiceLine}
    (h : ∃ g ∈ groups, l ∈ g.2) :
    ∃ g ∈ groupAppend groups key line, l ∈ g.2 := by
  obtain ⟨g, hg, hl⟩ := h
  unfold groupAppend
  by_cases hany : groups.any (fun g => groupKeyBeq g.1 key) = true
  · rw [if_pos hany]
    by_cases hk : groupKeyBeq g.1 key = true
    · refine ⟨(g.1, g.2 ++ [line]), ?_, List.mem_append_left _ hl⟩
      have hm := List.mem_map_of_mem
        (fun g => if groupKeyBeq g.1 key then (g.1, g.2 ++ [line]) else g) hg
      simpa [hk] using hm
    · refine ⟨g, ?_, hl⟩
      have hm := List.mem_map_of_mem
        (fun g => if groupKeyBeq g.1 key then (g.1, g.2 ++ [line]) else g) hg
      simpa [hk] using hm
  · rw [if_neg hany]
    exact ⟨g, List.mem_append_left _ hg, hl⟩

/-- The appended line is a member of some group after `groupAppend`. -/
theorem groupAppend_mem_self (groups : List (GroupKey × List ServiceLine))
    (key : GroupKey) (line : ServiceLine) :
    ∃ g ∈ groupAppend groups key line, line ∈ g.2 := by
  unfold groupAppend
  by_cases hany : groups.any (fun g => groupKeyBeq g.1 key) = true
  · rw [if_pos hany]
    obtain ⟨g, hg, hk⟩ := List.any_eq_true.mp hany
    refine ⟨(g.1, g.2 ++ [line]), ?_, List.mem_append_right _ (List.mem_singleton_self _)⟩
    have hm := List.mem_map_of_mem
      (fun g => if groupKeyBeq g.1 key then (g.1, g.2 ++ [line]) else g) hg
    simpa [hk] using hm
  · rw [if_neg hany]
    exact ⟨(key, [line]), List.mem_append_right _ (List.mem_singleton_self _),
      List.mem_singleton_self _⟩

/-- The grouping invariant: each group is keyed by a string code and holds
exactly lines carrying that key. -/
def GroupsWF (groups : List (GroupKey × List ServiceLine)) : Prop :=
  ∀ g ∈ groups, (∃ s, g.1.1 = PyVal.str s) ∧
    ∀ l ∈ g.2, l.cpt_code.truthy = true ∧ (l.cpt_code, l.service_date) = g.1

theorem groupAppend_wf {groups : List (GroupKey × List ServiceLine)}
    {line : ServiceLine} {t : String} (hw : GroupsWF groups)
    (hcode : line.cpt_code = .str t) (htr : line.cpt_code.truthy = true) :
    GroupsWF (groupAppend groups (line.cpt_code, line.service_date) line) := by
  unfold groupAppend
  by_cases hany : groups.any
      (fun g => groupKeyBeq g.1 (line.cpt_code, line.service_date)) = true
  · rw [if_pos hany]
    intro g2 hg2
    obtain ⟨g, hg, hgeq⟩ := List.mem_map.mp hg2
    by_cases hk : groupKeyBeq g.1 (line.cpt_code, line.service_date) = true
    · rw [if_pos hk] at hgeq
      obtain ⟨⟨s, hs⟩, hmem⟩ := hw g hg
      have hkey : g.1 = (line.cpt_code, line.service_date) :=
        groupKeyBeq_eq_of_str hs (by rw [hcode]) hk
      subst hgeq
      refine ⟨⟨s, hs⟩, fun l hl => ?_⟩
      rcases List.mem_append.mp hl with hl | hl
      · exact hmem l hl
      · rw [List.mem_singleton.mp hl]
        exact ⟨htr, by rw [hkey]⟩
    · rw [if_neg hk] at hgeq
      subst hgeq
      exact hw g hg
  · rw [if_neg hany]
    intro g2 hg2
    rcases List.mem_append.mp hg2 with hg | hg
    · exact hw g2 hg
    · rw [List.mem_singleton.mp hg]
      refine ⟨⟨t, hcode⟩, fun l hl => ?_⟩
      rw [List.mem_singleton.mp hl]
      exact ⟨htr, rfl⟩

/-- Full characterization of `groupLines` on lines whose codes are absent or
strings: groups hold exactly the truthy-coded lines under their own
`(code, date)` key, and every truthy-coded line lands in some group. -/
theorem groupLines_spec {lines : List ServiceLine}
    {groups : List (GroupKey × List ServiceLine)}
    (hstr : ∀ l ∈ lines, l.cpt_code = PyVal.none ∨ ∃ s, l.cpt_code = .str s)
    (h : groupLines lines = .ok groups) :
    GroupsWF groups ∧
    (∀ l ∈ lines, l.cpt_code.truthy = true → ∃ g ∈ groups, l ∈ g.2) := by
  unfold groupLines at h
  suffices hgen : ∀ (ls : List ServiceLine)
      (g0 gs : List (GroupKey × List ServiceLine)),
      (∀ l ∈ ls, l.cpt_code = PyVal.none ∨ ∃ s, l.cpt_code = .str s) →
      List.foldlM (fun groups line =>
        if line.cpt_code.truthy then
          if !line.cpt_code.hashable then (throw "TypeError" : Py (List (GroupKey × List ServiceLine)))
          else pure (groupAppend groups (line.cpt_code, line.service_date) line)
        else pure groups) g0 ls = Except.ok gs →
      GroupsWF g0 →
      (GroupsWF gs ∧
        (∀ l, (∃ g ∈ g0, l ∈ g.2) → ∃ g ∈ gs, l ∈ g.2) ∧
        (∀ l ∈ ls, l.cpt_code.truthy = true → ∃ g ∈ gs, l ∈ g.2)) by
    obtain ⟨h1, h2, h3⟩ := hgen lines [] groups hstr h (fun g hg => absurd hg (List.not_mem_nil g))
    exact ⟨h1, h3⟩
  intro ls
  induction ls with
  | nil =>
    intro g0 gs hstr0 h0 hwf
    rw [List.foldlM_nil, py_pure_eq] at h0
    injection h0 with h0
    subst h0
    exact ⟨hwf, fun l hl => hl, fun l hl => absurd hl (List.not_mem_nil l)⟩
  | cons a ls ih =>
    intro g0 gs hstr0 h0 hwf
    rw [List.foldlM_cons] at h0
    obtain ⟨c, hc, hrest⟩ := bind_eq_ok h0
    by_cases htr : a.cpt_code.truthy = true
    · rw [if_pos htr] at hc
      rcases hstr0 a (List.mem_cons_self a ls) with hnone | ⟨t, ht⟩
      · rw [hnone] at htr; simp [PyVal.truthy] at htr
      have hhash : (!a.cpt_code.hashable) = false := by
        rw [ht]; rfl
      rw [hhash] at hc
      rw [if_neg (by simp)] at hc
      injection hc with hc
      subst hc
      obtain ⟨w1, w2, w3⟩ := ih _ _ (fun l hl => hstr0 l (List.mem_cons_of_mem a hl))
        hrest (groupAppend_wf hwf ht htr)
      refine ⟨w1, fun l hl => w2 l (groupAppend_mem_preserve hl), fun l hl hltr => ?_⟩
      rcases List.mem_cons.mp hl with rfl | hl
      · exact w2 l (groupAppend_mem_self g0 (l.cpt_code, l.service_date) l)
      · exact w3 l hl hltr
    · rw [if_neg (by simpa using htr)] at hc
      injection hc with hc
      subst hc
      obtain ⟨w1, w2, w3⟩ := ih _ _ (fun l hl => hstr0 l (List.mem_cons_of_mem a hl))
        hrest hwf
      refine ⟨w1, w2, fun l hl hltr => ?_⟩
      rcases List.mem_cons.mp hl with rfl | hl
      · exact absurd hltr (by simpa using htr)
      · exact w3 l hl hltr


/-- Every result of `_dup_same_checks` is named `duplicate_cpt_same_provider`. -/
theorem _dup_same_checks_names {cpt_code : PyVal} {service_date : Option Int}
    {by_provider : List (PyVal × List ServiceLine)} {rs : List ValidationResult}
    (h : _dup_same_checks cpt_code service_date by_provider = .ok rs) :
    ∀ r ∈ rs, r.check_name = "duplicate_cpt_same_provider" := by
  unfold _dup_same_checks at h
  refine foldlM_induction
    (P := fun rs => ∀ r ∈ rs, r.check_name = "duplicate_cpt_same_provider")
    _ [] h (fun r hr => absurd hr (List.not_mem_nil r)) ?_
  intro s a c ha hP hstep
  rcases ite_eq_ok hstep with ⟨hc, hstep⟩ | ⟨hc, hstep⟩
  · obtain ⟨q, hq, hstep⟩ := bind_eq_ok hstep
    rw [← pure_eq_ok hstep]
    intro r hr
    rcases List.mem_append.mp hr with hr | hr
    · exact hP r hr
    · rw [List.mem_singleton.mp hr]
  · rw [← pure_eq_ok hstep]
    exact hP

/-- On a group with at least two distinct providers and documents,
`processGroup` emits exactly one `duplicate_cpt_cross_provider` result, a
MEDIUM/WARNING result whose overcharge is half the summed amounts when that
sum is positive and absent otherwise. -/
theorem processGroup_cross_pos (cpt : PyVal) (d : Option Int)
    {occs : List ServiceLine} {by_provider : List (PyVal × List ServiceLine)}
    (hocc : ∀ l ∈ occs, LineConf l)
    (hbp : groupByProvider occs = .ok by_provider)
    (hp : 2 ≤ by_provider.length)
    (hd : 2 ≤ ((occs.map fun o => o.doc_id).dedup).length) :
    ∃ total rs, sumAmounts occs = .ok total ∧ processGroup cpt d occs = .ok rs ∧
      ∃ r, rs.filter (fun r => r.check_name == "duplicate_cpt_cross_provider") = [r] ∧
        r.severity = .MEDIUM ∧ r.status = .WARNING ∧
        r.potential_overcharge = (if 0 < total then some (total / 2) else Option.none) := by
  obtain ⟨bp2, hbp2, hprops⟩ := groupByProvider_ok hocc
  rw [hbp] at hbp2
  injection hbp2 with hbp2
  subst hbp2
  obtain ⟨total, htotal⟩ := sumAmounts_ok hocc
  have hlen : ¬(occs.length < 2) := by
    have h1 := List.Sublist.length_le (List.dedup_sublist (occs.map fun o => o.doc_id))
    rw [List.length_map] at h1
    omega
  have hpstr : ∀ p ∈ by_provider.map Prod.fst, ∃ s, p = PyVal.str s := by
    intro p hpmem
    obtain ⟨g, hg, hgeq⟩ := List.mem_map.mp hpmem
    obtain ⟨⟨s, hs⟩, -⟩ := hprops g hg
    refine ⟨s, ?_⟩
    rw [← hgeq]
    exact hs
  obtain ⟨pl, hpl⟩ := providerListStr_ok hpstr
  obtain ⟨rs2, hrs2⟩ := @_dup_same_checks_ok cpt d _
    (fun g hg l hl => (hprops g hg).2 l hl)
  have hn2 := _dup_same_checks_names hrs2
  have hcross : ∃ r0, _dup_cross_check cpt d occs (by_provider.map Prod.fst) = .ok [r0] ∧
      r0.check_name = "duplicate_cpt_cross_provider" ∧ r0.severity = .MEDIUM ∧
      r0.status = .WARNING ∧
      r0.potential_overcharge = (if 0 < total then some (total / 2) else Option.none) := by
    unfold _dup_cross_check
    rw [if_pos (by rw [List.length_map]; omega)]
    rw [if_pos (by omega)]
    rw [htotal, py_bind_ok, hpl, py_bind_ok]
    exact ⟨_, rfl, rfl, rfl, rfl, rfl⟩
  obtain ⟨r0, hc1, hc2, hc3, hc4, hc5⟩ := hcross
  refine ⟨total, [r0] ++ rs2, htotal, ?_, ?_⟩
  · unfold processGroup
    rw [if_neg hlen, hbp, py_bind_ok]
    show (_dup_cross_check cpt d occs (by_provider.map Prod.fst) >>= fun crossResults =>
      _dup_same_checks cpt d by_provider >>= fun sameResults =>
      (pure (crossResults ++ sameResults) : Py (List ValidationResult))) = .ok ([r0] ++ rs2)
    rw [hc1, py_bind_ok, hrs2, py_bind_ok]
    rfl
  · refine ⟨r0, ?_, hc3, hc4, hc5⟩
    rw [List.filter_append]
    have h2 : rs2.filter (fun r => r.check_name == "duplicate_cpt_cross_provider") = [] :=
      List.filter_eq_nil_iff.mpr (fun r hr => by simp [hn2 r hr])
    rw [h2]
    simp [hc2]

/-- On a group drawn from a single provider or a single document,
`processGroup` emits no `duplicate_cpt_cross_provider` result. -/
theorem processGroup_cross_neg (cpt : PyVal) (d : Option Int)
    {occs : List ServiceLine} {by_provider : List (PyVal × List ServiceLine)}
    (hocc : ∀ l ∈ occs, LineConf l)
    (hbp : groupByProvider occs = .ok by_provider)
    (hor : by_provider.length ≤ 1 ∨ ((occs.map fun o => o.doc_id).dedup).length ≤ 1) :
    ∃ rs, processGroup cpt d occs = .ok rs ∧
      rs.filter (fun r => r.check_name == "duplicate_cpt_cross_provider") = [] := by
  obtain ⟨bp2, hbp2, hprops⟩ := groupByProvider_ok hocc
  rw [hbp] at hbp2
  injection hbp2 with hbp2
  subst hbp2
  unfold processGroup
  by_cases hlen : occs.length < 2
  · rw [if_pos hlen]
    exact ⟨[], rfl, rfl⟩
  · rw [if_neg hlen, hbp, py_bind_ok]
    obtain ⟨rs2, hrs2⟩ := @_dup_same_checks_ok cpt d _
      (fun g hg l hl => (hprops g hg).2 l hl)
    have hn2 := _dup_same_checks_names hrs2
    have hc1 : _dup_cross_check cpt d occs (by_provider.map Prod.fst) = .ok [] := by
      unfold _dup_cross_check
      by_cases hp1 : (by_provider.map Prod.fst).length > 1
      · rw [if_pos hp1]
        have hdd : ¬(((occs.map fun o => o.doc_id).dedup).length > 1) := by
          rcases hor with hor | hor
          · rw [List.length_map] at hp1; omega
          · omega
        exact cond_eq_ok (fun hdd2 => absurd hdd2 hdd) (fun _ => rfl)
      · rw [if_neg hp1]
        rfl
    refine ⟨rs2, ?_, ?_⟩
    · show (_dup_cross_check cpt d occs (by_provider.map Prod.fst) >>= fun crossResults =>
        _dup_same_checks cpt d by_provider >>= fun sameResults =>
        (pure (crossResults ++ sameResults) : Py (List ValidationResult))) = .ok rs2
      rw [hc1, py_bind_ok, hrs2, py_bind_ok]
      rfl
    · exact List.filter_eq_nil_iff.mpr (fun r hr => by simp [hn2 r hr])

/-- C7: the duplicate detector groups lines by `(code, service_date)`
(dropping falsy codes, keeping a missing date as part of the key), and for
every group: when the lines span at least two distinct providers and two
distinct documents it emits exactly one MEDIUM/WARNING
`duplicate_cpt_cross_provider` result whose `potential_overcharge` is half
the summed line amounts (absent when that sum is not positive); a group from
a single provider or a single document yields no such result. -/
theorem C7_duplicate_cross_provider :
    (∀ (lines : List ServiceLine) (groups : List (GroupKey × List ServiceLine)),
      (∀ l ∈ lines, l.cpt_code = PyVal.none ∨ ∃ s, l.cpt_code = .str s) →
      groupLines lines = .ok groups →
      GroupsWF groups ∧
      (∀ l ∈ lines, l.cpt_code.truthy = true → ∃ g ∈ groups, l ∈ g.2)) ∧
    (∀ (cpt : PyVal) (d : Option Int) (occs : List ServiceLine)
        (by_provider : List (PyVal × List ServiceLine)),
      (∀ l ∈ occs, LineConf l) → groupByProvider occs = .ok by_provider →
      (2 ≤ by_provider.length → 2 ≤ ((occs.map fun o => o.doc_id).dedup).length →
        ∃ total rs, sumAmounts occs = .ok total ∧ processGroup cpt d occs = .ok rs ∧
          ∃ r, rs.filter (fun r => r.check_name == "duplicate_cpt_cross_provider") = [r] ∧
            r.severity = .MEDIUM ∧ r.status = .WARNING ∧
            r.potential_overcharge = (if 0 < total then some (total / 2) else Option.none)) ∧
      ((by_provider.length ≤ 1 ∨ ((occs.map fun o => o.doc_id).dedup).length ≤ 1) →
        ∃ rs, processGroup cpt d occs = .ok rs ∧
          rs.filter (fun r => r.check_name == "duplicate_cpt_cross_provider") = [])) :=
  ⟨fun _ _ hstr h => groupLines_spec hstr h,
   fun cpt d _ _ hocc hbp =>
     ⟨fun hp hd => processGroup_cross_pos cpt d hocc hbp hp hd,
      fun hor => processGroup_cross_neg cpt d hocc hbp hor⟩⟩

/-- Scenario-C service line: CPT 99213 on day 100 from Hospital A, $150. -/
def c7line1 : ServiceLine :=
  { cpt_code := .str "99213", service_date := some 100, description := PyVal.none
    amount := .num 150, source := "EOB", doc_id := "doc-1"
    provider := .str "Hospital A" }

/-- Scenario-C service line: the same CPT and day from Hospital B, $150. -/
def c7line2 : ServiceLine :=
  { cpt_code := .str "99213", service_date := some 100, description := PyVal.none
    amount := .num 150, source := "MEDICAL_BILL", doc_id := "doc-2"
    provider := .str "Hospital B" }

/-- C7 witness: the two Scenario-C lines form one group spanning two
providers and two documents, and `processGroup` emits exactly one
cross-provider duplicate result for them. -/
theorem C7_witness :
    (GroupsWF [(((PyVal.str "99213", some 100) : GroupKey), [c7line1, c7line2])] ∧
      (∀ l ∈ [c7line1, c7line2], l.cpt_code.truthy = true →
        ∃ g ∈ [(((PyVal.str "99213", some 100) : GroupKey), [c7line1, c7line2])], l ∈ g.2)) ∧
    (∃ total rs, sumAmounts [c7line1, c7line2] = .ok total ∧
      processGroup (.str "99213") (some 100) [c7line1, c7line2] = .ok rs ∧
      ∃ r, rs.filter (fun r => r.check_name == "duplicate_cpt_cross_provider") = [r] ∧
        r.severity = .MEDIUM ∧ r.status = .WARNING ∧
        r.potential_overcharge = (if 0 < total then some (total / 2) else Option.none)) := by
  have hstr : ∀ l ∈ [c7line1, c7line2],
      l.cpt_code = PyVal.none ∨ ∃ s, l.cpt_code = .str s := by
    intro l hl
    rcases List.mem_cons.mp hl with rfl | hl
    · exact Or.inr ⟨"99213", rfl⟩
    rcases List.mem_cons.mp hl with rfl | hl
    · exact Or.inr ⟨"99213", rfl⟩
    · cases hl
  have hconf : ∀ l ∈ [c7line1, c7line2], LineConf l := by
    intro l hl
    rcases List.mem_cons.mp hl with rfl | hl
    · exact ⟨rfl, rfl, rfl⟩
    rcases List.mem_cons.mp hl with rfl | hl
    · exact ⟨rfl, rfl, rfl⟩
    · cases hl
  exact ⟨C7_duplicate_cross_provider.1 [c7line1, c7line2]
      [(((PyVal.str "99213", some 100) : GroupKey), [c7line1, c7line2])] hstr rfl,
    (C7_duplicate_cross_provider.2 (.str "99213") (some 100) [c7line1, c7line2]
      [(.str "Hospital A", [c7line1]), (.str "Hospital B", [c7line2])] hconf rfl).1
      (by decide) (by decide)⟩

/-- A result's `potential_overcharge`, when present, is strictly positive —
except for the two denial checks that copy billed amounts verbatim. -/
def OverOk (r : ValidationResult) : Prop :=
  r.check_name = "claim_denied" ∨ r.check_name = "line_item_denied" ∨
  ∀ v : ℚ, r.potential_overcharge = some v → 0 < v

/-- A result with no overcharge is `OverOk`. -/
theorem OverOk_of_none {r : ValidationResult}
    (h : r.potential_overcharge = Option.none) : OverOk r := by
  refine Or.inr (Or.inr (fun v hv => ?_))
  rw [h] at hv
  cases hv

/-- The billed-sum check's overcharge is a guarded absolute difference. -/
theorem _eob_billed_sum_check_over {data : Dict} {doc_id : String}
    {rs : List ValidationResult} (h : _eob_billed_sum_check data doc_id = .ok rs) :
    ∀ r ∈ rs, OverOk r := by
  unfold _eob_billed_sum_check at h
  rcases ite_eq_ok h with ⟨hc, h⟩ | ⟨hc, h⟩
  · obtain ⟨items, h1, h⟩ := bind_eq_ok h
    obtain ⟨line_sum, h2, h⟩ := bind_eq_ok h
    obtain ⟨tb, h3, h⟩ := bind_eq_ok h
    rcases ite_eq_ok h with ⟨hc2, h⟩ | ⟨hc2, h⟩
    · rw [← pure_eq_ok h]
      intro r hr
      rw [List.mem_singleton.mp hr]
      refine Or.inr (Or.inr (fun v hv => ?_))
      injection hv with hv
      rw [← hv]
      have ht : (0 : ℚ) < TOLERANCE := by norm_num [TOLERANCE]
      exact lt_trans ht hc2
    · rw [← pure_eq_ok h]
      intro r hr
      cases hr
  · rw [← pure_eq_ok h]
    intro r hr
    cases hr

/-- The paid-sum check never carries an overcharge. -/
theorem _eob_paid_sum_check_over {data : Dict} {doc_id : String}
    {rs : List ValidationResult} (h : _eob_paid_sum_check data doc_id = .ok rs) :
    ∀ r ∈ rs, OverOk r := by
  unfold _eob_paid_sum_check at h
  rcases ite_eq_ok h with ⟨hc, h⟩ | ⟨hc, h⟩
  · obtain ⟨items, h1, h⟩ := bind_eq_ok h
    obtain ⟨line_sum, h2, h⟩ := bind_eq_ok h
    obtain ⟨tip, h3, h⟩ := bind_eq_ok h
    rcases ite_eq_ok h with ⟨hc2, h⟩ | ⟨hc2, h⟩
    · rw [← pure_eq_ok h]
      intro r hr
      rw [List.mem_singleton.mp hr]
      exact OverOk_of_none rfl
    · rw [← pure_eq_ok h]
      intro r hr
      cases hr
  · rw [← pure_eq_ok h]
    intro r hr
    cases hr

/-- The breakdown check's overcharge is a guarded absolute difference. -/
theorem _eob_breakdown_check_over {data : Dict} {doc_id : String}
    {rs : List ValidationResult} (h : _eob_breakdown_check data doc_id = .ok rs) :
    ∀ r ∈ rs, OverOk r := by
  unfold _eob_breakdown_check at h
  rcases ite_eq_ok h with ⟨hc, h⟩ | ⟨hc, h⟩
  · obtain ⟨td, h1, h⟩ := bind_eq_ok h
    obtain ⟨tc, h2, h⟩ := bind_eq_ok h
    obtain ⟨tco, h3, h⟩ := bind_eq_ok h
    obtain ⟨tp, h4, h⟩ := bind_eq_ok h
    rcases ite_eq_ok h with ⟨hc2, h⟩ | ⟨hc2, h⟩
    · rw [← pure_eq_ok h]
      intro r hr
      rw [List.mem_singleton.mp hr]
      refine Or.inr (Or.inr (fun v hv => ?_))
      rw [Bool.and_eq_true, decide_eq_true_eq, decide_eq_true_eq] at hc2
      by_cases hlt : td + tc + tco < tp
      · rw [if_pos hlt] at hv
        injection hv with hv
        rw [← hv]
        have ht : (0 : ℚ) < TOLERANCE := by norm_num [TOLERANCE]
        exact lt_trans ht hc2.1
      · rw [if_neg hlt] at hv
        cases hv
    · rw [← pure_eq_ok h]
      intro r hr
      cases hr
  · rw [← pure_eq_ok h]
    intro r hr
    cases hr

/-- The bill line-sum check's overcharge is positive when present. -/
theorem _bill_line_sum_check_over {data : Dict} {doc_id : String}
    {rs : List ValidationResult} (h : _bill_line_sum_check data doc_id = .ok rs) :
    ∀ r ∈ rs, OverOk r := by
  unfold _bill_line_sum_check at h
  rcases ite_eq_ok h with ⟨hc, h⟩ | ⟨hc, h⟩
  · obtain ⟨items, h1, h⟩ := bind_eq_ok h
    obtain ⟨line_sum, h2, h⟩ := bind_eq_ok h
    obtain ⟨tc, h3, h⟩ := bind_eq_ok h
    rcases ite_eq_ok h with ⟨hc2, h⟩ | ⟨hc2, h⟩
    · rw [← pure_eq_ok h]
      intro r hr
      rw [List.mem_singleton.mp hr]
      refine Or.inr (Or.inr (fun v hv => ?_))
      by_cases hgt : tc > line_sum
      · rw [if_pos hgt] at hv
        injection hv with hv
        rw [← hv]
        exact sub_pos.mpr hgt
      · rw [if_neg hgt] at hv
        cases hv
    · rw [← pure_eq_ok h]
      intro r hr
      cases hr
  · rw [← pure_eq_ok h]
    intro r hr
    cases hr

/-- The balance check's overcharge is positive when present. -/
theorem _bill_balance_check_over {data : Dict} {doc_id : String}
    {rs : List ValidationResult} (h : _bill_balance_check data doc_id = .ok rs) :
    ∀ r ∈ rs, OverOk r := by
  unfold _bill_balance_check at h
  rcases ite_eq_ok h with ⟨hc, h⟩ | ⟨hc, h⟩
  · obtain ⟨adj, h1, h⟩ := bind_eq_ok h
    obtain ⟨ins, h2, h⟩ := bind_eq_ok h
    obtain ⟨pat, h3, h⟩ := bind_eq_ok h
    obtain ⟨tc, h4, h⟩ := bind_eq_ok h
    obtain ⟨bd, h5, h⟩ := bind_eq_ok h
    rcases ite_eq_ok h with ⟨hc2, h⟩ | ⟨hc2, h⟩
    · rw [← pure_eq_ok h]
      intro r hr
      rw [List.mem_singleton.mp hr]
      refine Or.inr (Or.inr (fun v hv => ?_))
      by_cases hgt : bd > tc - adj - ins - pat
      · rw [if_pos hgt] at hv
        injection hv with hv
        rw [← hv]
        exact sub_pos.mpr hgt
      · rw [if_neg hgt] at hv
        cases hv
    · rw [← pure_eq_ok h]
      intro r hr
      cases hr
  · rw [← pure_eq_ok h]
    intro r hr
    cases hr

/-- All EOB math results satisfy the overcharge invariant. -/
theorem _check_eob_math_over {data : Dict} {doc_id : String}
    {rs : List ValidationResult} (h : _check_eob_math data doc_id = .ok rs) :
    ∀ r ∈ rs, OverOk r := by
  unfold _check_eob_math at h
  obtain ⟨r1, h1, h⟩ := bind_eq_ok h
  obtain ⟨r2, h2, h⟩ := bind_eq_ok h
  obtain ⟨r3, h3, h⟩ := bind_eq_ok h
  rw [← pure_eq_ok h]
  intro r hr
  rcases List.mem_append.mp hr with hr | hr3
  · rcases List.mem_append.mp hr with hr1 | hr2
    · exact _eob_billed_sum_check_over h1 r hr1
    · exact _eob_paid_sum_check_over h2 r hr2
  · exact _eob_breakdown_check_over h3 r hr3

/-- All bill math results satisfy the overcharge invariant. -/
theorem _check_bill_math_over {data : Dict} {doc_id : String}
    {rs : List ValidationResult} (h : _check_bill_math data doc_id = .ok rs) :
    ∀ r ∈ rs, OverOk r := by
  unfold _check_bill_math at h
  obtain ⟨r4, h4, h⟩ := bind_eq_ok h
  obtain ⟨r5, h5, h⟩ := bind_eq_ok h
  rw [← pure_eq_ok h]
  intro r hr
  rcases List.mem_append.mp hr with hr4 | hr5
  · exact _bill_line_sum_check_over h4 r hr4
  · exact _bill_balance_check_over h5 r hr5

/-- Every math-checker result satisfies the overcharge invariant. -/
theorem run_math_checks_over {documents : List ProcessedDocument}
    {rs : List ValidationResult} (h : run_math_checks documents = .ok rs) :
    ∀ r ∈ rs, OverOk r := by
  unfold run_math_checks at h
  refine foldlM_induction (P := fun rs => ∀ r ∈ rs, OverOk r)
    _ [] h (fun r hr => absurd hr (List.not_mem_nil r)) ?_
  intro b doc c hdoc hP hstep
  rcases ite_eq_ok hstep with ⟨hc, hstep⟩ | ⟨hc, hstep⟩
  · obtain ⟨rs1, h1, hstep⟩ := bind_eq_ok hstep
    rw [← pure_eq_ok hstep]
    intro r hr
    rcases List.mem_append.mp hr with hr | hr
    · exact hP r hr
    · exact _check_eob_math_over h1 r hr
  rcases ite_eq_ok hstep with ⟨hc2, hstep⟩ | ⟨hc2, hstep⟩
  · obtain ⟨rs1, h1, hstep⟩ := bind_eq_ok hstep
    rw [← pure_eq_ok hstep]
    intro r hr
    rcases List.mem_append.mp hr with hr | hr
    · exact hP r hr
    · exact _check_bill_math_over h1 r hr
  · rw [← pure_eq_ok hstep]
    exact hP

/-- The matched-pair amount comparison only emits positive overcharges. -/
theorem _compare_amounts_over {eob_pr bill_bal : PyVal} {prov : String}
    {rs : List ValidationResult}
    (h : _compare_amounts eob_pr bill_bal prov = .ok rs) :
    ∀ r ∈ rs, OverOk r := by
  unfold _compare_amounts at h
  rcases ite_eq_ok h with ⟨hc, h⟩ | ⟨hc, h⟩
  · obtain ⟨p, h1, h⟩ := bind_eq_ok h
    obtain ⟨b, h2, h⟩ := bind_eq_ok h
    rcases ite_eq_ok h with ⟨hc2, h⟩ | ⟨hc2, h⟩
    · rw [← pure_eq_ok h]
      intro r hr
      rw [List.mem_singleton.mp hr]
      refine Or.inr (Or.inr (fun v hv => ?_))
      by_cases hgt : b - p > 0
      · rw [if_pos hgt] at hv
        injection hv with hv
        rw [← hv]
        exact hgt
      · rw [if_neg hgt] at hv
        cases hv
    · rw [← pure_eq_ok h]
      intro r hr
      cases hr
  · rw [← pure_eq_ok h]
    intro r hr
    cases hr

/-- The line-item comparison only emits positive overcharges. -/
theorem _compare_line_items_over {eob bill : ProcessedDocument}
    {rs : List ValidationResult} (h : _compare_line_items eob bill = .ok rs) :
    ∀ r ∈ rs, OverOk r := by
  unfold _compare_line_items at h
  obtain ⟨eob_items, h1, h⟩ := bind_eq_ok h
  obtain ⟨bill_items, h2, h⟩ := bind_eq_ok h
  obtain ⟨allowed_map, h3, h⟩ := bind_eq_ok h
  refine foldlM_induction (P := fun rs => ∀ r ∈ rs, OverOk r)
    _ [] h (fun r hr => absurd hr (List.not_mem_nil r)) ?_
  intro b item c hitem hP hstep
  rcases ite_eq_ok hstep with ⟨hc, hstep⟩ | ⟨hc, hstep⟩
  · obtain ⟨mem, h4, hstep⟩ := bind_eq_ok hstep
    rcases ite_eq_ok hstep with ⟨hc2, hstep⟩ | ⟨hc2, hstep⟩
    · obtain ⟨allowed, h5, hstep⟩ := bind_eq_ok hstep
      obtain ⟨a, h6, hstep⟩ := bind_eq_ok hstep
      rcases ite_eq_ok hstep with ⟨hc3, hstep⟩ | ⟨hc3, hstep⟩
      · rw [← pure_eq_ok hstep]
        intro r hr
        rcases List.mem_append.mp hr with hr | hr
        · exact hP r hr
        · rw [List.mem_singleton.mp hr]
          refine Or.inr (Or.inr (fun v hv => ?_))
          injection hv with hv
          rw [← hv]
          have h100 : (0 : ℚ) < 1 / 100 := by norm_num
          linarith
      · rw [← pure_eq_ok hstep]
        exact hP
    · rw [← pure_eq_ok hstep]
      exact hP
  · rw [← pure_eq_ok hstep]
    exact hP

/-- Every billing-reconciliation result satisfies the overcharge
invariant. -/
theorem run_billing_over {documents : List ProcessedDocument}
    {rs : List ValidationResult}
    (h : run_billing_reconciliation_checks documents = .ok rs) :
    ∀ r ∈ rs, OverOk r := by
  unfold run_billing_reconciliation_checks at h
  obtain ⟨st, hst, h⟩ := bind_eq_ok h
  have hst1 : ∀ r ∈ st.1, OverOk r := by
    refine foldlM_induction (P := fun st => ∀ r ∈ st.1, OverOk r) _ _ hst ?_ ?_
    · intro r hr
      rcases List.mem_append.mp hr with hr | hr
      · split at hr
        · rw [List.mem_singleton.mp hr]
          exact OverOk_of_none rfl
        · cases hr
      · split at hr
        · rw [List.mem_singleton.mp hr]
          exact OverOk_of_none rfl
        · cases hr
    · intro st2 eob c heob hP hstep
      obtain ⟨eprov, h1, hstep⟩ := bind_eq_ok hstep
      refine foldlM_induction (P := fun st => ∀ r ∈ st.1, OverOk r) _ _ hstep hP ?_
      intro st3 bill c2 hbill hP3 hstep3
      obtain ⟨bprov, h2, hstep3⟩ := bind_eq_ok hstep3
      rcases ite_eq_ok hstep3 with ⟨hc, hstep3⟩ | ⟨hc, hstep3⟩
      · obtain ⟨am, h3, hstep3⟩ := bind_eq_ok hstep3
        obtain ⟨li, h4, hstep3⟩ := bind_eq_ok hstep3
        rw [← pure_eq_ok hstep3]
        intro r hr
        rcases List.mem_append.mp hr with hr | hr
        · rcases List.mem_append.mp hr with hr | hr
          · exact hP3 r hr
          · exact _compare_amounts_over h3 r hr
        · exact _compare_line_items_over h4 r hr
      · rw [← pure_eq_ok hstep3]
        exact hP3
  obtain ⟨results2, hres2, h⟩ := bind_eq_ok h
  have hrs2 : ∀ r ∈ results2, OverOk r := by
    refine foldlM_induction (P := fun rs => ∀ r ∈ rs, OverOk r) _ _ hres2 hst1 ?_
    intro b eob c heob hP hstep
    rcases ite_eq_ok hstep with ⟨hc, hstep⟩ | ⟨hc, hstep⟩
    · rw [← pure_eq_ok hstep]
      exact hP
    · obtain ⟨prov, h1, hstep⟩ := bind_eq_ok hstep
      rw [← pure_eq_ok hstep]
      intro r hr
      rcases List.mem_append.mp hr with hr | hr
      · exact hP r hr
      · rw [List.mem_singleton.mp hr]
        exact OverOk_of_none rfl
  obtain ⟨results3, hres3, h⟩ := bind_eq_ok h
  have hrs3 : ∀ r ∈ results3, OverOk r := by
    refine foldlM_induction (P := fun rs => ∀ r ∈ rs, OverOk r) _ _ hres3 hrs2 ?_
    intro b bill c hbill hP hstep
    rcases ite_eq_ok hstep with ⟨hc, hstep⟩ | ⟨hc, hstep⟩
    · rw [← pure_eq_ok hstep]
      exact hP
    · obtain ⟨prov, h1, hstep⟩ := bind_eq_ok hstep
      rw [← pure_eq_ok hstep]
      intro r hr
      rcases List.mem_append.mp hr with hr | hr
      · exact hP r hr
      · rw [List.mem_singleton.mp hr]
        exact OverOk_of_none rfl
  rw [← pure_eq_ok h]
  exact hrs3

/-- The cross-provider duplicate check only emits positive overcharges. -/
theorem _dup_cross_check_over {cpt : PyVal} {d : Option Int}
    {occs : List ServiceLine} {providers : List PyVal}
    {rs : List ValidationResult}
    (h : _dup_cross_check cpt d occs providers = .ok rs) :
    ∀ r ∈ rs, OverOk r := by
  unfold _dup_cross_check at h
  rcases ite_eq_ok h with ⟨hc, h⟩ | ⟨hc, h⟩
  · rcases ite_eq_ok h with ⟨hc2, h⟩ | ⟨hc2, h⟩
    · obtain ⟨total, h1, h⟩ := bind_eq_ok h
      obtain ⟨pl, h2, h⟩ := bind_eq_ok h
      rw [← pure_eq_ok h]
      intro r hr
      rw [List.mem_singleton.mp hr]
      refine Or.inr (Or.inr (fun v hv => ?_))
      by_cases hgt : total > 0
      · rw [if_pos hgt] at hv
        injection hv with hv
        rw [← hv]
        positivity
      · rw [if_neg hgt] at hv
        cases hv
    · rw [← pure_eq_ok h]
      intro r hr
      cases hr
  · rw [← pure_eq_ok h]
    intro r hr
    cases hr

/-- The same-provider duplicate check never carries an overcharge. -/
theorem _dup_same_checks_over {cpt : PyVal} {d : Option Int}
    {by_provider : List (PyVal × List ServiceLine)} {rs : List ValidationResult}
    (h : _dup_same_checks cpt d by_provider = .ok rs) :
    ∀ r ∈ rs, OverOk r := by
  unfold _dup_same_checks at h
  refine foldlM_induction (P := fun rs => ∀ r ∈ rs, OverOk r)
    _ [] h (fun r hr => absurd hr (List.not_mem_nil r)) ?_
  intro s a c ha hP hstep
  rcases ite_eq_ok hstep with ⟨hc, hstep⟩ | ⟨hc, hstep⟩
  · obtain ⟨q, hq, hstep⟩ := bind_eq_ok hstep
    rw [← pure_eq_ok hstep]
    intro r hr
    rcases List.mem_append.mp hr with hr | hr
    · exact hP r hr
    · rw [List.mem_singleton.mp hr]
      exact OverOk_of_none rfl
  · rw [← pure_eq_ok hstep]
    exact hP

/-- Every per-group duplicate result satisfies the overcharge invariant. -/
theorem processGroup_over {cpt : PyVal} {d : Option Int}
    {occs : List ServiceLine} {rs : List ValidationResult}
    (h : processGroup cpt d occs = .ok rs) :
    ∀ r ∈ rs, OverOk r := by
  unfold processGroup at h
  rcases ite_eq_ok h with ⟨hc, h⟩ | ⟨hc, h⟩
  · rw [← pure_eq_ok h]
    intro r hr
    cases hr
  · obtain ⟨by_provider, h1, h⟩ := bind_eq_ok h
    obtain ⟨crossResults, h2, h⟩ := bind_eq_ok h
    obtain ⟨sameResults, h3, h⟩ := bind_eq_ok h
    rw [← pure_eq_ok h]
    intro r hr
    rcases List.mem_append.mp hr with hr | hr
    · exact _dup_cross_check_over h2 r hr
    · exact _dup_same_checks_over h3 r hr

/-- Every duplicate-detection result satisfies the overcharge invariant. -/
theorem run_duplicate_detection_over {documents : List ProcessedDocument}
    {rs : List ValidationResult} (h : run_duplicate_detection documents = .ok rs) :
    ∀ r ∈ rs, OverOk r := by
  unfold run_duplicate_detection at h
  obtain ⟨lines, h1, h⟩ := bind_eq_ok h
  obtain ⟨groups, h2, h⟩ := bind_eq_ok h
  refine foldlM_induction (P := fun rs => ∀ r ∈ rs, OverOk r)
    _ [] h (fun r hr => absurd hr (List.not_mem_nil r)) ?_
  intro b g c hg hP hstep
  obtain ⟨rs1, h3, hstep⟩ := bind_eq_ok hstep
  rw [← pure_eq_ok hstep]
  intro r hr
  rcases List.mem_append.mp hr with hr | hr
  · exact hP r hr
  · exact processGroup_over h3 r hr

/-- When `asNumM` succeeds, `asOverchargeM` yields exactly that number. -/
theorem asOvercharge_of_asNum {v : PyVal} {q : ℚ} (h : v.asNumM = .ok q) :
    v.asOverchargeM = .ok (some q) := by
  cases v with
  | num p =>
    injection h with h
    rw [show (PyVal.num p).asOverchargeM = (pure (some p) : Py (Option ℚ)) from rfl, h]
    rfl
  | pybool b =>
    injection h with h
    rw [show (PyVal.pybool b).asOverchargeM =
      (pure (some (if b then (1 : ℚ) else 0)) : Py (Option ℚ)) from rfl, h]
    rfl
  | none => exact Except.noConfusion h
  | str s => exact Except.noConfusion h
  | date d => exact Except.noConfusion h
  | list xs => exact Except.noConfusion h
  | dict kvs => exact Except.noConfusion h

/-- Every result of `_eob_claim_denied_check` is named `claim_denied`. -/
theorem _eob_claim_denied_names {today : Int} {data : Dict}
    {rs : List ValidationResult}
    (h : _eob_claim_denied_check today data = .ok rs) :
    ∀ r ∈ rs, r.check_name = "claim_denied" := by
  unfold _eob_claim_denied_check at h
  obtain ⟨cs, h1, h⟩ := bind_eq_ok h
  rcases ite_eq_ok h with ⟨hc, h⟩ | ⟨hc, h⟩
  · obtain ⟨pv, h2, h⟩ := bind_eq_ok h
    obtain ⟨d1, h3, h⟩ := bind_eq_ok h
    obtain ⟨ov, h4, h⟩ := bind_eq_ok h
    rw [← pure_eq_ok h]
    intro r hr
    rw [List.mem_singleton.mp hr]
  · rw [← pure_eq_ok h]
    intro r hr
    cases hr

/-- `claim_denied` results are exempted by name. -/
theorem _eob_claim_denied_check_over {today : Int} {data : Dict}
    {rs : List ValidationResult}
    (h : _eob_claim_denied_check today data = .ok rs) :
    ∀ r ∈ rs, OverOk r := by
  intro r hr
  have hn := _eob_claim_denied_names h r hr
  exact Or.inl hn

/-- `line_item_denied` results are exempted by name. -/
theorem _eob_line_denied_check_over {data : Dict} {rs : List ValidationResult}
    (h : _eob_line_denied_check data = .ok rs) :
    ∀ r ∈ rs, OverOk r := by
  intro r hr
  exact Or.inr (Or.inl (_eob_line_denied_names h r hr))

/-- The zero-allowed check's overcharge is guarded positive. -/
theorem _eob_zero_allowed_check_over {data : Dict} {rs : List ValidationResult}
    (h : _eob_zero_allowed_check data = .ok rs) :
    ∀ r ∈ rs, OverOk r := by
  unfold _eob_zero_allowed_check at h
  obtain ⟨items, hi, h⟩ := bind_eq_ok h
  refine foldlM_induction (P := fun rs => ∀ r ∈ rs, OverOk r)
    _ [] h (fun r hr => absurd hr (List.not_mem_nil r)) ?_
  intro acc item c hitem hP hstep
  rcases ite_eq_ok hstep with ⟨hc, hstep⟩ | ⟨hc, hstep⟩
  · obtain ⟨bq, h1, hstep⟩ := bind_eq_ok hstep
    rcases ite_eq_ok hstep with ⟨hc2, hstep⟩ | ⟨hc2, hstep⟩
    · obtain ⟨d3, h2, hstep⟩ := bind_eq_ok hstep
      rw [← pure_eq_ok hstep]
      intro r hr
      rcases List.mem_append.mp hr with hr | hr
      · exact hP r hr
      · rw [List.mem_singleton.mp hr]
        refine Or.inr (Or.inr (fun v hv => ?_))
        injection hv with hv
        rw [← hv]
        exact hc2
    · rw [← pure_eq_ok hstep]
      exact hP
  · rw [← pure_eq_ok hstep]
    exact hP

/-- The full-cost check's overcharge is guarded positive. -/
theorem _eob_full_cost_check_over {data : Dict} {rs : List ValidationResult}
    (h : _eob_full_cost_check data = .ok rs) :
    ∀ r ∈ rs, OverOk r := by
  unfold _eob_full_cost_check at h
  rcases ite_eq_ok h with ⟨hc, h⟩ | ⟨hc, h⟩
  · obtain ⟨tbq, h1, h⟩ := bind_eq_ok h
    rcases ite_eq_ok h with ⟨hc2, h⟩ | ⟨hc2, h⟩
    · obtain ⟨tprq, h2, h⟩ := bind_eq_ok h
      rcases ite_eq_ok h with ⟨hc3, h⟩ | ⟨hc3, h⟩
      · obtain ⟨pv, h3, h⟩ := bind_eq_ok h
        obtain ⟨ov, h4, h⟩ := bind_eq_ok h
        rw [← pure_eq_ok h]
        intro r hr
        rw [List.mem_singleton.mp hr]
        refine Or.inr (Or.inr (fun v hv => ?_))
        rw [asOvercharge_of_asNum h1] at h4
        injection h4 with h4
        rw [← h4] at hv
        injection hv with hv
        rw [← hv]
        rw [Bool.and_eq_true, decide_eq_true_eq] at hc2
        exact hc2.1
      · rw [← pure_eq_ok h]
        intro r hr
        cases hr
    · rw [← pure_eq_ok h]
      intro r hr
      cases hr
  · rw [← pure_eq_ok h]
    intro r hr
    cases hr

/-- All EOB coverage results satisfy the overcharge invariant. -/
theorem _check_eob_coverage_over {today : Int} {doc : ProcessedDocument}
    {rs : List ValidationResult}
    (h : _check_eob_coverage today doc = .ok rs) :
    ∀ r ∈ rs, OverOk r := by
  unfold _check_eob_coverage at h
  obtain ⟨r1, h1, h⟩ := bind_eq_ok h
  obtain ⟨r2, h2, h⟩ := bind_eq_ok h
  obtain ⟨r3, h3, h⟩ := bind_eq_ok h
  obtain ⟨r4, h4, h⟩ := bind_eq_ok h
  rw [← pure_eq_ok h]
  intro r hr
  rcases List.mem_append.mp hr with hr | hr4
  · rcases List.mem_append.mp hr with hr | hr3
    · rcases List.mem_append.mp hr with hr1 | hr2
      · exact _eob_claim_denied_check_over h1 r hr1
      · exact _eob_line_denied_check_over h2 r hr2
    · exact _eob_zero_allowed_check_over h3 r hr3
  · exact _eob_full_cost_check_over h4 r hr4

/-- Every coverage-checker result satisfies the overcharge invariant. -/
theorem run_coverage_checks_over {today : Int} {documents : List ProcessedDocument}
    {rs : List ValidationResult}
    (h : run_coverage_checks today documents = .ok rs) :
    ∀ r ∈ rs, OverOk r := by
  unfold run_coverage_checks at h
  obtain ⟨results, hres, h⟩ := bind_eq_ok h
  obtain ⟨cross, hcross, h⟩ := bind_eq_ok h
  rw [_cross_check_prior_auth_vs_eob_empty] at hcross
  injection hcross with hcross
  subst hcross
  rw [← pure_eq_ok h]
  have hres1 : ∀ r ∈ results, OverOk r := by
    refine foldlM_induction (P := fun rs => ∀ r ∈ rs, OverOk r)
      _ [] hres (fun r hr => absurd hr (List.not_mem_nil r)) ?_
    intro b doc c hdoc hP hstep
    rcases ite_eq_ok hstep with ⟨hc, hstep⟩ | ⟨hc, hstep⟩
    · obtain ⟨rs1, h1, hstep⟩ := bind_eq_ok hstep
      rw [← pure_eq_ok hstep]
      intro r hr
      rcases List.mem_append.mp hr with hr | hr
      · exact hP r hr
      · exact _check_eob_coverage_over h1 r hr
    rcases ite_eq_ok hstep with ⟨hc2, hstep⟩ | ⟨hc2, hstep⟩
    · rw [value_ne_PRIOR_AUTH doc.envelope.classified_type] at hc2
      cases hc2
    rcases ite_eq_ok hstep with ⟨hc3, hstep⟩ | ⟨hc3, hstep⟩
    · rw [value_ne_APPEAL_DECISION doc.envelope.classified_type] at hc3
      cases hc3
    · rw [← pure_eq_ok hstep]
      exact hP
  intro r hr
  rcases List.mem_append.mp hr with hr | hr
  · exact hres1 r hr
  · cases hr

/-- C9 (amended): every result emitted by any of the four checkers carries,
when present, a strictly positive `potential_overcharge` — except the
`claim_denied` and `line_item_denied` results, which copy the EOB's billed
amounts verbatim and may carry zero or a negative value. -/
theorem C9_overcharge_positive_amended :
    (∀ (documents : List ProcessedDocument) (rs : List ValidationResult),
      run_math_checks documents = .ok rs → ∀ r ∈ rs, OverOk r) ∧
    (∀ (documents : List ProcessedDocument) (rs : List ValidationResult),
      run_billing_reconciliation_checks documents = .ok rs → ∀ r ∈ rs, OverOk r) ∧
    (∀ (documents : List ProcessedDocument) (rs : List ValidationResult),
      run_duplicate_detection documents = .ok rs → ∀ r ∈ rs, OverOk r) ∧
    (∀ (today : Int) (documents : List ProcessedDocument) (rs : List ValidationResult),
      run_coverage_checks today documents = .ok rs → ∀ r ∈ rs, OverOk r) :=
  ⟨fun _ _ h => run_math_checks_over h, fun _ _ h => run_billing_over h,
   fun _ _ h => run_duplicate_detection_over h,
   fun _ _ _ h => run_coverage_checks_over h⟩

/-- C9 counterexample: a conforming denied EOB with `total_billed = 0` makes
the coverage checker emit a `claim_denied` result whose
`potential_overcharge` is present but equal to zero, contradicting the
claimed strict positivity. -/
theorem C9_counterexample_zero_overcharge :
    (run_coverage_checks 0 [mkDoc .EOB "doc-eob"
      [("claim_status", .str "denied"),
       ("provider", .dict [("name", .str "General Hospital")]),
       ("total_billed", .num 0)]]).map
      (fun rs => rs.map (fun r => (r.check_name, r.potential_overcharge))) =
      .ok [("claim_denied", some 0)] ∧ ¬((0 : ℚ) < 0) :=
  ⟨rfl, by norm_num⟩

/-- C9 witness: the amended invariant applied to the coverage run on a
concrete conforming denied EOB. -/
theorem C9_witness :
    ∃ rs, run_coverage_checks 0 [mkDoc .EOB "doc-c9" c6Data] = .ok rs ∧
      ∀ r ∈ rs, OverOk r := by
  have hconf : ∀ d ∈ [mkDoc .EOB "doc-c9" c6Data], docConforms d = true := by
    intro d hd
    rcases List.mem_cons.mp hd with rfl | hd
    · rfl
    · cases hd
  obtain ⟨rs, hrs⟩ := run_coverage_checks_ok 0 hconf
  exact ⟨rs, hrs, C9_overcharge_positive_amended.2.2.2 0 _ rs hrs⟩

/-- `_providers_match` rejects any pair with an empty name. -/
theorem providers_match_empty_left (n : String) : _providers_match "" n = false := by
  unfold _providers_match
  rw [if_pos (by simp)]

/-- `_providers_match` rejects any pair with an empty name (right). -/
theorem providers_match_empty_right (n : String) : _providers_match n "" = false := by
  unfold _providers_match
  rw [if_pos (by simp)]

/-- A successful provider match implies both normalized names are
non-empty. -/
theorem providers_match_ne {n1 n2 : String}
    (h : _providers_match n1 n2 = true) : n1 ≠ "" ∧ n2 ≠ "" := by
  constructor
  · intro h0
    rw [h0, providers_match_empty_left] at h
    cases h
  · intro h0
    rw [h0, providers_match_empty_right] at h
    cases h

/-- `insertStr` inserts nothing but its argument. -/
theorem insertStr_mem {xs : List String} {s id : String}
    (h : id ∈ insertStr xs s) : id ∈ xs ∨ id = s := by
  unfold insertStr at h
  split at h
  · exact Or.inl h
  · rcases List.mem_append.mp h with h | h
    · exact Or.inl h
    · exact Or.inr (List.mem_singleton.mp h)

/-- Members of the initial state survive a `foldlM` whose steps preserve
membership. -/
theorem foldlM_preserve {α β : Type} {f : List β → α → Py (List β)} :
    ∀ (xs : List α) (b0 b : List β), xs.foldlM f b0 = .ok b →
    (∀ acc a c, a ∈ xs → f acc a = .ok c → ∀ r ∈ acc, r ∈ c) →
    ∀ r ∈ b0, r ∈ b := by
  intro xs
  induction xs with
  | nil =>
    intro b0 b h _ r hr
    rw [List.foldlM_nil, py_pure_eq] at h
    injection h with h
    rw [← h]
    exact hr
  | cons a xs ih =>
    intro b0 b h hmono r hr
    rw [List.foldlM_cons] at h
    obtain ⟨c, hc, hrest⟩ := bind_eq_ok h
    exact ih c b hrest
      (fun acc x d hx => hmono acc x d (List.mem_cons_of_mem a hx))
      r (hmono b0 a c (List.mem_cons_self a xs) hc r hr)

/-- A `foldlM` whose steps preserve membership and whose step at some list
element always produces an element satisfying `φ` ends with such an
element. -/
theorem foldlM_exists {α β : Type} {f : List β → α → Py (List β)} {φ : β → Prop} :
    ∀ (xs : List α) (b0 b : List β), xs.foldlM f b0 = .ok b →
    (∀ acc a c, a ∈ xs → f acc a = .ok c → ∀ r ∈ acc, r ∈ c) →
    ∀ a0 ∈ xs, (∀ acc c, f acc a0 = .ok c → ∃ r ∈ c, φ r) →
    ∃ r ∈ b, φ r := by
  intro xs
  induction xs with
  | nil =>
    intro b0 b _ _ a0 ha0
    exact absurd ha0 (List.not_mem_nil a0)
  | cons a xs ih =>
    intro b0 b h hmono a0 ha0 hstep
    rw [List.foldlM_cons] at h
    obtain ⟨c, hc, hrest⟩ := bind_eq_ok h
    rcases List.mem_cons.mp ha0 with rfl | ha0
    · obtain ⟨r, hrc, hφ⟩ := hstep b0 c hc
      exact ⟨r, foldlM_preserve xs c b hrest
        (fun acc x d hx => hmono acc x d (List.mem_cons_of_mem a0 hx)) r hrc, hφ⟩
    · exact ih c b hrest
        (fun acc x d hx => hmono acc x d (List.mem_cons_of_mem a hx))
        a0 ha0 hstep

/-- An EOB whose normalized provider name is empty is never matched, so the
billing reconciler emits an `unmatched_eob` LOW/WARNING result for it
(assuming any EOB sharing its doc id also has an empty provider name). -/
theorem unmatched_eob_emitted {documents : List ProcessedDocument}
    {e0 : ProcessedDocument} {rs : List ValidationResult}
    (hmem : e0 ∈ documents) (htype : e0.envelope.classified_type = .EOB)
    (huniq : ∀ d ∈ documents, d.envelope.classified_type = .EOB →
      d.envelope.doc_id = e0.envelope.doc_id →
      docProviderNorm d.extracted_data = .ok "")
    (h : run_billing_reconciliation_checks documents = .ok rs) :
    ∃ r ∈ rs, r.check_name = "unmatched_eob" ∧ r.severity = .LOW ∧
      r.status = .WARNING := by
  unfold run_billing_reconciliation_checks at h
  obtain ⟨st, hst, h⟩ := bind_eq_ok h
  have hinv : ∀ id ∈ st.2.1, ∃ e,
      e ∈ documents.filter (fun d => d.envelope.classified_type.value == "EOB") ∧
      e.envelope.doc_id = id ∧
      ∀ s, docProviderNorm e.extracted_data = .ok s → s ≠ "" := by
    refine foldlM_induction (P := fun st => ∀ id ∈ st.2.1, ∃ e,
      e ∈ documents.filter (fun d => d.envelope.classified_type.value == "EOB") ∧
      e.envelope.doc_id = id ∧
      ∀ s, docProviderNorm e.extracted_data = .ok s → s ≠ "") _ _ hst
      (fun id hid => absurd hid (List.not_mem_nil id)) ?_
    intro st2 eob c heob hP hstep
    obtain ⟨eprov, h1, hstep⟩ := bind_eq_ok hstep
    refine foldlM_induction (P := fun st => ∀ id ∈ st.2.1, ∃ e,
      e ∈ documents.filter (fun d => d.envelope.classified_type.value == "EOB") ∧
      e.envelope.doc_id = id ∧
      ∀ s, docProviderNorm e.extracted_data = .ok s → s ≠ "") _ _ hstep hP ?_
    intro st3 bill c2 hbill hP3 hstep3
    obtain ⟨bprov, h2, hstep3⟩ := bind_eq_ok hstep3
    rcases ite_eq_ok hstep3 with ⟨hc, hstep3⟩ | ⟨hc, hstep3⟩
    · obtain ⟨am, h3, hstep3⟩ := bind_eq_ok hstep3
      obtain ⟨li, h4, hstep3⟩ := bind_eq_ok hstep3
      rw [← pure_eq_ok hstep3]
      intro id hid
      rcases insertStr_mem hid with hid | rfl
      · exact hP3 id hid
      · refine ⟨eob, heob, rfl, fun s hs => ?_⟩
        rw [h1] at hs
        injection hs with hs
        rw [← hs]
        rw [Bool.and_eq_true] at hc
        exact (providers_match_ne hc.1).1
    · rw [← pure_eq_ok hstep3]
      exact hP3
  obtain ⟨res0, me, mb⟩ := st
  obtain ⟨results2, hres2, h⟩ := bind_eq_ok h
  obtain ⟨results3, hres3, h⟩ := bind_eq_ok h
  rw [← pure_eq_ok h]
  have hnotin : ¬(me.contains e0.envelope.doc_id = true) := by
    intro hcont
    have hmemid : e0.envelope.doc_id ∈ me := by simpa using hcont
    obtain ⟨e, hef, hid, hne⟩ := hinv _ hmemid
    obtain ⟨hedocs, hpred⟩ := List.mem_filter.mp hef
    have hetype : e.envelope.classified_type = .EOB := value_eq_EOB.mp hpred
    exact hne "" (huniq e hedocs hetype hid) rfl
  have hE : e0 ∈ documents.filter
      (fun d => d.envelope.classified_type.value == "EOB") :=
    List.mem_filter.mpr ⟨hmem, by rw [htype]; rfl⟩
  have hφ2 : ∃ r ∈ results2, r.check_name = "unmatched_eob" ∧
      r.severity = .LOW ∧ r.status = .WARNING := by
    refine foldlM_exists _ _ _ hres2 ?_ e0 hE ?_
    · intro acc a c ha hc r hr
      rcases ite_eq_ok hc with ⟨h5, hc⟩ | ⟨h5, hc⟩
      · rw [← pure_eq_ok hc]
        exact hr
      · obtain ⟨prov, h6, hc⟩ := bind_eq_ok hc
        rw [← pure_eq_ok hc]
        exact List.mem_append_left _ hr
    · intro acc c hc
      rcases ite_eq_ok hc with ⟨h5, hc⟩ | ⟨h5, hc⟩
      · exact absurd h5 hnotin
      · obtain ⟨prov, h6, hc⟩ := bind_eq_ok hc
        rw [← pure_eq_ok hc]
        exact ⟨_, List.mem_append_right _ (List.mem_singleton_self _), rfl, rfl, rfl⟩
  obtain ⟨r, hr2, hφ⟩ := hφ2
  refine ⟨r, ?_, hφ⟩
  refine foldlM_preserve _ _ _ hres3 ?_ r hr2
  intro acc a c ha hc r2 hr3
  rcases ite_eq_ok hc with ⟨h5, hc⟩ | ⟨h5, hc⟩
  · rw [← pure_eq_ok hc]
    exact hr3
  · obtain ⟨prov, h6, hc⟩ := bind_eq_ok hc
    rw [← pure_eq_ok hc]
    exact List.mem_append_left _ hr3

/-- A bill whose normalized provider name is empty is never matched, so the
billing reconciler emits an `unmatched_bill` MEDIUM/WARNING result for it
(assuming any bill sharing its doc id also has an empty provider name). -/
theorem unmatched_bill_emitted {documents : List ProcessedDocument}
    {b0 : ProcessedDocument} {rs : List ValidationResult}
    (hmem : b0 ∈ documents) (htype : b0.envelope.classified_type = .MEDICAL_BILL)
    (huniq : ∀ d ∈ documents, d.envelope.classified_type = .MEDICAL_BILL →
      d.envelope.doc_id = b0.envelope.doc_id →
      docProviderNorm d.extracted_data = .ok "")
    (h : run_billing_reconciliation_checks documents = .ok rs) :
    ∃ r ∈ rs, r.check_name = "unmatched_bill" ∧ r.severity = .MEDIUM ∧
      r.status = .WARNING := by
  unfold run_billing_reconciliation_checks at h
  obtain ⟨st, hst, h⟩ := bind_eq_ok h
  have hinv : ∀ id ∈ st.2.2, ∃ e,
      e ∈ documents.filter (fun d => d.envelope.classified_type.value == "MEDICAL_BILL") ∧
      e.envelope.doc_id = id ∧
      ∀ s, docProviderNorm e.extracted_data = .ok s → s ≠ "" := by
    refine foldlM_induction (P := fun st => ∀ id ∈ st.2.2, ∃ e,
      e ∈ documents.filter (fun d => d.envelope.classified_type.value == "MEDICAL_BILL") ∧
      e.envelope.doc_id = id ∧
      ∀ s, docProviderNorm e.extracted_data = .ok s → s ≠ "") _ _ hst
      (fun id hid => absurd hid (List.not_mem_nil id)) ?_
    intro st2 eob c heob hP hstep
    obtain ⟨eprov, h1, hstep⟩ := bind_eq_ok hstep
    refine foldlM_induction (P := fun st => ∀ id ∈ st.2.2, ∃ e,
      e ∈ documents.filter (fun d => d.envelope.classified_type.value == "MEDICAL_BILL") ∧
      e.envelope.doc_id = id ∧
      ∀ s, docProviderNorm e.extracted_data = .ok s → s ≠ "") _ _ hstep hP ?_
    intro st3 bill c2 hbill hP3 hstep3
    obtain ⟨bprov, h2, hstep3⟩ := bind_eq_ok hstep3
    rcases ite_eq_ok hstep3 with ⟨hc, hstep3⟩ | ⟨hc, hstep3⟩
    · obtain ⟨am, h3, hstep3⟩ := bind_eq_ok hstep3
      obtain ⟨li, h4, hstep3⟩ := bind_eq_ok hstep3
      rw [← pure_eq_ok hstep3]
      intro id hid
      rcases insertStr_mem hid with hid | rfl
      · exact hP3 id hid
      · refine ⟨bill, hbill, rfl, fun s hs => ?_⟩
        rw [h2] at hs
        injection hs with hs
        rw [← hs]
        rw [Bool.and_eq_true] at hc
        exact (providers_match_ne hc.1).2
    · rw [← pure_eq_ok hstep3]
      exact hP3
  obtain ⟨res0, me, mb⟩ := st
  obtain ⟨results2, hres2, h⟩ := bind_eq_ok h
  obtain ⟨results3, hres3, h⟩ := bind_eq_ok h
  rw [← pure_eq_ok h]
  have hnotin : ¬(mb.contains b0.envelope.doc_id = true) := by
    intro hcont
    have hmemid : b0.envelope.doc_id ∈ mb := by simpa using hcont
    obtain ⟨e, hef, hid, hne⟩ := hinv _ hmemid
    obtain ⟨hedocs, hpred⟩ := List.mem_filter.mp hef
    have hetype : e.envelope.classified_type = .MEDICAL_BILL :=
      value_eq_MEDICAL_BILL.mp hpred
    exact hne "" (huniq e hedocs hetype hid) rfl
  have hB : b0 ∈ documents.filter
      (fun d => d.envelope.classified_type.value == "MEDICAL_BILL") :=
    List.mem_filter.mpr ⟨hmem, by rw [htype]; rfl⟩
  refine foldlM_exists _ _ _ hres3 ?_ b0 hB ?_
  · intro acc a c ha hc r hr
    rcases ite_eq_ok hc with ⟨h5, hc⟩ | ⟨h5, hc⟩
    · rw [← pure_eq_ok hc]
      exact hr
    · obtain ⟨prov, h6, hc⟩ := bind_eq_ok hc
      rw [← pure_eq_ok hc]
      exact List.mem_append_left _ hr
  · intro acc c hc
    rcases ite_eq_ok hc with ⟨h5, hc⟩ | ⟨h5, hc⟩
    · exact absurd h5 hnotin
    · obtain ⟨prov, h6, hc⟩ := bind_eq_ok hc
      rw [← pure_eq_ok hc]
      exact ⟨_, List.mem_append_right _ (List.mem_singleton_self _), rfl, rfl, rfl⟩

/-- C10: the provider-match predicate rejects every pair with an empty
normalized name, so an EOB whose normalized provider name is empty (absent
or blank) matches no bill and the reconciler always emits an `unmatched_eob`
LOW/WARNING result for it when a bill is present; symmetrically a bill with
an empty normalized provider name always yields an `unmatched_bill`
MEDIUM/WARNING result when an EOB is present.  (The doc-id side condition
rules out an unrelated same-id document claiming the match slot.) -/
theorem C10_empty_provider_unmatched :
    (∀ n : String, _providers_match "" n = false ∧ _providers_match n "" = false) ∧
    (∀ (documents : List ProcessedDocument) (e0 : ProcessedDocument)
        (rs : List ValidationResult),
      e0 ∈ documents → e0.envelope.classified_type = .EOB →
      (∃ b ∈ documents, b.envelope.classified_type = .MEDICAL_BILL) →
      (∀ d ∈ documents, d.envelope.classified_type = .EOB →
        d.envelope.doc_id = e0.envelope.doc_id →
        docProviderNorm d.extracted_data = .ok "") →
      run_billing_reconciliation_checks documents = .ok rs →
      ∃ r ∈ rs, r.check_name = "unmatched_eob" ∧ r.severity = .LOW ∧
        r.status = .WARNING) ∧
    (∀ (documents : List ProcessedDocument) (b0 : ProcessedDocument)
        (rs : List ValidationResult),
      b0 ∈ documents → b0.envelope.classified_type = .MEDICAL_BILL →
      (∃ e ∈ documents, e.envelope.classified_type = .EOB) →
      (∀ d ∈ documents, d.envelope.classified_type = .MEDICAL_BILL →
        d.envelope.doc_id = b0.envelope.doc_id →
        docProviderNorm d.extracted_data = .ok "") →
      run_billing_reconciliation_checks documents = .ok rs →
      ∃ r ∈ rs, r.check_name = "unmatched_bill" ∧ r.severity = .MEDIUM ∧
        r.status = .WARNING) :=
  ⟨fun n => ⟨providers_match_empty_left n, providers_match_empty_right n⟩,
   fun _ _ _ hmem htype _ huniq h => unmatched_eob_emitted hmem htype huniq h,
   fun _ _ _ hmem htype _ huniq h => unmatched_bill_emitted hmem htype huniq h⟩

/-- C10 witness: a packet with one provider-less EOB and one provider-less
bill produces both unmatched results. -/
theorem C10_witness :
    ∃ rs, run_billing_reconciliation_checks
        [mkDoc .EOB "eob-w" [], mkDoc .MEDICAL_BILL "bill-w" []] = .ok rs ∧
      (∃ r ∈ rs, r.check_name = "unmatched_eob" ∧ r.severity = .LOW ∧
        r.status = .WARNING) ∧
      (∃ r ∈ rs, r.check_name = "unmatched_bill" ∧ r.severity = .MEDIUM ∧
        r.status = .WARNING) := by
  have hconf : ∀ d ∈ [mkDoc .EOB "eob-w" [], mkDoc .MEDICAL_BILL "bill-w" []],
      docConforms d = true := by
    intro d hd
    rcases List.mem_cons.mp hd with rfl | hd
    · rfl
    rcases List.mem_cons.mp hd with rfl | hd
    · rfl
    · cases hd
  obtain ⟨rs, hrs⟩ := run_billing_reconciliation_checks_ok hconf
  have huniqE : ∀ d ∈ [mkDoc .EOB "eob-w" [], mkDoc .MEDICAL_BILL "bill-w" []],
      d.envelope.classified_type = .EOB →
      d.envelope.doc_id = (mkDoc .EOB "eob-w" []).envelope.doc_id →
      docProviderNorm d.extracted_data = .ok "" := by
    intro d hd ht _
    rcases List.mem_cons.mp hd with rfl | hd
    · rfl
    rcases List.mem_cons.mp hd with rfl | hd
    · cases ht
    · cases hd
  have huniqB : ∀ d ∈ [mkDoc .EOB "eob-w" [], mkDoc .MEDICAL_BILL "bill-w" []],
      d.envelope.classified_type = .MEDICAL_BILL →
      d.envelope.doc_id = (mkDoc .MEDICAL_BILL "bill-w" []).envelope.doc_id →
      docProviderNorm d.extracted_data = .ok "" := by
    intro d hd ht _
    rcases List.mem_cons.mp hd with rfl | hd
    · cases ht
    rcases List.mem_cons.mp hd with rfl | hd
    · rfl
    · cases hd
  refine ⟨rs, hrs, ?_, ?_⟩
  · exact C10_empty_provider_unmatched.2.1 _ _ rs (List.mem_cons_self _ _) rfl
      ⟨mkDoc .MEDICAL_BILL "bill-w" [],
        List.mem_cons_of_mem _ (List.mem_cons_self _ _), rfl⟩
      huniqE hrs
  · exact C10_empty_provider_unmatched.2.2 _ _ rs
      (List.mem_cons_of_mem _ (List.mem_cons_self _ _)) rfl
      ⟨mkDoc .EOB "eob-w" [], List.mem_cons_self _ _, rfl⟩
      huniqB hrs
